import Mathlib

/-!
# Auction backend: bid validation, settlement and auction lifecycle

A shallow embedding of the bidding, settlement and lifecycle handlers of the
auction backend (`backend/handlers/general.go`, `backend/handlers/admin.go`,
`backend/models/models.go`).

* The relational store is a record of tables (lists of rows).  `First` by
  primary key is a lookup by `id`; `Save` rewrites the row with the same `id`
  (inserting it when there is none) and stamps `UpdatedAt`.
* A transaction carries the state at `Begin` and a working state; `Rollback`
  yields the former, `Commit` the latter.
* Go `int` is the 64-bit signed integer type of the platforms the backend is
  built for.  Fields and request values are integers, and every `+`, `-` and
  `*` of the source on them is reduced to 64 bits two's complement (`wrapInt`),
  as the Go operators do.  Calendar years are far inside that range, so the
  year difference of `CalculateAge` is exact.
* A handler returns the new store, the HTTP response and the broadcast events.
* Storage writes whose error the handler checks can be made to fail through a
  record of fault flags.  Lookups fail exactly when the row is absent, except
  where a flag is provided.  Operations whose error the handler discards
  (`tx.Commit()` in `NextPlayer` and `CreateBid`, the `Save` of the exhausted
  branch of `NextPlayer`) are taken to succeed.
-/

namespace AuctionBackend

/-! ## Data model (`models/models.go`) -/

/-- Identifiers (`uuid.UUID`), with the order the store uses on primary keys. -/
abbrev UUID := Nat

/-- A `time.Time` value: a calendar date and the time elapsed since midnight. -/
structure Time where
  year : Nat
  month : Nat
  day : Nat
  clock : Nat
  deriving DecidableEq, Repr

/-- Row of the players table (the fields read or written by the handlers below). -/
structure Player where
  id : UUID
  gender : String
  dateOfBirth : Time
  currentTeamID : Option UUID
  basePrice : Int
  currentPrice : Int
  isSold : Bool
  updatedAt : Time
  deriving DecidableEq, Repr

/-- Row of the teams table. -/
structure Team where
  id : UUID
  totalPoints : Int
  usedPoints : Int
  playerCount : Int
  minPlayers : Int
  maxPlayers : Int
  updatedAt : Time
  deriving DecidableEq, Repr

/-- Row of the auctions table. -/
structure Auction where
  id : UUID
  status : String
  startTime : Time
  endTime : Option Time
  currentPlayerID : Option UUID
  currentBid : Int
  winningTeamID : Option UUID
  updatedAt : Time
  deriving DecidableEq, Repr

/-- Row of the bids table. -/
structure Bid where
  id : UUID
  auctionID : UUID
  playerID : UUID
  teamID : UUID
  amount : Int
  isWinning : Bool
  createdAt : Time
  updatedAt : Time
  deriving DecidableEq, Repr

/-- The relational store. -/
structure DB where
  auctions : List Auction
  players : List Player
  teams : List Team
  bids : List Bid
  deriving DecidableEq, Repr

/-- HTTP response of a handler: `200`, `201`, or an error status with its message. -/
inductive Response where
  | ok
  | created
  | error (code : Nat) (msg : String)
  deriving DecidableEq, Repr

/-- Result of running a handler. -/
structure Outcome where
  db : DB
  resp : Response
  events : List String
  deriving DecidableEq, Repr

/-- A handler that answers with an error and broadcasts nothing. -/
def reject (db : DB) (code : Nat) (msg : String) : Outcome :=
  { db := db, resp := Response.error code msg, events := [] }

/-! ## Store operations -/

/-- Rewrite the rows carrying the key of `row`; insert `row` when there is none. -/
def upsert {α : Type} (key : α → UUID) (row : α) (rows : List α) : List α :=
  if rows.any (fun r => key r == key row) then
    rows.map (fun r => if key r == key row then row else r)
  else rows ++ [row]

/-- Lookup of an auction by primary key (`DB.First(&auction, id)`). -/
def DB.firstAuction (db : DB) (id : UUID) : Option Auction :=
  db.auctions.find? (fun a => a.id == id)

/-- Lookup of a team by primary key. -/
def DB.firstTeam (db : DB) (id : UUID) : Option Team :=
  db.teams.find? (fun t => t.id == id)

/-- Lookup of a player by primary key. -/
def DB.firstPlayer (db : DB) (id : UUID) : Option Player :=
  db.players.find? (fun p => p.id == id)

/-- Writes an auction row back (`Save(&auction)`), stamping `UpdatedAt`. -/
def DB.saveAuction (now : Time) (db : DB) (a : Auction) : DB :=
  { db with auctions := upsert Auction.id { a with updatedAt := now } db.auctions }

/-- Writes a team row back (`Save(&team)`), stamping `UpdatedAt`. -/
def DB.saveTeam (now : Time) (db : DB) (t : Team) : DB :=
  { db with teams := upsert Team.id { t with updatedAt := now } db.teams }

/-- Writes a player row back (`Save(&player)`), stamping `UpdatedAt`. -/
def DB.savePlayer (now : Time) (db : DB) (p : Player) : DB :=
  { db with players := upsert Player.id { p with updatedAt := now } db.players }

/-- The bulk update `Model(&Bid{}).Where("auction_id = ?", id).Update("is_winning", false)`. -/
def DB.clearWinning (now : Time) (db : DB) (auctionID : UUID) : DB :=
  { db with bids := db.bids.map (fun b =>
      if b.auctionID == auctionID then { b with isWinning := false, updatedAt := now } else b) }

/-- Inserts a bid row (`Create(&bid)`). -/
def DB.createBid (db : DB) (b : Bid) : DB :=
  { db with bids := db.bids ++ [b] }

/-- A transaction: the store at `Begin` and the store as seen inside the transaction. -/
structure Tx where
  base : DB
  work : DB
  deriving DecidableEq, Repr

/-- Starts a transaction (`DB.Begin()`). -/
def DB.begin (db : DB) : Tx := { base := db, work := db }

/-- Discards the writes of the transaction. -/
def Tx.rollback (tx : Tx) : DB := tx.base

/-- Installs the writes of the transaction. -/
def Tx.commit (tx : Tx) : DB := tx.work

/-- Applies a write inside the transaction. -/
def Tx.exec (tx : Tx) (w : DB → DB) : Tx := { tx with work := w tx.work }

/-! ## Go `int` arithmetic -/

/-- Least value of a Go `int`. -/
def minInt : Int := -9223372036854775808

/-- Greatest value of a Go `int`. -/
def maxInt : Int := 9223372036854775807

/-- The Go `int` that an arithmetic operation yields when its exact result is `x`:
`x` reduced modulo `2^64` into the range from `minInt` to `maxInt`. -/
def wrapInt (x : Int) : Int :=
  (x + 9223372036854775808) % 18446744073709551616 - 9223372036854775808

/-- The integer is a value of the Go type `int`. -/
def isInt (x : Int) : Prop := minInt ≤ x ∧ x ≤ maxInt

instance (x : Int) : Decidable (isInt x) := by
  unfold isInt; infer_instance

/-! ## `CreateBid` (`handlers/general.go`) -/

/-- Minimum roster size used by the reserve rule. -/
def minPlayersRequired : Int := 12

/-- Price reserved for each player still to be bought. -/
def basePricePerPlayer : Int := 200

/-- Error text of the reserve rule. -/
def reserveMessage (minPointsForRemainingPlayers remainingPlayersNeeded maxSafeBid : Int) : String :=
  "Bid too high! You need at least " ++ toString minPointsForRemainingPlayers ++ " points for "
    ++ toString remainingPlayersNeeded ++ " more players. Max safe bid: " ++ toString maxSafeBid

/-- Status and price rules on the loaded auction (general.go 459-492):
the rejection, or `none` when both rules pass. -/
def checkAuction (auction : Auction) (amount : Int) : Option Response :=
  if auction.status ≠ "active" then
    some (Response.error 400 "Auction is not active")
  else if auction.currentBid = 0 then
    if amount < 200 then some (Response.error 400 "First bid must be at least â‚¹200")
    else none
  else
    if amount ≤ auction.currentBid then
      some (Response.error 400 "Bid must be higher than current bid")
    else none

/-- Budget, reserve and self-outbid rules on the loaded team (general.go 514-557):
the rejection, or `none` when all three pass. -/
def checkTeam (auction : Auction) (team : Team) (amount : Int) : Option Response :=
  let remainingPoints := wrapInt (team.totalPoints - team.usedPoints)
  if amount > remainingPoints then
    some (Response.error 400 "Insufficient points")
  else
    let playersAcquired := team.playerCount
    let remainingPlayersNeeded := wrapInt (wrapInt (minPlayersRequired - playersAcquired) - 1)
    let reserve : Option Response :=
      if remainingPlayersNeeded > 0 then
        let minPointsForRemainingPlayers := wrapInt (remainingPlayersNeeded * basePricePerPlayer)
        let pointsAfterBid := wrapInt (remainingPoints - amount)
        if pointsAfterBid < minPointsForRemainingPlayers then
          let maxSafeBid := wrapInt (remainingPoints - minPointsForRemainingPlayers)
          some (Response.error 400
            (reserveMessage minPointsForRemainingPlayers remainingPlayersNeeded maxSafeBid))
        else none
      else none
    match reserve with
    | some r => some r
    | none =>
      if auction.winningTeamID = some team.id then
        some (Response.error 400
          "You are already winning the current bid. Another team must bid first.")
      else none

/-- The bid checks of `CreateBid` on a loaded auction and team, in source order. -/
def bidChecks (auction : Auction) (team : Team) (amount : Int) : Option Response :=
  match checkAuction auction amount with
  | some r => some r
  | none => checkTeam auction team amount

/-- The local `remainingPoints` of the bid checks (general.go 515). -/
def remainingPoints (t : Team) : Int := wrapInt (t.totalPoints - t.usedPoints)

/-- The local `remainingPlayersNeeded` of the bid checks (general.go 530). -/
def remainingPlayersNeeded (t : Team) : Int :=
  wrapInt (wrapInt (minPlayersRequired - t.playerCount) - 1)

/-- The exact results of the operations that the bid checks carry out on the team and the
amount are `int` values: the remaining points, the number of players still needed and, when
that number is positive, the points to reserve and the points left after the bid. -/
def bidExact (t : Team) (amount : Int) : Prop :=
  isInt (t.totalPoints - t.usedPoints) ∧ isInt (12 - t.playerCount - 1)
    ∧ (0 < 12 - t.playerCount - 1 →
        isInt ((12 - t.playerCount - 1) * 200)
          ∧ isInt (t.totalPoints - t.usedPoints - amount))

instance (t : Team) (amount : Int) : Decidable (bidExact t amount) := by
  unfold bidExact; infer_instance

/-- Write failures of `CreateBid`. -/
structure BidFaults where
  updateBids : Bool
  createBid : Bool
  saveAuction : Bool
  deriving DecidableEq, Repr

/-- The handler `CreateBid`.  `auctionID` is the path parameter (`none` when it
is not a UUID), `body` the bound amount (`none` when the JSON does not bind, as for a
number that is not an `int` value),
`ctxTeamID` the `team_id` of the request context (`none` when unset, `some none`
when it is not a UUID), `fresh` the identifier the store gives the new bid. -/
def CreateBid (f : BidFaults) (now : Time) (fresh : UUID) (db : DB)
    (auctionID : Option UUID) (body : Option Int) (ctxTeamID : Option (Option UUID)) :
    Outcome :=
  match body with
  | none => reject db 400 "Invalid request data"
  | some amount =>
  -- `binding:"required"` refuses the zero value
  if amount = 0 then reject db 400 "Invalid request data" else
  match ctxTeamID with
  | none => reject db 401 "Team not found"
  | some teamID =>
  match auctionID with
  | none => reject db 400 "Invalid auction ID"
  | some auctionUUID =>
  match db.firstAuction auctionUUID with
  | none => reject db 404 "Auction not found"
  | some auction =>
  match checkAuction auction amount with
  | some r => { db := db, resp := r, events := [] }
  | none =>
  match teamID with
  | none => reject db 400 "Invalid team ID"
  | some teamUUID =>
  match db.firstTeam teamUUID with
  | none => reject db 404 "Team not found"
  | some team =>
  match checkTeam auction team amount with
  | some r => { db := db, resp := r, events := [] }
  | none =>
  match auction.currentPlayerID with
  | none =>
    -- dereference of a nil `CurrentPlayerID`, answered by the recovery middleware
    reject db 500 "Internal server error"
  | some playerID =>
  let bid : Bid :=
    { id := fresh, auctionID := auction.id, playerID := playerID, teamID := teamUUID,
      amount := amount, isWinning := true, createdAt := now, updatedAt := now }
  let tx := db.begin
  if f.updateBids then reject tx.rollback 500 "Failed to update bids" else
  let tx := tx.exec (fun d => d.clearWinning now auctionUUID)
  if f.createBid then reject tx.rollback 500 "Failed to create bid" else
  let tx := tx.exec (fun d => d.createBid bid)
  let auction := { auction with currentBid := amount, winningTeamID := some team.id,
                                updatedAt := now }
  if f.saveAuction then reject tx.rollback 500 "Failed to update auction" else
  let tx := tx.exec (fun d => d.saveAuction now auction)
  { db := tx.commit, resp := Response.created, events := ["new_bid"] }

/-! ## Player categories (`models/models.go`) -/

/-- Gregorian leap years. -/
def isLeap (y : Nat) : Bool := (y % 4 == 0 && y % 100 != 0) || y % 400 == 0

/-- Number of days of the year that precede the given month. -/
def daysBefore (leap : Bool) (month : Nat) : Nat :=
  let feb := if leap then 29 else 28
  (([31, feb, 31, 30, 31, 30, 31, 31, 30, 31, 30, 31].take (month - 1)).foldl (· + ·) 0)

/-- Day of the year (`Time.YearDay`), from 1. -/
def Time.yearDay (t : Time) : Nat := daysBefore (isLeap t.year) t.month + t.day

/-- The zero instant (`Time.IsZero`): January 1 of year 1, midnight. -/
def Time.isZero (t : Time) : Bool := t.year == 1 && t.month == 1 && t.day == 1 && t.clock == 0

/-- The value `CalculateAge` leaves in `Age` (a field that is not stored, hence 0 before). -/
def Player.CalculateAge (now : Time) (p : Player) : Int :=
  if !p.dateOfBirth.isZero then
    let age : Int := (now.year : Int) - (p.dateOfBirth.year : Int)
    if now.yearDay < p.dateOfBirth.yearDay then age - 1 else age
  else 0

/-- Category of a player from gender and age. -/
def Player.GetPlayerCategory (now : Time) (p : Player) : String :=
  if p.gender = "female" then "women"
  else if p.gender = "male" then
    if p.CalculateAge now < 35 then "men_under_35" else "men_35_plus"
  else "unknown"

/-! ## Player rotation (`handlers/admin.go`) -/

/-- The store expression `EXTRACT(YEAR FROM AGE(date_of_birth))`: whole years from the
date of birth to the current date at midnight. -/
def sqlAgeYears (now dob : Time) : Int :=
  let years : Int := (now.year : Int) - (dob.year : Int)
  if now.month < dob.month ∨ (now.month = dob.month ∧ now.day < dob.day)
      ∨ (now.month = dob.month ∧ now.day = dob.day ∧ 0 < dob.clock) then years - 1
  else years

/-- The category filter added to a query (`switch` on the category name); any other
name adds no filter. -/
def categoryFilter (now : Time) (category : String) (p : Player) : Bool :=
  if category = "women" then p.gender == "female"
  else if category = "men_under_35" then
    p.gender == "male" && decide (sqlAgeYears now p.dateOfBirth < 35)
  else if category = "men_35_plus" then
    p.gender == "male" && decide (sqlAgeYears now p.dateOfBirth ≥ 35)
  else true

/-- The row with the least primary key (`First` orders by `id`). -/
def firstByID : List Player → Option Player
  | [] => none
  | p :: ps =>
    match firstByID ps with
    | none => some p
    | some q => if p.id ≤ q.id then some p else some q

/-- The query `Where(cond).First(&player)` on the players table. -/
def DB.firstPlayerWhere (db : DB) (cond : Player → Bool) : Option Player :=
  firstByID (db.players.filter cond)

/-- Fixed category priority. -/
def categoryOrder : List String := ["women", "men_under_35", "men_35_plus"]

/-- Index of the category of the current player in `categoryOrder`, 0 when there is
no such category. -/
def startCategoryIndex (currentCategory : String) : Nat :=
  if currentCategory ≠ "" then
    match categoryOrder.findIdx? (fun category => category == currentCategory) with
    | some i => i
    | none => 0
  else 0

/-- The loop over the categories from the start index on (admin.go 375-399). -/
def scanCategories (now : Time) (db : DB) (start : Nat) (hasCurrent : Bool) :
    List (Nat × String) → Option Player
  | [] => none
  | (i, category) :: rest =>
    if i = start ∧ hasCurrent = true then scanCategories now db start hasCurrent rest
    else
      match db.firstPlayerWhere (fun p => !p.isSold && categoryFilter now category p) with
      | some nextPlayer => some nextPlayer
      | none => scanCategories now db start hasCurrent rest

/-- The selector `getNextPlayerByCategoryOrder`; `none` is `gorm.ErrRecordNotFound`. -/
def getNextPlayerByCategoryOrder (now : Time) (db : DB) (currentPlayerID : Option UUID) :
    Option Player :=
  let currentCategory : String :=
    match currentPlayerID with
    | none => ""
    | some id =>
      match db.firstPlayer id with
      | some currentPlayer => currentPlayer.GetPlayerCategory now
      | none => ""
  let start := startCategoryIndex currentCategory
  let sameCategory : Option Player :=
    match currentPlayerID with
    | none => none
    | some id =>
      db.firstPlayerWhere (fun p =>
        !p.isSold && decide (p.id > id) && categoryFilter now currentCategory p)
  match sameCategory with
  | some nextPlayer => some nextPlayer
  | none => scanCategories now db start currentPlayerID.isSome (categoryOrder.enum.drop start)

/-! ## `NextPlayer` (`handlers/admin.go`) -/

/-- Storage failures that `NextPlayer` answers with an error. -/
structure NextFaults where
  savePlayer : Bool
  loadTeam : Bool
  saveTeam : Bool
  saveAuction : Bool
  deriving DecidableEq, Repr

/-- Settlement of the departing player (admin.go 418-463): the store after the
committed transaction, or the error outcome after a rollback.  Nothing is done when
there is no winning team or the current player cannot be loaded (an unset
`CurrentPlayerID` is taken as a lookup that finds no row). -/
def settle (f : NextFaults) (now : Time) (db : DB) (auction : Auction) : Except Outcome DB :=
  match auction.winningTeamID with
  | none => Except.ok db
  | some winningTeamID =>
  match auction.currentPlayerID.bind db.firstPlayer with
  | none => Except.ok db
  | some currentPlayer =>
  let tx := db.begin
  let currentPlayer := { currentPlayer with isSold := true,
                                            currentTeamID := auction.winningTeamID,
                                            currentPrice := auction.currentBid }
  if f.savePlayer then Except.error (reject tx.rollback 500 "Failed to update player") else
  let tx := tx.exec (fun d => d.savePlayer now currentPlayer)
  match (if f.loadTeam then none else tx.work.firstTeam winningTeamID) with
  | none => Except.error (reject tx.rollback 500 "Failed to find winning team")
  | some winningTeam =>
  let winningTeam :=
    { winningTeam with usedPoints := wrapInt (winningTeam.usedPoints + auction.currentBid) }
  if f.saveTeam then Except.error (reject tx.rollback 500 "Failed to update team points") else
  let tx := tx.exec (fun d => d.saveTeam now winningTeam)
  Except.ok tx.commit

/-- The handler `NextPlayer`.  A path parameter that is not a UUID makes the lookup
fail like an absent auction. -/
def NextPlayer (f : NextFaults) (now : Time) (db : DB) (auctionID : UUID) : Outcome :=
  match db.firstAuction auctionID with
  | none => reject db 404 "Auction not found"
  | some auction =>
  match settle f now db auction with
  | Except.error out => out
  | Except.ok db =>
  match getNextPlayerByCategoryOrder now db auction.currentPlayerID with
  | none =>
    let auction := { auction with currentPlayerID := none, currentBid := 0,
                                  winningTeamID := none, updatedAt := now }
    { db := db.saveAuction now auction, resp := Response.ok, events := ["no_more_players"] }
  | some nextPlayer =>
    let auction := { auction with currentPlayerID := some nextPlayer.id, currentBid := 0,
                                  winningTeamID := none, updatedAt := now }
    if f.saveAuction then reject db 500 "Failed to update auction" else
    { db := db.saveAuction now auction, resp := Response.ok, events := ["next_player"] }

/-! ## `AssignPlayerToTeam` (`handlers/admin.go`) -/

/-- Storage failures that `AssignPlayerToTeam` answers with an error. -/
structure AssignFaults where
  savePlayer : Bool
  saveTeam : Bool
  commit : Bool
  deriving DecidableEq, Repr

/-- The handler `AssignPlayerToTeam`.  `teamID` is the path parameter, `body` the bound
request (`none` when the JSON does not bind, as for points that are not an `int` value):
the player id (`none` when it is not a UUID) and the points. -/
def AssignPlayerToTeam (f : AssignFaults) (now : Time) (db : DB)
    (teamID : Option UUID) (body : Option (Option UUID × Int)) : Outcome :=
  match body with
  | none => reject db 400 "Invalid request data"
  | some (playerID, points) =>
  -- `binding:"required,min=1"`
  if points < 1 then reject db 400 "Invalid request data" else
  match teamID with
  | none => reject db 400 "Invalid team ID"
  | some parsedTeamID =>
  match playerID with
  | none => reject db 400 "Invalid player ID"
  | some parsedPlayerID =>
  let tx := db.begin
  match tx.work.firstTeam parsedTeamID with
  | none => reject tx.rollback 404 "Team not found"
  | some team =>
  if wrapInt (team.usedPoints + points) > team.totalPoints then
    reject tx.rollback 400 "Team does not have enough points"
  else
  match tx.work.firstPlayer parsedPlayerID with
  | none => reject tx.rollback 404 "Player not found"
  | some player =>
  if player.isSold then reject tx.rollback 400 "Player is already sold to another team" else
  let player := { player with isSold := true, currentPrice := points,
                              currentTeamID := some team.id, updatedAt := now }
  if f.savePlayer then reject tx.rollback 500 "Failed to update player" else
  let tx := tx.exec (fun d => d.savePlayer now player)
  let team := { team with usedPoints := wrapInt (team.usedPoints + points),
                          playerCount := wrapInt (team.playerCount + 1), updatedAt := now }
  if f.saveTeam then reject tx.rollback 500 "Failed to update team" else
  let tx := tx.exec (fun d => d.saveTeam now team)
  if f.commit then reject tx.rollback 500 "Failed to commit transaction" else
  { db := tx.commit, resp := Response.ok, events := ["player_assigned"] }

/-! ## Runs of the state machine -/

/-- A call of one of the three handlers that charge or validate a budget. -/
inductive Call where
  | createBid (f : BidFaults) (now : Time) (fresh : UUID)
      (auctionID : Option UUID) (body : Option Int) (ctxTeamID : Option (Option UUID))
  | nextPlayer (f : NextFaults) (now : Time) (auctionID : UUID)
  | assignPlayerToTeam (f : AssignFaults) (now : Time)
      (teamID : Option UUID) (body : Option (Option UUID × Int))
  deriving DecidableEq, Repr

/-- Runs one call. -/
def step (db : DB) : Call → Outcome
  | Call.createBid f now fresh auctionID body ctxTeamID =>
    CreateBid f now fresh db auctionID body ctxTeamID
  | Call.nextPlayer f now auctionID => NextPlayer f now db auctionID
  | Call.assignPlayerToTeam f now teamID body => AssignPlayerToTeam f now db teamID body

/-- Runs the calls in order and returns the final store. -/
def run (db : DB) : List Call → DB
  | [] => db
  | c :: cs => run (step db c).db cs

/-- Responses of the calls of a run, in order. -/
def responses (db : DB) : List Call → List Response
  | [] => []
  | c :: cs => (step db c).resp :: responses (step db c).db cs

/-- The stores reachable from `db0` through handler calls. -/
inductive Reachable (db0 : DB) : DB → Prop where
  | init : Reachable db0 db0
  | step (db : DB) (c : Call) : Reachable db0 db → Reachable db0 (step db c).db

/-- Budget invariant of the teams table: no team has used more than its total. -/
def budgetSafe (db : DB) : Prop := ∀ t ∈ db.teams, t.usedPoints ≤ t.totalPoints

instance (db : DB) : Decidable (budgetSafe db) := by
  unfold budgetSafe; infer_instance

/-- One `CreateBid` request on a fixed auction. -/
structure BidCall where
  f : BidFaults
  now : Time
  fresh : UUID
  body : Option Int
  ctxTeamID : Option (Option UUID)
  deriving DecidableEq, Repr

/-- Successive `CreateBid` calls on the auction `id`, each on the store left by the one
before: the outcomes in order. -/
def bidRun (db : DB) (id : UUID) : List BidCall → List Outcome
  | [] => []
  | c :: cs =>
    let out := CreateBid c.f c.now c.fresh db (some id) c.body c.ctxTeamID
    out :: bidRun out.db id cs

/-- Current bid of the auction `id` in the store (0 when there is no such auction). -/
def currentBidOf (id : UUID) (db : DB) : Int :=
  match db.firstAuction id with
  | some a => a.currentBid
  | none => 0

/-! ## Auction lifecycle (`handlers/admin.go`) -/

/-- The auction fields a `CreateAuction` request binds from its JSON body; `id` is `none`
when the body carries no identifier, and the store then generates one. -/
structure AuctionBody where
  id : Option UUID
  startTime : Time
  endTime : Option Time
  currentPlayerID : Option UUID
  currentBid : Int
  winningTeamID : Option UUID
  deriving DecidableEq, Repr

/-- Write failure of `CreateAuction`. -/
structure CreateFaults where
  createAuction : Bool
  deriving DecidableEq, Repr

/-- Write failure of a handler whose only write is the `Save` of the auction. -/
structure SaveFault where
  saveAuction : Bool
  deriving DecidableEq, Repr

/-- The handler `CreateAuction`.  `body` is the bound auction (`none` when the JSON does
not bind), `fresh` the identifier the store generates.  The insert fails on a primary key
that is already present. -/
def CreateAuction (f : CreateFaults) (now : Time) (fresh : UUID) (db : DB)
    (body : Option AuctionBody) : Outcome :=
  if db.auctions.any (fun a => a.status == "active") then
    reject db 409
      "There is already an active auction. Please end the current auction before creating a new one."
  else
  match body with
  | none => reject db 400 "Invalid auction data"
  | some b =>
  let auction : Auction :=
    { id := b.id.getD fresh, status := "pending", startTime := b.startTime,
      endTime := b.endTime, currentPlayerID := b.currentPlayerID, currentBid := b.currentBid,
      winningTeamID := b.winningTeamID, updatedAt := now }
  if f.createAuction ∨ db.auctions.any (fun a => a.id == auction.id) = true then
    reject db 500 "Failed to create auction"
  else
  { db := { db with auctions := db.auctions ++ [auction] }, resp := Response.created,
    events := ["auction_created"] }

/-- The handler `StartAuction`.  A path parameter that is not a UUID makes the lookup fail
like an absent auction. -/
def StartAuction (f : SaveFault) (now : Time) (db : DB) (auctionID : UUID) : Outcome :=
  match db.firstAuction auctionID with
  | none => reject db 404 "Auction not found"
  | some auction =>
  match getNextPlayerByCategoryOrder now db none with
  | none => reject db 400 "No players available for auction"
  | some firstPlayer =>
  let auction := { auction with status := "active", startTime := now,
                                currentPlayerID := some firstPlayer.id, currentBid := 0,
                                updatedAt := now }
  if f.saveAuction then reject db 500 "Failed to start auction" else
  { db := db.saveAuction now auction, resp := Response.ok, events := ["auction_started"] }

/-- The handler `EndAuction`. -/
def EndAuction (f : SaveFault) (now : Time) (db : DB) (auctionID : UUID) : Outcome :=
  match db.firstAuction auctionID with
  | none => reject db 404 "Auction not found"
  | some auction =>
  let auction := { auction with status := "completed", endTime := some now, updatedAt := now }
  if f.saveAuction then reject db 500 "Failed to end auction" else
  { db := db.saveAuction now auction, resp := Response.ok, events := ["auction_ended"] }

/-- The handler `AssignPlayerToAuction`.  `auctionID` is the path parameter (`none` when it
is not a UUID), `body` the bound `player_id` (`none` when the JSON does not bind,
`some none` when it is not a UUID). -/
def AssignPlayerToAuction (f : SaveFault) (now : Time) (db : DB)
    (auctionID : Option UUID) (body : Option (Option UUID)) : Outcome :=
  match body with
  | none => reject db 400 "Invalid request data"
  | some playerID =>
  match auctionID with
  | none => reject db 400 "Invalid auction ID"
  | some parsedAuctionID =>
  match playerID with
  | none => reject db 400 "Invalid player ID"
  | some parsedPlayerID =>
  match db.firstAuction parsedAuctionID with
  | none => reject db 404 "Auction not found"
  | some auction =>
  match db.firstPlayer parsedPlayerID with
  | none => reject db 404 "Player not found"
  | some player =>
  if player.isSold then reject db 400 "Player is already sold" else
  let auction := { auction with currentPlayerID := some player.id, currentBid := 0,
                                winningTeamID := none, updatedAt := now }
  let auction :=
    if auction.status = "completed" then { auction with status := "active", endTime := none }
    else auction
  if f.saveAuction then reject db 500 "Failed to assign player to auction" else
  { db := db.saveAuction now auction, resp := Response.ok, events := ["player_assigned"] }

/-! ## The auction state machine -/

/-- One operation of the auction state machine, with the request it carries. -/
inductive Op where
  | createAuction (f : CreateFaults) (now : Time) (fresh : UUID) (body : Option AuctionBody)
  | startAuction (f : SaveFault) (now : Time) (auctionID : UUID)
  | endAuction (f : SaveFault) (now : Time) (auctionID : UUID)
  | placeBid (f : BidFaults) (now : Time) (fresh : UUID)
      (auctionID : Option UUID) (body : Option Int) (ctxTeamID : Option (Option UUID))
  | nextPlayer (f : NextFaults) (now : Time) (auctionID : UUID)
  | assignPlayer (f : SaveFault) (now : Time)
      (auctionID : Option UUID) (body : Option (Option UUID))
  deriving DecidableEq, Repr

/-- Runs one operation. -/
def Op.exec (db : DB) : Op → Outcome
  | Op.createAuction f now fresh body => CreateAuction f now fresh db body
  | Op.startAuction f now auctionID => StartAuction f now db auctionID
  | Op.endAuction f now auctionID => EndAuction f now db auctionID
  | Op.placeBid f now fresh auctionID body ctxTeamID =>
    CreateBid f now fresh db auctionID body ctxTeamID
  | Op.nextPlayer f now auctionID => NextPlayer f now db auctionID
  | Op.assignPlayer f now auctionID body => AssignPlayerToAuction f now db auctionID body

/-- The operations on an existing auction: Start, PlaceBid, NextPlayer, AssignPlayer, End. -/
def Op.live : Op → Prop
  | Op.createAuction _ _ _ _ => False
  | _ => True

/-- The operations that create an auction or move it through its lifecycle:
CreateAuction, StartAuction, EndAuction, NextPlayer, AssignPlayerToAuction. -/
def Op.lifecycle : Op → Prop
  | Op.placeBid _ _ _ _ _ _ => False
  | _ => True

instance : DecidablePred Op.live := fun op => by
  cases op <;> unfold Op.live <;> infer_instance

instance : DecidablePred Op.lifecycle := fun op => by
  cases op <;> unfold Op.lifecycle <;> infer_instance

/-- Runs the operations in order and returns the final store. -/
def Op.runAll (db : DB) : List Op → DB
  | [] => db
  | op :: ops => Op.runAll (op.exec db).db ops

/-- Responses of the operations of a run, in order. -/
def Op.responsesAll (db : DB) : List Op → List Response
  | [] => []
  | op :: ops => (op.exec db).resp :: Op.responsesAll (op.exec db).db ops

/-- The stores reachable from `db0` through operations of the allowed kind. -/
inductive ReachableBy (allowed : Op → Prop) (db0 : DB) : DB → Prop where
  | init : ReachableBy allowed db0 db0
  | step (db : DB) (op : Op) :
      allowed op → ReachableBy allowed db0 db → ReachableBy allowed db0 (op.exec db).db

/-- Number of bids of the auction that carry the winning flag. -/
def winningCount (db : DB) (auctionID : UUID) : Nat :=
  (db.bids.filter (fun b => b.auctionID == auctionID && b.isWinning)).length

/-- Every auction has at most one bid with the winning flag. -/
def winningUnique (db : DB) : Prop := ∀ auctionID, winningCount db auctionID ≤ 1

/-- Number of auctions with status active. -/
def activeCount (db : DB) : Nat :=
  (db.auctions.filter (fun a => a.status == "active")).length

/-- The auction invariant: a positive current bid has a winning team. -/
def bidBacked (a : Auction) : Prop := 0 < a.currentBid → a.winningTeamID ≠ none

/-! ## Age in completed years -/

/-- Age in completed calendar years, following the words of the specification: the
difference of the calendar years, less one while the birthday of the current year (same
month and day as the date of birth) has not been reached. -/
def completedYears (now dob : Time) : Int :=
  let years : Int := (now.year : Int) - (dob.year : Int)
  if now.month < dob.month ∨ (now.month = dob.month ∧ now.day < dob.day) then years - 1
  else years

/-- The date of `dob` is not after the date of `now`. -/
def notAfter (dob now : Time) : Prop :=
  dob.year < now.year ∨ (dob.year = now.year ∧
    (dob.month < now.month ∨ (dob.month = now.month ∧ dob.day ≤ now.day)))

instance (dob now : Time) : Decidable (notAfter dob now) := by
  unfold notAfter; infer_instance

/-- The category the selector derives for its cursor (admin.go 334-341): the category of
the current player when the cursor is set and the player is found, the empty string
otherwise. -/
def cursorCategory (now : Time) (db : DB) (currentPlayerID : Option UUID) : String :=
  match currentPlayerID with
  | none => ""
  | some id =>
    match db.firstPlayer id with
    | some currentPlayer => currentPlayer.GetPlayerCategory now
    | none => ""

/-! ## The broadcast hub (`websocket/websocket.go`)

The hub loop runs in a single goroutine, so its state is the set of registered clients
together with the `send` channel of every client.  Each case of the `select` in `Hub.Run`
is one step.  A step that would panic in Go (a send on a closed channel, the close of a
closed channel) yields `none`. -/

/-- Identity of a `*Client`. -/
abbrev ClientID := Nat

/-- The `send` channel of a client: the pending messages, oldest first, and whether the
channel has been closed. -/
structure Chan where
  buf : List String
  closed : Bool
  deriving DecidableEq, Repr

/-- Capacity of a `send` channel (`make(chan []byte, 256)`). -/
def sendCapacity : Nat := 256

/-- State of the hub: the keys of the `clients` map and the channel of every client. -/
structure Hub where
  clients : List ClientID
  send : ClientID → Chan

/-- The hub of `NewHub`, before any client: every channel is as `HandleWebSocket` makes
it, open and empty. -/
def NewHub : Hub := { clients := [], send := fun _ => { buf := [], closed := false } }

/-- Replaces the channel state of one client. -/
def Hub.setChan (h : Hub) (c : ClientID) (ch : Chan) : Hub :=
  { h with send := fun d => if d = c then ch else h.send d }

/-- Removes a key from the map (`delete(h.clients, client)`). -/
def Hub.delete (h : Hub) (c : ClientID) : Hub :=
  { h with clients := h.clients.filter (fun d => d != c) }

/-- Closes the channel of a client (`close(client.send)`); closing a closed channel
panics. -/
def Hub.close (h : Hub) (c : ClientID) : Option Hub :=
  if (h.send c).closed then none
  else some (h.setChan c { (h.send c) with closed := true })

/-- The case `client := <-h.register`. -/
def Hub.onRegister (h : Hub) (c : ClientID) : Hub :=
  if c ∈ h.clients then h else { h with clients := h.clients ++ [c] }

/-- The case `client := <-h.unregister`. -/
def Hub.onUnregister (h : Hub) (c : ClientID) : Option Hub :=
  if c ∈ h.clients then (h.delete c).close c else some h

/-- One turn of the loop over the clients: the non-blocking send, or the drop of the
client when the channel is full.  A send on a closed channel panics. -/
def Hub.deliver (message : String) (h : Hub) (c : ClientID) : Option Hub :=
  if (h.send c).closed then none
  else if (h.send c).buf.length < sendCapacity then
    some (h.setChan c { (h.send c) with buf := (h.send c).buf ++ [message] })
  else (h.close c).map (fun h2 => h2.delete c)

/-- The channel after one turn of the loop: the message appended when there is room,
the channel closed when it is full. -/
def Chan.offer (ch : Chan) (message : String) : Chan :=
  if ch.buf.length < sendCapacity then { ch with buf := ch.buf ++ [message] }
  else { ch with closed := true }

/-- The case `message := <-h.broadcast`: the loop over the registered clients. -/
def Hub.onBroadcast (h : Hub) (message : String) : Option Hub :=
  h.clients.foldlM (fun acc c => acc.deliver message c) h

/-- The method `Hub.Broadcast`: `messageBytes` is the result of `json.Marshal`, `none`
when it fails, in which case nothing is sent. -/
def Hub.Broadcast (h : Hub) (messageBytes : Option String) : Option Hub :=
  match messageBytes with
  | none => some h
  | some message => h.onBroadcast message

/-- The write pump of a client takes the oldest pending message off its channel. -/
def Hub.onDrain (h : Hub) (c : ClientID) : Hub :=
  h.setChan c { (h.send c) with buf := (h.send c).buf.tail }

/-- Successive broadcasts of the messages, in order. -/
def Hub.broadcastAll (h : Hub) : List String → Option Hub
  | [] => some h
  | m :: ms =>
    match h.onBroadcast m with
    | none => none
    | some h2 => h2.broadcastAll ms

/-- The hub states reachable from `NewHub` through Register, Unregister, Broadcast and
drain steps, each client being registered at most once; the list holds the clients
registered so far. -/
inductive HubReachable : List ClientID → Hub → Prop where
  | init : HubReachable [] NewHub
  | register {ever : List ClientID} {h : Hub} (c : ClientID) :
      HubReachable ever h → c ∉ ever → HubReachable (c :: ever) (h.onRegister c)
  | unregister {ever : List ClientID} {h h2 : Hub} (c : ClientID) :
      HubReachable ever h → h.onUnregister c = some h2 → HubReachable ever h2
  | broadcast {ever : List ClientID} {h h2 : Hub} (message : String) :
      HubReachable ever h → h.onBroadcast message = some h2 → HubReachable ever h2
  | drain {ever : List ClientID} {h : Hub} (c : ClientID) :
      HubReachable ever h → HubReachable ever (h.onDrain c)

/-- A well-formed hub state: every key occurs once in the map and the channel of every
registered client is open. -/
def Hub.wellFormed (h : Hub) : Prop :=
  h.clients.Nodup ∧ ∀ c ∈ h.clients, (h.send c).closed = false

instance (h : Hub) : Decidable h.wellFormed := by
  unfold Hub.wellFormed; infer_instance

/-! ## Sample data -/

/-- An instant used to stamp the sample rows. -/
def sampleTime : Time := { year := 2024, month := 6, day := 1, clock := 0 }

/-- A team row with the default limits. -/
def mkTeam (id : UUID) (totalPoints usedPoints playerCount : Int) : Team :=
  { id := id, totalPoints := totalPoints, usedPoints := usedPoints, playerCount := playerCount,
    minPlayers := 12, maxPlayers := 20, updatedAt := sampleTime }

/-- An unsold player row born on 1 January 1995. -/
def mkPlayer (id : UUID) (gender : String) : Player :=
  { id := id, gender := gender, dateOfBirth := { year := 1995, month := 1, day := 1, clock := 0 },
    currentTeamID := none, basePrice := 200, currentPrice := 200, isSold := false,
    updatedAt := sampleTime }

/-- The auction row 1 with player 1 up for bids. -/
def mkAuction (status : String) (currentBid : Int) (winningTeamID : Option UUID) : Auction :=
  { id := 1, status := status, startTime := sampleTime, endTime := none,
    currentPlayerID := some 1, currentBid := currentBid, winningTeamID := winningTeamID,
    updatedAt := sampleTime }

/-- A store with one active auction on player 1, no bid yet, and two fresh teams 7 and 8. -/
def sampleDB : DB :=
  { auctions := [mkAuction "active" 0 none],
    players := [mkPlayer 1 "female", mkPlayer 2 "male"],
    teams := [mkTeam 7 12000 0 0, mkTeam 8 12000 0 0],
    bids := [] }

/-- The store after team 7 has bid 300 on player 1. -/
def sampleDBWinning : DB :=
  { sampleDB with auctions := [mkAuction "active" 300 (some 7)] }

/-- No write of `CreateBid` fails. -/
def noBidFaults : BidFaults := { updateBids := false, createBid := false, saveAuction := false }

/-- No storage operation of `NextPlayer` fails. -/
def noNextFaults : NextFaults :=
  { savePlayer := false, loadTeam := false, saveTeam := false, saveAuction := false }

/-- No write of `AssignPlayerToTeam` fails. -/
def noAssignFaults : AssignFaults := { savePlayer := false, saveTeam := false, commit := false }

/-- Two bids on the sample auction: 200 by team 7, then 300 by team 8. -/
def sampleBids : List BidCall :=
  [ { f := noBidFaults, now := sampleTime, fresh := 100, body := some 200,
      ctxTeamID := some (some 7) },
    { f := noBidFaults, now := sampleTime, fresh := 101, body := some 300,
      ctxTeamID := some (some 8) } ]

/-- Team 7 bids 9800 on player 1, player 2 is then assigned to team 7 for 2201 points,
and the auction moves to the next player. -/
def overrunCalls : List Call :=
  [ Call.createBid noBidFaults sampleTime 100 (some 1) (some 9800) (some (some 7)),
    Call.assignPlayerToTeam noAssignFaults sampleTime (some 7) (some (some 2, 2201)),
    Call.nextPlayer noNextFaults sampleTime 1 ]

/-- Team 7 bids 200 on player 1 and player 1 is then assigned to team 8 for 500 points. -/
def resaleCalls : List Call :=
  [ Call.createBid noBidFaults sampleTime 100 (some 1) (some 200) (some (some 7)),
    Call.assignPlayerToTeam noAssignFaults sampleTime (some 8) (some (some 1, 500)) ]

/-- The save of the auction does not fail. -/
def noSaveFault : SaveFault := { saveAuction := false }

/-- The insert of the auction does not fail. -/
def noCreateFaults : CreateFaults := { createAuction := false }

/-- A request body for a new auction that carries no field but the start time. -/
def plainBody : AuctionBody :=
  { id := none, startTime := sampleTime, endTime := none, currentPlayerID := none,
    currentBid := 0, winningTeamID := none }

/-- The sample store with its auction still pending. -/
def pendingDB : DB := { sampleDB with auctions := [mkAuction "pending" 0 none] }

/-- The sample store with its auction completed. -/
def completedDB : DB := { sampleDB with auctions := [mkAuction "completed" 0 none] }

/-- The sample store without any auction. -/
def noAuctionDB : DB := { sampleDB with auctions := [] }

/-- Two auctions are created one after the other and then both started. -/
def twoStarts : List Op :=
  [ Op.createAuction noCreateFaults sampleTime 1 (some plainBody),
    Op.createAuction noCreateFaults sampleTime 2 (some plainBody),
    Op.startAuction noSaveFault sampleTime 1,
    Op.startAuction noSaveFault sampleTime 2 ]

/-- Team 7 bids 200 and team 8 bids 300 on player 1, the auction moves to the next player
and team 7 bids 250 on that player. -/
def biddingOps : List Op :=
  [ Op.placeBid noBidFaults sampleTime 100 (some 1) (some 200) (some (some 7)),
    Op.placeBid noBidFaults sampleTime 101 (some 1) (some 300) (some (some 8)),
    Op.nextPlayer noNextFaults sampleTime 1,
    Op.placeBid noBidFaults sampleTime 102 (some 1) (some 250) (some (some 7)) ]

/-- The completed sample store in which player 1 has been sold to team 8 for 500 points. -/
def soldDB : DB :=
  { completedDB with
    players := [{ mkPlayer 1 "female" with
                  isSold := true, currentTeamID := some 8, currentPrice := 500 },
                mkPlayer 2 "male"] }

/-- The store in which team 7 is winning player 1 at 300 and player 1 is the only player. -/
def lastPlayerDB : DB := { sampleDBWinning with players := [mkPlayer 1 "female"] }

/-- The first of March 2023, at ten in the morning. -/
def birthdayTime : Time := { year := 2023, month := 3, day := 1, clock := 36000 }

/-- A store whose only player, a man born on the first of March 1988 at midnight, is up
for bids on the active auction 1, with no bid placed. -/
def birthdayDB : DB :=
  { auctions := [mkAuction "active" 0 none],
    players := [{ mkPlayer 1 "male" with
                  dateOfBirth := { year := 1988, month := 3, day := 1, clock := 0 } }],
    teams := [mkTeam 7 12000 0 0],
    bids := [] }

/-- A male player row born on the given date. -/
def mkMan (id : UUID) (year month day : Nat) : Player :=
  { mkPlayer id "male" with dateOfBirth := { year := year, month := month, day := day, clock := 0 } }

/-- Two unsold men, both born on the first of March 1988. -/
def twinsDB : DB :=
  { auctions := [mkAuction "active" 0 none],
    players := [mkMan 1 1988 3 1, mkMan 2 1988 3 1],
    teams := [mkTeam 7 12000 0 0],
    bids := [] }

/-- Two unsold women, with player 2 up for bids on the active auction and no bid placed. -/
def twoWomenDB : DB :=
  { auctions := [{ mkAuction "active" 0 none with currentPlayerID := some 2 }],
    players := [mkPlayer 1 "female", mkPlayer 2 "female"],
    teams := [mkTeam 7 12000 0 0],
    bids := [] }

/-- The 29th of February 2024, at ten in the morning. -/
def leapDayTime : Time := { year := 2024, month := 2, day := 29, clock := 36000 }

/-- The store right after the creation of auction 1 from a plain request body. -/
def createdDB : DB := (CreateAuction noCreateFaults sampleTime 1 noAuctionDB (some plainBody)).db

/-- The store right after the creation of auction 1, with player 1 as only player. -/
def createdLoneDB : DB := { createdDB with players := [mkPlayer 1 "female"] }

/-- The auction is started and, nobody having bid on the only player, moved on. -/
def exhaustOps : List Op :=
  [ Op.startAuction noSaveFault sampleTime 1,
    Op.nextPlayer noNextFaults sampleTime 1 ]

/-- The auction is started, team 7 bids 200 on player 1, the auction is started again and
then moved to the next player. -/
def restartOps : List Op :=
  [ Op.startAuction noSaveFault sampleTime 1,
    Op.placeBid noBidFaults sampleTime 100 (some 1) (some 200) (some (some 7)),
    Op.startAuction noSaveFault sampleTime 1,
    Op.nextPlayer noNextFaults sampleTime 1 ]

/-- The hub after the registration of clients 1 and 2. -/
def twoClientHub : Hub := (NewHub.onRegister 1).onRegister 2

/-- The hub with clients 1 and 2 in which the channel of client 1 is full. -/
def fullClientHub : Hub :=
  twoClientHub.setChan 1 { buf := List.replicate 256 "old", closed := false }

/-- Team 9 with 11 players whose used points were set to the least `int` value (as
`UpdateTeamPoints` stores whatever the request carries). -/
def wrappedTeam : Team := mkTeam 9 12000 (-9223372036854775808) 11

/-- Team 7 without players whose used points were set to the least `int` value. -/
def wrappedWinner : Team := mkTeam 7 12000 (-9223372036854775808) 0

/-- Team 9 with 6 players and used points of -9223372036854764309, so that its total less
its used points exceeds the greatest `int` value by 502. -/
def nearWrapTeam : Team := mkTeam 9 12000 (-9223372036854764309) 6

/-- A request body for a new auction on player 1 that carries the greatest `int` value as
current bid and team 7 as winning team. -/
def hugeBidBody : AuctionBody :=
  { id := none, startTime := sampleTime, endTime := none, currentPlayerID := some 1,
    currentBid := 9223372036854775807, winningTeamID := some 7 }

/-- The store without auction after player 2 was assigned to team 7 for 200 points and an
auction was created from `hugeBidBody`. -/
def hugeBidDB : DB :=
  (CreateAuction noCreateFaults sampleTime 1
    (AssignPlayerToTeam noAssignFaults sampleTime noAuctionDB (some 7) (some (some 2, 200))).db
    (some hugeBidBody)).db

/-- Player 1 is assigned to team 7 for 200 points, then player 2 for the greatest `int`
value. -/
def pastBudgetCalls : List Call :=
  [ Call.assignPlayerToTeam noAssignFaults sampleTime (some 7) (some (some 1, 200)),
    Call.assignPlayerToTeam noAssignFaults sampleTime (some 7)
      (some (some 2, 9223372036854775807)) ]

/-! ## Lookups after writes -/

theorem find?_replace_self {α : Type} (key : α → UUID) (row : α) (rows : List α)
    (h : rows.any (fun r => key r == key row) = true) :
    (rows.map (fun r => if key r == key row then row else r)).find?
      (fun r => key r == key row) = some row := by
  induction rows with
  | nil => simp at h
  | cons r rs ih =>
    by_cases hr : key r = key row
    · simp [hr, -List.find?_map]
    · have h2 : rs.any (fun r => key r == key row) = true := by
        simpa [hr] using h
      have ih2 := ih h2
      simp only [List.map_cons, List.find?_cons]
      have h1 : (key r == key row) = false := by simpa using hr
      simp only [h1, Bool.false_eq_true, if_false]
      exact ih2

theorem find?_replace_other {α : Type} (key : α → UUID) (row : α) (rows : List α) (k : UUID)
    (hk : k ≠ key row) :
    (rows.map (fun r => if key r == key row then row else r)).find? (fun r => key r == k)
      = rows.find? (fun r => key r == k) := by
  have hk2 : (key row == k) = false := by
    simpa using (fun h : key row = k => hk h.symm)
  induction rows with
  | nil => rfl
  | cons r rs ih =>
    simp only [List.map_cons, List.find?_cons]
    by_cases hr : key r = key row
    · have h1 : (key r == key row) = true := by simpa using hr
      have h3 : (key r == k) = false := by rw [hr]; exact hk2
      simp only [h1, if_true, hk2, h3]
      exact ih
    · have h1 : (key r == key row) = false := by simpa using hr
      simp only [h1, Bool.false_eq_true, if_false]
      cases hrk : (key r == k)
      · exact ih
      · rfl

/-- After a save, the lookup by the saved key yields the saved row. -/
theorem find?_upsert_self {α : Type} (key : α → UUID) (row : α) (rows : List α) :
    (upsert key row rows).find? (fun r => key r == key row) = some row := by
  unfold upsert
  split
  · rename_i h
    exact find?_replace_self key row rows h
  · rename_i h
    have hnone : rows.find? (fun r => key r == key row) = none := by
      simpa using h
    simp [List.find?_append, hnone]

/-- A save leaves the lookups by any other key as they were. -/
theorem find?_upsert_other {α : Type} (key : α → UUID) (row : α) (rows : List α) (k : UUID)
    (hk : k ≠ key row) :
    (upsert key row rows).find? (fun r => key r == k) = rows.find? (fun r => key r == k) := by
  unfold upsert
  have hk2 : ¬ key row = k := fun h => hk h.symm
  split
  · exact find?_replace_other key row rows k hk
  · simp [List.find?_append, hk2]

/-- A row found by primary key carries that key. -/
theorem firstAuction_id {db : DB} {id : UUID} {a : Auction} (h : db.firstAuction id = some a) :
    a.id = id := by
  have := List.find?_some h
  simpa using this

theorem firstTeam_id {db : DB} {id : UUID} {t : Team} (h : db.firstTeam id = some t) :
    t.id = id := by
  have := List.find?_some h
  simpa using this

theorem firstPlayer_id {db : DB} {id : UUID} {p : Player} (h : db.firstPlayer id = some p) :
    p.id = id := by
  have := List.find?_some h
  simpa using this

theorem firstAuction_saveAuction (now : Time) (db : DB) (a : Auction) :
    (db.saveAuction now a).firstAuction a.id = some { a with updatedAt := now } :=
  find?_upsert_self Auction.id { a with updatedAt := now } db.auctions

theorem firstTeam_saveTeam (now : Time) (db : DB) (t : Team) :
    (db.saveTeam now t).firstTeam t.id = some { t with updatedAt := now } :=
  find?_upsert_self Team.id { t with updatedAt := now } db.teams

theorem firstPlayer_savePlayer (now : Time) (db : DB) (p : Player) :
    (db.savePlayer now p).firstPlayer p.id = some { p with updatedAt := now } :=
  find?_upsert_self Player.id { p with updatedAt := now } db.players

/-! ## Go `int` arithmetic within the range -/

/-- An operation whose exact result is an `int` value yields that value. -/
theorem wrapInt_of_isInt {x : Int} (h : isInt x) : wrapInt x = x := by
  unfold isInt minInt maxInt at h
  unfold wrapInt
  omega

/-- The result of an operation is an `int` value. -/
theorem isInt_wrapInt (x : Int) : isInt (wrapInt x) := by
  unfold isInt minInt maxInt wrapInt
  omega

/-- Wrapping the left operand first does not change the result of a subtraction. -/
theorem wrapInt_sub_left (x y : Int) : wrapInt (wrapInt x - y) = wrapInt (x - y) := by
  unfold wrapInt
  omega

/-- Within the range the locals of the bid checks have their exact values. -/
theorem bidExact_locals {t : Team} {amount : Int} (h : bidExact t amount) :
    remainingPoints t = t.totalPoints - t.usedPoints
    ∧ remainingPlayersNeeded t = 12 - t.playerCount - 1
    ∧ (0 < 12 - t.playerCount - 1 →
        wrapInt (remainingPlayersNeeded t * 200) = (12 - t.playerCount - 1) * 200
        ∧ wrapInt (remainingPoints t - amount) = t.totalPoints - t.usedPoints - amount) := by
  obtain ⟨h1, h2, h3⟩ := h
  have e1 : remainingPoints t = t.totalPoints - t.usedPoints := wrapInt_of_isInt h1
  have e2 : remainingPlayersNeeded t = 12 - t.playerCount - 1 := by
    unfold remainingPlayersNeeded minPlayersRequired
    rw [wrapInt_sub_left]
    exact wrapInt_of_isInt h2
  refine ⟨e1, e2, ?_⟩
  intro hn
  obtain ⟨h4, h5⟩ := h3 hn
  rw [e1, e2]
  exact ⟨wrapInt_of_isInt h4, wrapInt_of_isInt h5⟩

/-! ## The bid checks of `CreateBid` -/

/-- The bid checks accept a bid exactly when the five rules pass, each evaluated on the
locals as the handler computes them. -/
theorem bidChecks_none_iff (a : Auction) (t : Team) (amount : Int) :
    bidChecks a t amount = none ↔
      (a.status = "active"
        ∧ (if a.currentBid = 0 then 200 ≤ amount else a.currentBid < amount)
        ∧ amount ≤ remainingPoints t
        ∧ (remainingPlayersNeeded t ≤ 0
            ∨ wrapInt (remainingPlayersNeeded t * 200) ≤ wrapInt (remainingPoints t - amount))
        ∧ a.winningTeamID ≠ some t.id) := by
  unfold bidChecks checkAuction checkTeam remainingPoints remainingPlayersNeeded
    basePricePerPlayer
  by_cases hs : a.status = "active" <;> by_cases hb : a.currentBid = 0 <;>
    simp only [hs, hb, ne_eq, not_true_eq_false, not_false_eq_true, if_true, if_false] <;>
    (try split_ifs) <;> simp_all

/-- The status and price rules pass exactly when `checkAuction` has no objection. -/
theorem checkAuction_none_iff (a : Auction) (amount : Int) :
    checkAuction a amount = none ↔
      (a.status = "active"
        ∧ (if a.currentBid = 0 then 200 ≤ amount else a.currentBid < amount)) := by
  unfold checkAuction
  by_cases hs : a.status = "active" <;> by_cases hb : a.currentBid = 0 <;>
    simp [hs, hb]

/-- When the status and price rules pass and the amount exceeds the remaining points as the
handler computes them, the reason is insufficient points. -/
theorem bidChecks_insufficient {a : Auction} {t : Team} {amount : Int}
    (hs : a.status = "active")
    (hp : if a.currentBid = 0 then 200 ≤ amount else a.currentBid < amount)
    (hr : remainingPoints t < amount) :
    bidChecks a t amount = some (Response.error 400 "Insufficient points") := by
  have hca := (checkAuction_none_iff a amount).2 ⟨hs, hp⟩
  unfold remainingPoints at hr
  simp [bidChecks, hca, checkTeam, hr]

/-- When the status, price and budget rules pass, players are still needed and the points
left after the bid are below the reserve, all as the handler computes them, the reason is
the reserve message with the handler's figures. -/
theorem bidChecks_reserve {a : Auction} {t : Team} {amount : Int}
    (hs : a.status = "active")
    (hp : if a.currentBid = 0 then 200 ≤ amount else a.currentBid < amount)
    (hr : amount ≤ remainingPoints t) (hn : 0 < remainingPlayersNeeded t)
    (hv : wrapInt (remainingPoints t - amount) < wrapInt (remainingPlayersNeeded t * 200)) :
    bidChecks a t amount = some (Response.error 400
      (reserveMessage (wrapInt (remainingPlayersNeeded t * 200)) (remainingPlayersNeeded t)
        (wrapInt (remainingPoints t - wrapInt (remainingPlayersNeeded t * 200))))) := by
  have hca := (checkAuction_none_iff a amount).2 ⟨hs, hp⟩
  simp only [remainingPoints, remainingPlayersNeeded] at hr hn hv ⊢
  simp [bidChecks, hca, checkTeam, basePricePerPlayer, not_lt.mpr hr, hn, hv]

/-- When the status, price, budget and reserve rules pass as the handler computes them and
the team holds the winning bid, the reason is that the team is already winning. -/
theorem bidChecks_winning {a : Auction} {t : Team} {amount : Int}
    (hs : a.status = "active")
    (hp : if a.currentBid = 0 then 200 ≤ amount else a.currentBid < amount)
    (hr : amount ≤ remainingPoints t)
    (hv : remainingPlayersNeeded t ≤ 0
      ∨ wrapInt (remainingPlayersNeeded t * 200) ≤ wrapInt (remainingPoints t - amount))
    (hw : a.winningTeamID = some t.id) :
    bidChecks a t amount = some (Response.error 400
      "You are already winning the current bid. Another team must bid first.") := by
  have hca := (checkAuction_none_iff a amount).2 ⟨hs, hp⟩
  simp only [remainingPoints, remainingPlayersNeeded] at hr hv
  by_cases hn : 0 < wrapInt (wrapInt (minPlayersRequired - t.playerCount) - 1)
  · have hv2 : ¬ wrapInt (wrapInt (t.totalPoints - t.usedPoints) - amount)
        < wrapInt (wrapInt (wrapInt (minPlayersRequired - t.playerCount) - 1) * 200) := by
      rcases hv with h | h
      · omega
      · omega
    simp [bidChecks, hca, checkTeam, basePricePerPlayer, not_lt.mpr hr, hn, hv2, hw]
  · simp [bidChecks, hca, checkTeam, basePricePerPlayer, not_lt.mpr hr, hn, hw]

/-- Within the range the bid checks accept a bid exactly when the five rules pass on the
exact values. -/
theorem bidChecks_none_iff_exact {a : Auction} {t : Team} {amount : Int}
    (h : bidExact t amount) :
    bidChecks a t amount = none ↔
      (a.status = "active"
        ∧ (if a.currentBid = 0 then 200 ≤ amount else a.currentBid < amount)
        ∧ amount ≤ t.totalPoints - t.usedPoints
        ∧ (12 - t.playerCount - 1 ≤ 0
            ∨ (12 - t.playerCount - 1) * 200 ≤ (t.totalPoints - t.usedPoints) - amount)
        ∧ a.winningTeamID ≠ some t.id) := by
  obtain ⟨e1, e2, e3⟩ := bidExact_locals h
  rw [bidChecks_none_iff]
  by_cases hn : 0 < 12 - t.playerCount - 1
  · rw [(e3 hn).1, (e3 hn).2, e1, e2]
  · have hle : 12 - t.playerCount - 1 ≤ 0 := by omega
    rw [e1, e2]
    simp [hle]

/-- Within the range an amount above the remaining points is refused for insufficient
points once the status and price rules pass. -/
theorem bidChecks_insufficient_exact {a : Auction} {t : Team} {amount : Int}
    (hs : a.status = "active")
    (hp : if a.currentBid = 0 then 200 ≤ amount else a.currentBid < amount)
    (hx : isInt (t.totalPoints - t.usedPoints))
    (hr : t.totalPoints - t.usedPoints < amount) :
    bidChecks a t amount = some (Response.error 400 "Insufficient points") := by
  apply bidChecks_insufficient hs hp
  unfold remainingPoints
  rw [wrapInt_of_isInt hx]
  exact hr

/-- Within the range a bid that passes the status, price and budget rules and leaves less
than 200 points per player still needed is refused with the reserve message, which reports
the exact figures. -/
theorem bidChecks_reserve_exact {a : Auction} {t : Team} {amount : Int}
    (hs : a.status = "active")
    (hp : if a.currentBid = 0 then 200 ≤ amount else a.currentBid < amount)
    (hx : bidExact t amount)
    (hm : isInt (t.totalPoints - t.usedPoints - (12 - t.playerCount - 1) * 200))
    (hr : amount ≤ t.totalPoints - t.usedPoints)
    (hn : 0 < 12 - t.playerCount - 1)
    (hv : (t.totalPoints - t.usedPoints) - amount < (12 - t.playerCount - 1) * 200) :
    bidChecks a t amount = some (Response.error 400
      (reserveMessage ((12 - t.playerCount - 1) * 200) (12 - t.playerCount - 1)
        ((t.totalPoints - t.usedPoints) - (12 - t.playerCount - 1) * 200))) := by
  obtain ⟨e1, e2, e3⟩ := bidExact_locals hx
  have h := @bidChecks_reserve a t amount hs hp (by rw [e1]; exact hr) (by rw [e2]; exact hn)
    (by rw [(e3 hn).1, (e3 hn).2]; exact hv)
  rw [(e3 hn).1, e2, e1, wrapInt_of_isInt hm] at h
  exact h

/-- Within the range a bid by the winning team that passes the status, price, budget and
reserve rules is refused because the team is already winning. -/
theorem bidChecks_winning_exact {a : Auction} {t : Team} {amount : Int}
    (hs : a.status = "active")
    (hp : if a.currentBid = 0 then 200 ≤ amount else a.currentBid < amount)
    (hx : bidExact t amount)
    (hr : amount ≤ t.totalPoints - t.usedPoints)
    (hv : 12 - t.playerCount - 1 ≤ 0
      ∨ (12 - t.playerCount - 1) * 200 ≤ (t.totalPoints - t.usedPoints) - amount)
    (hw : a.winningTeamID = some t.id) :
    bidChecks a t amount = some (Response.error 400
      "You are already winning the current bid. Another team must bid first.") := by
  obtain ⟨e1, e2, e3⟩ := bidExact_locals hx
  apply bidChecks_winning hs hp (by rw [e1]; exact hr) _ hw
  by_cases hn : 0 < 12 - t.playerCount - 1
  · rw [(e3 hn).1, (e3 hn).2, e2]
    exact hv
  · left
    rw [e2]
    omega

/-- C1, within the `int` range: the bid checks of `CreateBid` accept a bid exactly when the
auction is active, the amount is at least 200 on a first bid (current bid 0) and above the
current bid otherwise, the amount is within the remaining points, the reserve for the
players still needed (`12 - playerCount - 1`, 200 each) is kept when that number is
positive, and the team is not the winning team, provided the exact results of the
operations the checks carry out (the remaining points, the number of players needed and,
when that is positive, the reserve and the points left after the bid) are `int` values.  In
particular a bid of 200 against a current bid of 0 by a non-winning team with 11 players
and 200 remaining points is accepted. -/
theorem bidChecks_accept_iff (a : Auction) (t : Team) (amount : Int) :
    (bidExact t amount →
      (bidChecks a t amount = none ↔
        (a.status = "active"
          ∧ (if a.currentBid = 0 then 200 ≤ amount else a.currentBid < amount)
          ∧ amount ≤ t.totalPoints - t.usedPoints
          ∧ (12 - t.playerCount - 1 ≤ 0
              ∨ (12 - t.playerCount - 1) * 200 ≤ (t.totalPoints - t.usedPoints) - amount)
          ∧ a.winningTeamID ≠ some t.id)))
    ∧ (a.status = "active" → a.currentBid = 0 → a.winningTeamID ≠ some t.id →
        t.playerCount = 11 → t.totalPoints - t.usedPoints = 200 → amount = 200 →
        bidChecks a t amount = none) := by
  refine ⟨bidChecks_none_iff_exact, ?_⟩
  intro hs hb hw hc hr ha
  have hx : bidExact t amount := by
    refine ⟨?_, ?_, fun hn => ?_⟩
    · unfold isInt minInt maxInt; omega
    · unfold isInt minInt maxInt; omega
    · omega
  rw [bidChecks_none_iff_exact hx]
  refine ⟨hs, ?_, ?_, ?_, hw⟩
  · simp [hb, ha]
  · omega
  · left; omega

/-- Instance of C1: the sample team with 11 players and 200 points left may open the
bidding on the sample auction at 200, and for a fresh team bidding 9800 the checks are the
conditions over the integers. -/
theorem bidChecks_accept_iff_witness :
    bidChecks (mkAuction "active" 0 none) (mkTeam 9 12000 11800 11) 200 = none
    ∧ (bidChecks (mkAuction "active" 0 none) (mkTeam 7 12000 0 0) 9800 = none ↔
        ((mkAuction "active" 0 none).status = "active"
          ∧ (if (mkAuction "active" 0 none).currentBid = 0 then (200 : Int) ≤ 9800
              else (mkAuction "active" 0 none).currentBid < 9800)
          ∧ 9800 ≤ (mkTeam 7 12000 0 0).totalPoints - (mkTeam 7 12000 0 0).usedPoints
          ∧ (12 - (mkTeam 7 12000 0 0).playerCount - 1 ≤ 0
              ∨ (12 - (mkTeam 7 12000 0 0).playerCount - 1) * 200
                  ≤ ((mkTeam 7 12000 0 0).totalPoints - (mkTeam 7 12000 0 0).usedPoints) - 9800)
          ∧ (mkAuction "active" 0 none).winningTeamID ≠ some (mkTeam 7 12000 0 0).id)) :=
  ⟨(bidChecks_accept_iff (mkAuction "active" 0 none) (mkTeam 9 12000 11800 11) 200).2
      (by decide) (by decide) (by decide) (by decide) (by decide) (by decide),
   (bidChecks_accept_iff (mkAuction "active" 0 none) (mkTeam 7 12000 0 0) 9800).1
      (by decide)⟩

/-- C1 as stated fails outside the range: for team 9 with 12000 total points, used points
at the least `int` value and 11 players, a first bid of 200 on an active auction passes all
five conditions over the integers (the remaining points are 12000 + 2^63), yet the handler
computes negative remaining points and refuses the bid for insufficient points. -/
theorem bid_within_budget_refused :
    bidChecks (mkAuction "active" 0 none) wrappedTeam 200
        = some (Response.error 400 "Insufficient points")
    ∧ isInt wrappedTeam.totalPoints ∧ isInt wrappedTeam.usedPoints
    ∧ (mkAuction "active" 0 none).status = "active"
    ∧ (if (mkAuction "active" 0 none).currentBid = 0 then (200 : Int) ≤ 200
        else (mkAuction "active" 0 none).currentBid < 200)
    ∧ 200 ≤ wrappedTeam.totalPoints - wrappedTeam.usedPoints
    ∧ (12 - wrappedTeam.playerCount - 1 ≤ 0
        ∨ (12 - wrappedTeam.playerCount - 1) * 200
            ≤ (wrappedTeam.totalPoints - wrappedTeam.usedPoints) - 200)
    ∧ (mkAuction "active" 0 none).winningTeamID ≠ some wrappedTeam.id := by
  decide

/-- C7, within the `int` range: a rejected bid gets the reason of the first failing rule, in
the order: auction not active; below the base price (current bid 0) or not above the
current bid; insufficient points; reserve violation; already winning, provided the exact
results of the operations the checks carry out (the remaining points, the players needed
and, when players are needed, the reserve, the points left after the bid and the maximum
safe bid) are `int` values.  A bid of 150 against a current bid of 0 is below the base
price whatever the team; with 12000 total points, 11800 used and 11 players, a bid of 300
that passes the price rule is rejected for insufficient points. -/
theorem bidChecks_first_failing_rule (a : Auction) (t : Team) (amount : Int) :
    (a.status ≠ "active" →
        bidChecks a t amount = some (Response.error 400 "Auction is not active"))
    ∧ (a.status = "active" → a.currentBid = 0 → amount < 200 →
        bidChecks a t amount = some (Response.error 400 "First bid must be at least â‚¹200"))
    ∧ (a.status = "active" → a.currentBid ≠ 0 → amount ≤ a.currentBid →
        bidChecks a t amount = some (Response.error 400 "Bid must be higher than current bid"))
    ∧ (a.status = "active" → (if a.currentBid = 0 then 200 ≤ amount else a.currentBid < amount) →
        isInt (t.totalPoints - t.usedPoints) →
        t.totalPoints - t.usedPoints < amount →
        bidChecks a t amount = some (Response.error 400 "Insufficient points"))
    ∧ (a.status = "active" → (if a.currentBid = 0 then 200 ≤ amount else a.currentBid < amount) →
        bidExact t amount →
        isInt (t.totalPoints - t.usedPoints - (12 - t.playerCount - 1) * 200) →
        amount ≤ t.totalPoints - t.usedPoints →
        0 < 12 - t.playerCount - 1 →
        (t.totalPoints - t.usedPoints) - amount < (12 - t.playerCount - 1) * 200 →
        bidChecks a t amount = some (Response.error 400
          (reserveMessage ((12 - t.playerCount - 1) * 200) (12 - t.playerCount - 1)
            ((t.totalPoints - t.usedPoints) - (12 - t.playerCount - 1) * 200))))
    ∧ (a.status = "active" → (if a.currentBid = 0 then 200 ≤ amount else a.currentBid < amount) →
        bidExact t amount →
        amount ≤ t.totalPoints - t.usedPoints →
        (12 - t.playerCount - 1 ≤ 0
          ∨ (12 - t.playerCount - 1) * 200 ≤ (t.totalPoints - t.usedPoints) - amount) →
        a.winningTeamID = some t.id →
        bidChecks a t amount = some (Response.error 400
          "You are already winning the current bid. Another team must bid first."))
    ∧ (a.status = "active" → a.currentBid = 0 → amount = 150 →
        bidChecks a t amount = some (Response.error 400 "First bid must be at least â‚¹200"))
    ∧ (a.status = "active" → (if a.currentBid = 0 then 200 ≤ amount else a.currentBid < amount) →
        t.totalPoints = 12000 → t.usedPoints = 11800 → t.playerCount = 11 → amount = 300 →
        bidChecks a t amount = some (Response.error 400 "Insufficient points")) := by
  refine ⟨?_, ?_, ?_, ?_, ?_, ?_, ?_, ?_⟩
  · intro hs; simp [bidChecks, checkAuction, hs]
  · intro hs hb ha; simp [bidChecks, checkAuction, hs, hb, ha]
  · intro hs hb ha; simp [bidChecks, checkAuction, hs, hb, ha]
  · intro hs hp hx hr
    exact bidChecks_insufficient_exact hs hp hx hr
  · intro hs hp hx hm hr hn hv
    exact bidChecks_reserve_exact hs hp hx hm hr hn hv
  · intro hs hp hx hr hv hw
    exact bidChecks_winning_exact hs hp hx hr hv hw
  · intro hs hb ha; simp [bidChecks, checkAuction, hs, hb, ha]
  · intro hs hp ht hu _ ha
    apply bidChecks_insufficient_exact hs hp
    · unfold isInt minInt maxInt; omega
    · omega

/-- Instances of C7: against a current bid of 0 a bid of 150 is below the base price, a
team with 12000 total points, 11800 used and 11 players bidding 300 lacks the points, and
the winning team 7 bidding 400 over 300 with all its points left is told that it is
already winning. -/
theorem bidChecks_first_failing_rule_witness :
    bidChecks (mkAuction "active" 0 none) (mkTeam 7 12000 0 0) 150
        = some (Response.error 400 "First bid must be at least â‚¹200")
    ∧ bidChecks (mkAuction "active" 0 none) (mkTeam 9 12000 11800 11) 300
        = some (Response.error 400 "Insufficient points")
    ∧ bidChecks (mkAuction "active" 300 (some 7)) (mkTeam 7 12000 0 0) 400
        = some (Response.error 400
            "You are already winning the current bid. Another team must bid first.") :=
  ⟨(bidChecks_first_failing_rule (mkAuction "active" 0 none) (mkTeam 7 12000 0 0) 150).2.2.2.2.2.2.1
      (by decide) (by decide) (by decide),
   (bidChecks_first_failing_rule (mkAuction "active" 0 none) (mkTeam 9 12000 11800 11)
      300).2.2.2.2.2.2.2 (by decide) (by decide) (by decide) (by decide) (by decide) (by decide),
   (bidChecks_first_failing_rule (mkAuction "active" 300 (some 7)) (mkTeam 7 12000 0 0)
      400).2.2.2.2.2.1 (by decide) (by decide) (by decide) (by decide) (by decide) (by decide)⟩

/-- C7 as stated fails outside the range: team 9, with used points at the least `int`
value and 11 players, holds the winning bid of 300 and bids 400.  Over the integers the
status, price, budget and reserve rules pass and the first failing rule is the one on the
winning team, yet the handler answers with insufficient points. -/
theorem reason_not_of_first_failing_rule :
    bidChecks (mkAuction "active" 300 (some 9)) wrappedTeam 400
        = some (Response.error 400 "Insufficient points")
    ∧ isInt wrappedTeam.totalPoints ∧ isInt wrappedTeam.usedPoints
    ∧ (mkAuction "active" 300 (some 9)).status = "active"
    ∧ (mkAuction "active" 300 (some 9)).currentBid ≠ 0
    ∧ (mkAuction "active" 300 (some 9)).currentBid < 400
    ∧ ¬ (wrappedTeam.totalPoints - wrappedTeam.usedPoints < 400)
    ∧ 12 - wrappedTeam.playerCount - 1 ≤ 0
    ∧ (mkAuction "active" 300 (some 9)).winningTeamID = some wrappedTeam.id := by
  decide

/-- C8, within the `int` range: when the status, price and budget rules pass, the number of
players still needed `12 - playerCount - 1` is positive and the points left after the bid
are below 200 per needed player, the bid is rejected by the reserve rule and the rejection
reports the maximum safe bid `remaining - needed * 200`, provided the exact results of the
operations of the checks (the remaining points, the players needed, the reserve, the points
left after the bid and the maximum safe bid) are `int` values.  With 10 players, 300
remaining points and a bid of 250 the reported maximum safe bid is 100. -/
theorem bidChecks_reserve_violation (a : Auction) (t : Team) (amount : Int) :
    (a.status = "active" → (if a.currentBid = 0 then 200 ≤ amount else a.currentBid < amount) →
        bidExact t amount →
        isInt (t.totalPoints - t.usedPoints - (12 - t.playerCount - 1) * 200) →
        amount ≤ t.totalPoints - t.usedPoints →
        0 < 12 - t.playerCount - 1 →
        (t.totalPoints - t.usedPoints) - amount < (12 - t.playerCount - 1) * 200 →
        bidChecks a t amount = some (Response.error 400
          (reserveMessage ((12 - t.playerCount - 1) * 200) (12 - t.playerCount - 1)
            ((t.totalPoints - t.usedPoints) - (12 - t.playerCount - 1) * 200))))
    ∧ (a.status = "active" → (if a.currentBid = 0 then 200 ≤ amount else a.currentBid < amount) →
        t.playerCount = 10 → t.totalPoints - t.usedPoints = 300 → amount = 250 →
        bidChecks a t amount = some (Response.error 400
          "Bid too high! You need at least 200 points for 1 more players. Max safe bid: 100")) := by
  refine ⟨fun hs hp hx hm hr hn hv => bidChecks_reserve_exact hs hp hx hm hr hn hv, ?_⟩
  intro hs hp hc hr ha
  have hx : bidExact t amount := by
    refine ⟨?_, ?_, fun hn => ⟨?_, ?_⟩⟩ <;> (unfold isInt minInt maxInt; omega)
  have hm : isInt (t.totalPoints - t.usedPoints - (12 - t.playerCount - 1) * 200) := by
    unfold isInt minInt maxInt; omega
  have h := bidChecks_reserve_exact hs hp hx hm (by omega) (by omega) (by omega)
  rw [h, hc, hr]
  decide

/-- Instances of C8: 10 players, 300 remaining points, bid of 250; and a fresh team bidding
9801 of its 12000 points is told a maximum safe bid of 9800. -/
theorem bidChecks_reserve_violation_witness :
    bidChecks (mkAuction "active" 0 none) (mkTeam 9 12000 11700 10) 250
      = some (Response.error 400
          "Bid too high! You need at least 200 points for 1 more players. Max safe bid: 100")
    ∧ bidChecks (mkAuction "active" 0 none) (mkTeam 7 12000 0 0) 9801
      = some (Response.error 400
          (reserveMessage ((12 - (mkTeam 7 12000 0 0).playerCount - 1) * 200)
            (12 - (mkTeam 7 12000 0 0).playerCount - 1)
            (((mkTeam 7 12000 0 0).totalPoints - (mkTeam 7 12000 0 0).usedPoints)
              - (12 - (mkTeam 7 12000 0 0).playerCount - 1) * 200))) :=
  ⟨(bidChecks_reserve_violation (mkAuction "active" 0 none) (mkTeam 9 12000 11700 10) 250).2
      (by decide) (by decide) (by decide) (by decide) (by decide),
   (bidChecks_reserve_violation (mkAuction "active" 0 none) (mkTeam 7 12000 0 0) 9801).1
      (by decide) (by decide) (by decide) (by decide) (by decide) (by decide) (by decide)⟩

/-- C8 as stated fails outside the range: team 9 has 12000 total points, used points of
-9223372036854764309 and 6 players, and bids the greatest `int` value on an active auction
without a bid.  Over the integers the remaining points exceed the amount by 502, which is
below the reserve of 1000 for the 5 players still needed, so the claim has the bid refused
by the reserve rule; the handler computes negative remaining points and answers with
insufficient points. -/
theorem reserve_violation_not_reported :
    bidChecks (mkAuction "active" 0 none) nearWrapTeam 9223372036854775807
        = some (Response.error 400 "Insufficient points")
    ∧ isInt nearWrapTeam.totalPoints ∧ isInt nearWrapTeam.usedPoints
    ∧ isInt 9223372036854775807
    ∧ (mkAuction "active" 0 none).status = "active"
    ∧ (mkAuction "active" 0 none).currentBid = 0
    ∧ (200 : Int) ≤ 9223372036854775807
    ∧ 9223372036854775807 ≤ nearWrapTeam.totalPoints - nearWrapTeam.usedPoints
    ∧ 0 < 12 - nearWrapTeam.playerCount - 1
    ∧ (nearWrapTeam.totalPoints - nearWrapTeam.usedPoints) - 9223372036854775807
        < (12 - nearWrapTeam.playerCount - 1) * 200 := by
  decide

/-- The status and price rules only ever answer with an error. -/
theorem checkAuction_error {a : Auction} {amount : Int} {r : Response}
    (h : checkAuction a amount = some r) : ∃ msg, r = Response.error 400 msg := by
  unfold checkAuction at h
  split_ifs at h <;> simp at h <;> exact ⟨_, h.symm⟩

/-- The budget, reserve and self-outbid rules only ever answer with an error. -/
theorem checkTeam_error {a : Auction} {t : Team} {amount : Int} {r : Response}
    (h : checkTeam a t amount = some r) : ∃ msg, r = Response.error 400 msg := by
  unfold checkTeam at h
  simp only at h
  split_ifs at h <;> simp at h <;> exact ⟨_, h.symm⟩

/-- What an accepted bid went through: the request was well formed, the auction and the
team were found, the checks passed, a player was up, no write failed; and the store that
results. -/
theorem CreateBid_created {f : BidFaults} {now : Time} {fresh : UUID} {db : DB}
    {auctionID : Option UUID} {body : Option Int} {ctxTeamID : Option (Option UUID)}
    (h : (CreateBid f now fresh db auctionID body ctxTeamID).resp = Response.created) :
    ∃ amount aid tid auction team pid,
      body = some amount ∧ amount ≠ 0 ∧ auctionID = some aid ∧ ctxTeamID = some (some tid)
      ∧ db.firstAuction aid = some auction ∧ db.firstTeam tid = some team
      ∧ bidChecks auction team amount = none
      ∧ auction.currentPlayerID = some pid
      ∧ f = noBidFaults
      ∧ CreateBid f now fresh db auctionID body ctxTeamID =
          { db := (((db.clearWinning now aid).createBid
                    { id := fresh, auctionID := auction.id, playerID := pid, teamID := tid,
                      amount := amount, isWinning := true, createdAt := now, updatedAt := now })
                  ).saveAuction now
                    { auction with currentBid := amount, winningTeamID := some team.id,
                                   updatedAt := now },
            resp := Response.created, events := ["new_bid"] } := by
  cases body with
  | none => simp [CreateBid, reject] at h
  | some amount =>
  by_cases h0 : amount = 0
  · simp [CreateBid, reject, h0] at h
  cases ctxTeamID with
  | none => simp [CreateBid, reject, h0] at h
  | some teamID =>
  cases auctionID with
  | none => simp [CreateBid, reject, h0] at h
  | some aid =>
  cases hA : db.firstAuction aid with
  | none => simp [CreateBid, reject, h0, hA] at h
  | some auction =>
  cases hca : checkAuction auction amount with
  | some r =>
    obtain ⟨msg, hr⟩ := checkAuction_error hca
    simp [CreateBid, h0, hA, hca, hr] at h
  | none =>
  cases teamID with
  | none => simp [CreateBid, reject, h0, hA, hca] at h
  | some tid =>
  cases hT : db.firstTeam tid with
  | none => simp [CreateBid, reject, h0, hA, hca, hT] at h
  | some team =>
  cases hct : checkTeam auction team amount with
  | some r =>
    obtain ⟨msg, hr⟩ := checkTeam_error hct
    simp [CreateBid, h0, hA, hca, hT, hct, hr] at h
  | none =>
  cases hp : auction.currentPlayerID with
  | none => simp [CreateBid, reject, h0, hA, hca, hT, hct, hp] at h
  | some pid =>
  obtain ⟨f1, f2, f3⟩ := f
  cases f1 <;> cases f2 <;> cases f3 <;>
    simp [CreateBid, reject, h0, hA, hca, hT, hct, hp, DB.begin, Tx.rollback, Tx.exec,
      Tx.commit] at h ⊢
  refine ⟨?_, rfl⟩
  simp [bidChecks, hca, hct]

/-- A well-formed request on an existing auction and team that the checks reject is
answered with that rejection and changes nothing. -/
theorem CreateBid_rejected {f : BidFaults} {now : Time} {fresh : UUID} {db : DB}
    {aid tid : UUID} {amount : Int} {auction : Auction} {team : Team} {r : Response}
    (h0 : amount ≠ 0) (hA : db.firstAuction aid = some auction)
    (hT : db.firstTeam tid = some team) (hr : bidChecks auction team amount = some r) :
    CreateBid f now fresh db (some aid) (some amount) (some (some tid))
      = { db := db, resp := r, events := [] } := by
  unfold bidChecks at hr
  cases hca : checkAuction auction amount with
  | some r2 =>
    rw [hca] at hr
    have e : r2 = r := by simpa using hr
    subst e
    simp [CreateBid, h0, hA, hca]
  | none =>
    rw [hca] at hr
    simp only at hr
    simp [CreateBid, h0, hA, hca, hT, hr]

/-- C9, within the `int` range: a bid by the team that holds the winning bid is never
accepted, neither by the checks nor by the handler; when the status, price, budget and
reserve rules pass, and the exact results of the operations of the checks are `int` values,
the reason is that the team is already winning, as for a team winning at 300 that bids 400
with enough points. -/
theorem bidChecks_already_winning (a : Auction) (t : Team) (amount : Int)
    (hw : a.winningTeamID = some t.id) :
    bidChecks a t amount ≠ none
    ∧ (∀ (f : BidFaults) (now : Time) (fresh : UUID) (db : DB) (aid : UUID) (body : Option Int),
        db.firstAuction aid = some a →
        (CreateBid f now fresh db (some aid) body (some (some t.id))).resp ≠ Response.created)
    ∧ (a.status = "active" → (if a.currentBid = 0 then 200 ≤ amount else a.currentBid < amount) →
        bidExact t amount →
        amount ≤ t.totalPoints - t.usedPoints →
        (12 - t.playerCount - 1 ≤ 0
          ∨ (12 - t.playerCount - 1) * 200 ≤ (t.totalPoints - t.usedPoints) - amount) →
        bidChecks a t amount = some (Response.error 400
          "You are already winning the current bid. Another team must bid first."))
    ∧ (a.status = "active" → a.currentBid = 300 → amount = 400 →
        bidExact t 400 →
        400 ≤ t.totalPoints - t.usedPoints →
        (12 - t.playerCount - 1) * 200 ≤ (t.totalPoints - t.usedPoints) - 400 →
        bidChecks a t amount = some (Response.error 400
          "You are already winning the current bid. Another team must bid first.")) := by
  have never : ∀ (t2 : Team) (amount2 : Int), t2.id = t.id → bidChecks a t2 amount2 ≠ none := by
    intro t2 amount2 hid hnone
    have h := ((bidChecks_none_iff a t2 amount2).1 hnone).2.2.2.2
    exact h (by rw [hw, hid])
  refine ⟨never t amount rfl, ?_, ?_, ?_⟩
  · intro f now fresh db aid body hA hres
    obtain ⟨amount2, aid2, tid2, auction2, team2, pid, _, _, haid, htid, hA2, hT2, hchk, _⟩ :=
      CreateBid_created hres
    have e1 : aid2 = aid := by simpa using haid.symm
    have e2 : tid2 = t.id := by simpa using htid.symm
    subst e1 e2
    rw [hA] at hA2
    have e3 : auction2 = a := by simpa using hA2.symm
    subst e3
    exact never team2 amount2 (firstTeam_id hT2) hchk
  · intro hs hp hx hr hv
    exact bidChecks_winning_exact hs hp hx hr hv hw
  · intro hs hb ha hx hr hv
    subst ha
    exact bidChecks_winning_exact hs (by simp [hb]) hx hr (Or.inr hv) hw

/-- Instance of C9: team 7 is winning at 300 and bids 400. -/
theorem bidChecks_already_winning_witness :
    bidChecks (mkAuction "active" 300 (some 7)) (mkTeam 7 12000 0 0) 400
        = some (Response.error 400
            "You are already winning the current bid. Another team must bid first.")
    ∧ (CreateBid noBidFaults sampleTime 100 sampleDBWinning (some 1) (some 400)
        (some (some 7))).resp ≠ Response.created :=
  ⟨(bidChecks_already_winning (mkAuction "active" 300 (some 7)) (mkTeam 7 12000 0 0) 400
      rfl).2.2.2 (by decide) (by decide) (by decide) (by decide) (by decide) (by decide),
   (bidChecks_already_winning (mkAuction "active" 300 (some 7)) (mkTeam 7 12000 0 0) 400
      rfl).2.1 noBidFaults sampleTime 100 sampleDBWinning 1 (some 400) (by decide)⟩

/-- C9 as stated fails outside the range: team 7, with 12000 total points, used points at
the least `int` value and no player, holds the winning bid of 300 and bids 400.  Over the
integers the price, budget and reserve rules pass, yet the handler refuses the bid for
insufficient points and not because the team is already winning. -/
theorem winning_team_told_insufficient_points :
    bidChecks (mkAuction "active" 300 (some 7)) wrappedWinner 400
        = some (Response.error 400 "Insufficient points")
    ∧ bidChecks (mkAuction "active" 300 (some 7)) wrappedWinner 400
        ≠ some (Response.error 400
            "You are already winning the current bid. Another team must bid first.")
    ∧ isInt wrappedWinner.totalPoints ∧ isInt wrappedWinner.usedPoints
    ∧ (mkAuction "active" 300 (some 7)).winningTeamID = some wrappedWinner.id
    ∧ (mkAuction "active" 300 (some 7)).status = "active"
    ∧ (mkAuction "active" 300 (some 7)).currentBid < 400
    ∧ 400 ≤ wrappedWinner.totalPoints - wrappedWinner.usedPoints
    ∧ (12 - wrappedWinner.playerCount - 1) * 200
        ≤ (wrappedWinner.totalPoints - wrappedWinner.usedPoints) - 400 := by
  decide

/-! ## Accepted bids raise the current bid -/

/-- C6: every accepted bid sets the current bid of the auction to the bid amount, which is
strictly above the current bid before the call; so along any run of accepted bids on one
auction, with no other call in between, the current bid is strictly increasing. -/
theorem accepted_bids_strictly_increase (db : DB) (id : UUID) (auction : Auction)
    (hA : db.firstAuction id = some auction) (cs : List BidCall)
    (hAcc : ∀ out ∈ bidRun db id cs, out.resp = Response.created) :
    (bidRun db id cs).map (fun out => (out.db.firstAuction id).map Auction.currentBid)
        = cs.map (fun c => c.body)
    ∧ List.Chain (fun x y => x < y) auction.currentBid
        ((bidRun db id cs).map (fun out => currentBidOf id out.db)) := by
  induction cs generalizing db auction with
  | nil => simp [bidRun]
  | cons c cs ih =>
    have hres : (CreateBid c.f c.now c.fresh db (some id) c.body c.ctxTeamID).resp
        = Response.created := hAcc _ (by simp [bidRun])
    obtain ⟨amount, aid, tid, auction2, team, pid, hbody, _, haid, _, hA2, _, hchk, _, _, hout⟩ :=
      CreateBid_created hres
    have e1 : aid = id := by simpa using haid.symm
    subst e1
    rw [hA] at hA2
    have e3 : auction2 = auction := by simpa using hA2.symm
    subst e3
    have hid : auction2.id = aid := firstAuction_id hA
    have hnew : (CreateBid c.f c.now c.fresh db (some aid) c.body c.ctxTeamID).db.firstAuction aid
        = some { auction2 with currentBid := amount, winningTeamID := some team.id,
                               updatedAt := c.now } := by
      rw [hout]
      have := firstAuction_saveAuction c.now
        ((db.clearWinning c.now aid).createBid
          { id := c.fresh, auctionID := auction2.id, playerID := pid, teamID := tid,
            amount := amount, isWinning := true, createdAt := c.now, updatedAt := c.now })
        { auction2 with currentBid := amount, winningTeamID := some team.id, updatedAt := c.now }
      simpa [hid] using this
    have hlt : auction2.currentBid < amount := by
      have h := ((bidChecks_none_iff auction2 team amount).1 hchk).2.1
      by_cases hb : auction2.currentBid = 0
      · simp only [hb, if_true] at h; omega
      · simp only [hb, if_false] at h; exact h
    have hrest := ih (CreateBid c.f c.now c.fresh db (some aid) c.body c.ctxTeamID).db _ hnew
      (fun out ho => hAcc out (by simp [bidRun, ho]))
    refine ⟨?_, ?_⟩
    · simp only [bidRun, List.map_cons]
      rw [hnew, hrest.1, hbody]
      rfl
    · simp only [bidRun, List.map_cons]
      refine List.Chain.cons ?_ ?_
      · simpa [currentBidOf, hnew] using hlt
      · simpa [currentBidOf, hnew] using hrest.2

/-- Instance of C6: on the sample store, bids of 200 and 300 by teams 7 and 8 are both
accepted and take the current bid from 0 to 200 to 300. -/
theorem accepted_bids_strictly_increase_witness :
    (bidRun sampleDB 1 sampleBids).map (fun out => (out.db.firstAuction 1).map Auction.currentBid)
        = sampleBids.map (fun c => c.body)
    ∧ List.Chain (fun x y => x < y) (mkAuction "active" 0 none).currentBid
        ((bidRun sampleDB 1 sampleBids).map (fun out => currentBidOf 1 out.db)) :=
  accepted_bids_strictly_increase sampleDB 1 (mkAuction "active" 0 none) (by decide) sampleBids
    (by decide)

/-! ## Settlement in `NextPlayer` -/

/-- A failed settlement is rolled back: the error outcome carries the store as it was. -/
theorem settle_error {f : NextFaults} {now : Time} {db : DB} {auction : Auction} {out : Outcome}
    (h : settle f now db auction = Except.error out) :
    out.db = db ∧ out.events = [] ∧ ∃ msg, out.resp = Response.error 500 msg := by
  obtain ⟨f1, f2, f3, f4⟩ := f
  unfold settle at h
  cases hW : auction.winningTeamID with
  | none => simp [hW] at h
  | some T =>
    cases hP : auction.currentPlayerID.bind db.firstPlayer with
    | none => simp [hW, hP] at h
    | some P =>
      have hteams : ∀ p : Player, (db.savePlayer now p).firstTeam T = db.firstTeam T :=
        fun _ => rfl
      cases hT : db.firstTeam T <;> cases f1 <;> cases f2 <;> cases f3 <;>
        simp [hW, hP, hT, hteams, DB.begin, Tx.rollback, Tx.exec, Tx.commit, reject] at h <;>
        (subst h; exact ⟨rfl, rfl, _, rfl⟩)

/-- A settlement that goes through, for a winning team and a current player that exists:
no step failed, the team exists, and the store holds the sold player and the charged team. -/
theorem settle_ok {f : NextFaults} {now : Time} {db db2 : DB} {auction : Auction}
    {T pid : UUID} {P : Player}
    (hW : auction.winningTeamID = some T) (hC : auction.currentPlayerID = some pid)
    (hP : db.firstPlayer pid = some P)
    (h : settle f now db auction = Except.ok db2) :
    ∃ team, db.firstTeam T = some team ∧ f.savePlayer = false ∧ f.loadTeam = false
      ∧ f.saveTeam = false
      ∧ db2 = (db.savePlayer now { P with isSold := true, currentTeamID := some T,
                                          currentPrice := auction.currentBid }).saveTeam now
                { team with usedPoints := wrapInt (team.usedPoints + auction.currentBid) } := by
  obtain ⟨f1, f2, f3, f4⟩ := f
  unfold settle at h
  have hP2 : auction.currentPlayerID.bind db.firstPlayer = some P := by
    rw [hC]; exact hP
  have hteams : ∀ p : Player, (db.savePlayer now p).firstTeam T = db.firstTeam T :=
    fun _ => rfl
  cases hT : db.firstTeam T <;> cases f1 <;> cases f2 <;> cases f3 <;>
    simp [hW, hP2, hT, hteams, DB.begin, Tx.rollback, Tx.exec, Tx.commit, reject] at h
  subst h
  exact ⟨_, rfl, rfl, rfl, rfl, rfl⟩

/-- What a successful `NextPlayer` did to the players and teams tables when the auction had
a winning team and an existing current player. -/
theorem NextPlayer_ok {f : NextFaults} {now : Time} {db : DB} {auctionID : UUID}
    {auction : Auction} {T pid : UUID} {P : Player}
    (hA : db.firstAuction auctionID = some auction)
    (hW : auction.winningTeamID = some T) (hC : auction.currentPlayerID = some pid)
    (hP : db.firstPlayer pid = some P)
    (hOk : (NextPlayer f now db auctionID).resp = Response.ok) :
    ∃ team, db.firstTeam T = some team
      ∧ (NextPlayer f now db auctionID).db.firstPlayer pid
          = some { P with isSold := true, currentTeamID := some T,
                          currentPrice := auction.currentBid, updatedAt := now }
      ∧ (NextPlayer f now db auctionID).db.firstTeam T
          = some { team with usedPoints := wrapInt (team.usedPoints + auction.currentBid),
                             updatedAt := now } := by
  unfold NextPlayer at hOk ⊢
  simp only [hA] at hOk ⊢
  cases hS : settle f now db auction with
  | error out =>
    obtain ⟨_, _, msg, hmsg⟩ := settle_error hS
    simp [hS, hmsg] at hOk
  | ok db2 =>
    obtain ⟨team, hT, _, _, _, hdb2⟩ := settle_ok hW hC hP hS
    have hpid : P.id = pid := firstPlayer_id hP
    have htid : team.id = T := firstTeam_id hT
    have hplayer : db2.firstPlayer pid
        = some { P with isSold := true, currentTeamID := some T,
                        currentPrice := auction.currentBid, updatedAt := now } := by
      rw [hdb2]
      have := firstPlayer_savePlayer now db { P with isSold := true, currentTeamID := some T,
                                                     currentPrice := auction.currentBid }
      simpa [hpid] using this
    have hteam : db2.firstTeam T
        = some { team with usedPoints := wrapInt (team.usedPoints + auction.currentBid),
                           updatedAt := now } := by
      rw [hdb2]
      have := firstTeam_saveTeam now
        (db.savePlayer now { P with isSold := true, currentTeamID := some T,
                                    currentPrice := auction.currentBid })
        { team with usedPoints := wrapInt (team.usedPoints + auction.currentBid) }
      simpa [htid] using this
    refine ⟨team, hT, ?_, ?_⟩
    · simp only [hS] at hOk ⊢
      split
      · exact hplayer
      · split_ifs with hf
        · simp [hS, hf, reject] at hOk
          split at hOk <;> simp_all [reject]
        · exact hplayer
    · simp only [hS] at hOk ⊢
      split
      · exact hteam
      · split_ifs with hf
        · simp [hS, hf, reject] at hOk
          split at hOk <;> simp_all [reject]
        · exact hteam

/-- C3, within the `int` range: when the auction has winning team `T`, an existing current
player `P` and current bid `b`, a successful `NextPlayer` leaves `P` sold to `T` at price
`b` and leaves team `T` with its used points increased by exactly `b`, provided the used
points plus `b` are an `int` value. -/
theorem NextPlayer_sells_to_winner (f : NextFaults) (now : Time) (db : DB) (auctionID : UUID)
    (auction : Auction) (T pid : UUID) (P : Player)
    (hA : db.firstAuction auctionID = some auction)
    (hW : auction.winningTeamID = some T) (hC : auction.currentPlayerID = some pid)
    (hP : db.firstPlayer pid = some P)
    (hOk : (NextPlayer f now db auctionID).resp = Response.ok) :
    (∃ P2, (NextPlayer f now db auctionID).db.firstPlayer pid = some P2
        ∧ P2.isSold = true ∧ P2.currentTeamID = some T ∧ P2.currentPrice = auction.currentBid)
    ∧ (∃ team team2, db.firstTeam T = some team
        ∧ (NextPlayer f now db auctionID).db.firstTeam T = some team2
        ∧ (isInt (team.usedPoints + auction.currentBid) →
            team2.usedPoints = team.usedPoints + auction.currentBid)) := by
  obtain ⟨team, hT, hp, ht⟩ := NextPlayer_ok hA hW hC hP hOk
  exact ⟨⟨_, hp, rfl, rfl, rfl⟩, ⟨team, _, hT, ht, fun hx => wrapInt_of_isInt hx⟩⟩

/-- Instance of C3: team 7 is winning player 1 at 300 on the sample store; after
`NextPlayer` player 1 is sold to it at 300 and its used points are those before plus 300. -/
theorem NextPlayer_sells_to_winner_witness :
    (∃ P2, (NextPlayer noNextFaults sampleTime sampleDBWinning 1).db.firstPlayer 1 = some P2
        ∧ P2.isSold = true ∧ P2.currentTeamID = some 7
        ∧ P2.currentPrice = (mkAuction "active" 300 (some 7)).currentBid)
    ∧ (∃ team team2, sampleDBWinning.firstTeam 7 = some team
        ∧ (NextPlayer noNextFaults sampleTime sampleDBWinning 1).db.firstTeam 7 = some team2
        ∧ team2.usedPoints = team.usedPoints + (mkAuction "active" 300 (some 7)).currentBid) := by
  obtain ⟨hp, team, team2, hT, hT2, hx⟩ :=
    NextPlayer_sells_to_winner noNextFaults sampleTime sampleDBWinning 1
      (mkAuction "active" 300 (some 7)) 7 1 (mkPlayer 1 "female")
      (by decide) (by decide) (by decide) (by decide) (by decide)
  have e : sampleDBWinning.firstTeam 7 = some (mkTeam 7 12000 0 0) := by decide
  rw [e] at hT
  have e2 : team = mkTeam 7 12000 0 0 := (Option.some.inj hT).symm
  subst e2
  exact ⟨hp, _, team2, e, hT2, hx (by decide)⟩

/-- C3 as stated fails outside the range: in the store where team 7 has 200 used points
and the auction was created with team 7 as winning team of player 1 at a current bid of the
greatest `int` value, `NextPlayer` succeeds and leaves team 7 with -9223372036854775609
used points, which is not 200 increased by the current bid. -/
theorem settlement_wraps_used_points :
    (hugeBidDB.firstAuction 1).map
        (fun a => (a.winningTeamID, a.currentPlayerID, a.currentBid))
      = some (some 7, some 1, 9223372036854775807)
    ∧ hugeBidDB.firstPlayer 1 = some (mkPlayer 1 "female")
    ∧ (hugeBidDB.firstTeam 7).map Team.usedPoints = some 200
    ∧ (NextPlayer noNextFaults sampleTime hugeBidDB 1).resp = Response.ok
    ∧ ((NextPlayer noNextFaults sampleTime hugeBidDB 1).db.firstTeam 7).map Team.usedPoints
        = some (-9223372036854775609)
    ∧ (200 : Int) + 9223372036854775807 ≠ -9223372036854775609 := by
  decide

/-- C4, as the code behaves: a successful `NextPlayer` with a winning team `T` and an
existing current player leaves the player count of `T` at its previous value, not at that
value plus 1. -/
theorem NextPlayer_keeps_playerCount (f : NextFaults) (now : Time) (db : DB) (auctionID : UUID)
    (auction : Auction) (T pid : UUID) (P : Player)
    (hA : db.firstAuction auctionID = some auction)
    (hW : auction.winningTeamID = some T) (hC : auction.currentPlayerID = some pid)
    (hP : db.firstPlayer pid = some P)
    (hOk : (NextPlayer f now db auctionID).resp = Response.ok) :
    ∃ team team2, db.firstTeam T = some team
      ∧ (NextPlayer f now db auctionID).db.firstTeam T = some team2
      ∧ team2.playerCount = team.playerCount
      ∧ team2.playerCount ≠ team.playerCount + 1 := by
  obtain ⟨team, hT, _, ht⟩ := NextPlayer_ok hA hW hC hP hOk
  refine ⟨team, _, hT, ht, rfl, ?_⟩
  show team.playerCount ≠ team.playerCount + 1
  omega

/-- Instance of C4: team 7 wins player 1 at 300 with no player yet; after `NextPlayer` it is
charged 300 and still has a player count of 0. -/
theorem NextPlayer_keeps_playerCount_witness :
    ∃ team team2, sampleDBWinning.firstTeam 7 = some team
      ∧ (NextPlayer noNextFaults sampleTime sampleDBWinning 1).db.firstTeam 7 = some team2
      ∧ team2.playerCount = team.playerCount
      ∧ team2.playerCount ≠ team.playerCount + 1 :=
  NextPlayer_keeps_playerCount noNextFaults sampleTime sampleDBWinning 1
    (mkAuction "active" 300 (some 7)) 7 1 (mkPlayer 1 "female")
    (by decide) (by decide) (by decide) (by decide) (by decide)

/-- C10: when, during the settlement of `NextPlayer`, saving the player, loading the winning
team or saving the team fails, `NextPlayer` answers with an internal error, broadcasts
nothing and leaves the store as it was, so the player, the team and the auction keep their
values. -/
theorem NextPlayer_settlement_failure (f : NextFaults) (now : Time) (db : DB) (auctionID : UUID)
    (auction : Auction) (T pid : UUID) (P : Player)
    (hA : db.firstAuction auctionID = some auction)
    (hW : auction.winningTeamID = some T) (hC : auction.currentPlayerID = some pid)
    (hP : db.firstPlayer pid = some P)
    (hFail : f.savePlayer = true ∨ (f.loadTeam = true ∨ db.firstTeam T = none)
      ∨ f.saveTeam = true) :
    (∃ msg, (NextPlayer f now db auctionID).resp = Response.error 500 msg)
    ∧ (NextPlayer f now db auctionID).events = []
    ∧ (NextPlayer f now db auctionID).db = db
    ∧ (NextPlayer f now db auctionID).db.firstPlayer pid = some P
    ∧ (NextPlayer f now db auctionID).db.firstTeam T = db.firstTeam T
    ∧ (NextPlayer f now db auctionID).db.firstAuction auctionID = some auction := by
  have hS : ∃ out, settle f now db auction = Except.error out := by
    cases hS : settle f now db auction with
    | error out => exact ⟨out, rfl⟩
    | ok db2 =>
      obtain ⟨team, hT, h1, h2, h3, _⟩ := settle_ok hW hC hP hS
      rcases hFail with h | (h | h) | h
      · rw [h1] at h; cases h
      · rw [h2] at h; cases h
      · rw [hT] at h; cases h
      · rw [h3] at h; cases h
  obtain ⟨out, hS⟩ := hS
  obtain ⟨hdb, hev, msg, hmsg⟩ := settle_error hS
  have hN : NextPlayer f now db auctionID = out := by
    unfold NextPlayer
    simp only [hA, hS]
  rw [hN, hdb]
  exact ⟨⟨msg, hmsg⟩, hev, rfl, hP, rfl, hA⟩

/-- Instance of C10: the save of the team fails while team 7 is winning player 1. -/
theorem NextPlayer_settlement_failure_witness :
    (∃ msg, (NextPlayer { noNextFaults with saveTeam := true } sampleTime sampleDBWinning 1).resp
        = Response.error 500 msg)
    ∧ (NextPlayer { noNextFaults with saveTeam := true } sampleTime sampleDBWinning 1).events = []
    ∧ (NextPlayer { noNextFaults with saveTeam := true } sampleTime sampleDBWinning 1).db
        = sampleDBWinning
    ∧ (NextPlayer { noNextFaults with saveTeam := true } sampleTime sampleDBWinning 1).db.firstPlayer 1
        = some (mkPlayer 1 "female")
    ∧ (NextPlayer { noNextFaults with saveTeam := true } sampleTime sampleDBWinning 1).db.firstTeam 7
        = sampleDBWinning.firstTeam 7
    ∧ (NextPlayer { noNextFaults with saveTeam := true } sampleTime sampleDBWinning 1).db.firstAuction 1
        = some (mkAuction "active" 300 (some 7)) :=
  NextPlayer_settlement_failure { noNextFaults with saveTeam := true } sampleTime sampleDBWinning 1
    (mkAuction "active" 300 (some 7)) 7 1 (mkPlayer 1 "female")
    (by decide) (by decide) (by decide) (by decide) (Or.inr (Or.inr (by decide)))

/-! ## Interleaving manual assignment with the auction -/

/-- The store at the end of a run is reachable from any store the run starts in. -/
theorem reachable_run (db0 : DB) (cs : List Call) :
    ∀ db, Reachable db0 db → Reachable db0 (run db cs) := by
  induction cs with
  | nil => intro db h; exact h
  | cons c cs ih => intro db h; exact ih _ (Reachable.step db c h)

/-- C2 at a failing run: from the sample store, where every team is within its budget,
team 7 bids 9800 on player 1, player 2 is assigned to team 7 for 2201 points, and
`NextPlayer` then charges the 9800.  The three calls succeed and in the store they reach
team 7 has 12001 used points out of 12000. -/
theorem budget_overrun_after_settlement :
    budgetSafe sampleDB
    ∧ responses sampleDB overrunCalls = [Response.created, Response.ok, Response.ok]
    ∧ Reachable sampleDB (run sampleDB overrunCalls)
    ∧ ((run sampleDB overrunCalls).firstTeam 7).map Team.usedPoints = some 12001
    ∧ ((run sampleDB overrunCalls).firstTeam 7).map Team.totalPoints = some 12000
    ∧ ¬ budgetSafe (run sampleDB overrunCalls) :=
  ⟨by decide, by decide, reachable_run sampleDB overrunCalls sampleDB Reachable.init,
    by decide, by decide, by decide⟩

/-- C5 at a failing run: team 7 bids 200 on player 1, player 1 is then assigned to team 8
for 500 points and is sold; the following `NextPlayer` succeeds, hands the sold player to
team 7 at 200 and charges team 7, while team 8 stays charged. -/
theorem sold_player_settled_again :
    responses sampleDB resaleCalls = [Response.created, Response.ok]
    ∧ ((run sampleDB resaleCalls).firstPlayer 1).map
        (fun p => (p.isSold, p.currentTeamID, p.currentPrice)) = some (true, some 8, 500)
    ∧ (NextPlayer noNextFaults sampleTime (run sampleDB resaleCalls) 1).resp = Response.ok
    ∧ ((NextPlayer noNextFaults sampleTime (run sampleDB resaleCalls) 1).db.firstPlayer 1).map
        (fun p => (p.isSold, p.currentTeamID, p.currentPrice)) = some (true, some 7, 200)
    ∧ ((run sampleDB resaleCalls).firstTeam 7).map Team.usedPoints = some 0
    ∧ ((NextPlayer noNextFaults sampleTime (run sampleDB resaleCalls) 1).db.firstTeam 7).map
        Team.usedPoints = some 200
    ∧ ((NextPlayer noNextFaults sampleTime (run sampleDB resaleCalls) 1).db.firstTeam 8).map
        Team.usedPoints = some 500 := by
  decide

/-! ## Frames of the handlers -/

/-- A save of an auction leaves the lookups of the other auctions as they were. -/
theorem firstAuction_saveAuction_other (now : Time) (db : DB) (a : Auction) (k : UUID)
    (hk : k ≠ a.id) : (db.saveAuction now a).firstAuction k = db.firstAuction k :=
  find?_upsert_other Auction.id { a with updatedAt := now } db.auctions k hk

/-- The auction a lookup finds after a save is the saved one or the one found before. -/
theorem lookup_saveAuction {now : Time} {db : DB} {new a a2 : Auction} {k : UUID}
    (h : db.firstAuction k = some a) (h2 : (db.saveAuction now new).firstAuction k = some a2) :
    a2 = a ∨ (k = new.id ∧ a2 = { new with updatedAt := now }) := by
  by_cases hk : k = new.id
  · right
    subst hk
    rw [firstAuction_saveAuction] at h2
    exact ⟨rfl, by simpa using h2.symm⟩
  · left
    rw [firstAuction_saveAuction_other now db new k hk, h] at h2
    simpa using h2.symm

/-- A settlement touches neither the auctions nor the bids. -/
theorem settle_frame {f : NextFaults} {now : Time} {db db2 : DB} {auction : Auction}
    (h : settle f now db auction = Except.ok db2) :
    db2.auctions = db.auctions ∧ db2.bids = db.bids := by
  obtain ⟨f1, f2, f3, f4⟩ := f
  unfold settle at h
  cases hW : auction.winningTeamID with
  | none =>
    simp [hW] at h
    subst h
    exact ⟨rfl, rfl⟩
  | some T =>
    cases hP : auction.currentPlayerID.bind db.firstPlayer with
    | none =>
      simp [hW, hP] at h
      subst h
      exact ⟨rfl, rfl⟩
    | some P =>
      have hteams : ∀ p : Player, (db.savePlayer now p).firstTeam T = db.firstTeam T :=
        fun _ => rfl
      cases hT : db.firstTeam T <;> cases f1 <;> cases f2 <;> cases f3 <;>
        simp [hW, hP, hT, hteams, DB.begin, Tx.rollback, Tx.exec, Tx.commit, reject] at h
      subst h
      exact ⟨rfl, rfl⟩

/-- A bid that is not accepted leaves the store as it was. -/
theorem CreateBid_unchanged {f : BidFaults} {now : Time} {fresh : UUID} {db : DB}
    {auctionID : Option UUID} {body : Option Int} {ctxTeamID : Option (Option UUID)}
    (h : (CreateBid f now fresh db auctionID body ctxTeamID).resp ≠ Response.created) :
    (CreateBid f now fresh db auctionID body ctxTeamID).db = db := by
  cases body with
  | none => simp [CreateBid, reject]
  | some amount =>
  by_cases h0 : amount = 0
  · simp [CreateBid, reject, h0]
  cases ctxTeamID with
  | none => simp [CreateBid, reject, h0]
  | some teamID =>
  cases auctionID with
  | none => simp [CreateBid, reject, h0]
  | some aid =>
  cases hA : db.firstAuction aid with
  | none => simp [CreateBid, reject, h0, hA]
  | some auction =>
  cases hca : checkAuction auction amount with
  | some r => simp [CreateBid, h0, hA, hca]
  | none =>
  cases teamID with
  | none => simp [CreateBid, reject, h0, hA, hca]
  | some tid =>
  cases hT : db.firstTeam tid with
  | none => simp [CreateBid, reject, h0, hA, hca, hT]
  | some team =>
  cases hct : checkTeam auction team amount with
  | some r => simp [CreateBid, h0, hA, hca, hT, hct]
  | none =>
  cases hp : auction.currentPlayerID with
  | none => simp [CreateBid, reject, h0, hA, hca, hT, hct, hp]
  | some pid =>
  obtain ⟨f1, f2, f3⟩ := f
  cases f1 <;> cases f2 <;> cases f3 <;>
    simp [CreateBid, reject, h0, hA, hca, hT, hct, hp, DB.begin, Tx.rollback, Tx.exec,
      Tx.commit] at h ⊢

/-- `StartAuction` does not touch the bids. -/
theorem StartAuction_bids (f : SaveFault) (now : Time) (db : DB) (id : UUID) :
    (StartAuction f now db id).db.bids = db.bids := by
  cases hA : db.firstAuction id <;> cases hS : getNextPlayerByCategoryOrder now db none <;>
    cases hf : f.saveAuction <;> simp [StartAuction, hA, hS, hf, reject, DB.saveAuction]

/-- `EndAuction` does not touch the bids. -/
theorem EndAuction_bids (f : SaveFault) (now : Time) (db : DB) (id : UUID) :
    (EndAuction f now db id).db.bids = db.bids := by
  cases hA : db.firstAuction id <;> cases hf : f.saveAuction <;>
    simp [EndAuction, hA, hf, reject, DB.saveAuction]

/-- `AssignPlayerToAuction` does not touch the bids. -/
theorem AssignPlayerToAuction_bids (f : SaveFault) (now : Time) (db : DB)
    (auctionID : Option UUID) (body : Option (Option UUID)) :
    (AssignPlayerToAuction f now db auctionID body).db.bids = db.bids := by
  cases body with
  | none => simp [AssignPlayerToAuction, reject]
  | some playerID =>
    cases auctionID with
    | none => simp [AssignPlayerToAuction, reject]
    | some aid =>
      cases playerID with
      | none => simp [AssignPlayerToAuction, reject]
      | some pid =>
        cases hA : db.firstAuction aid with
        | none => simp [AssignPlayerToAuction, reject, hA]
        | some a =>
          cases hP : db.firstPlayer pid with
          | none => simp [AssignPlayerToAuction, reject, hA, hP]
          | some P =>
            cases hs : P.isSold <;> cases hf : f.saveAuction <;>
              simp [AssignPlayerToAuction, hA, hP, hs, hf, reject, DB.saveAuction]

/-- `NextPlayer` does not touch the bids. -/
theorem NextPlayer_bids (f : NextFaults) (now : Time) (db : DB) (id : UUID) :
    (NextPlayer f now db id).db.bids = db.bids := by
  cases hA : db.firstAuction id with
  | none => simp [NextPlayer, reject, hA]
  | some a =>
    cases hS : settle f now db a with
    | error out =>
      have := (settle_error hS).1
      simp [NextPlayer, hA, hS, this]
    | ok db2 =>
      have hb := (settle_frame hS).2
      cases hQ : getNextPlayerByCategoryOrder now db2 a.currentPlayerID with
      | none => simp [NextPlayer, hA, hS, hQ, DB.saveAuction, hb]
      | some Q =>
        cases hf : f.saveAuction <;> simp [NextPlayer, hA, hS, hQ, hf, reject, DB.saveAuction, hb]

/-- `CreateAuction` does not touch the bids. -/
theorem CreateAuction_bids (f : CreateFaults) (now : Time) (fresh : UUID) (db : DB)
    (body : Option AuctionBody) : (CreateAuction f now fresh db body).db.bids = db.bids := by
  unfold CreateAuction
  split_ifs
  · rfl
  · cases body with
    | none => rfl
    | some b =>
      simp only
      split_ifs <;> rfl

/-! ## At most one winning bid per auction -/

/-- After the bulk update no bid of the auction carries the winning flag. -/
theorem filter_clearWinning_self (now : Time) (aid : UUID) (bids : List Bid) :
    (bids.map (fun b =>
        if b.auctionID == aid then { b with isWinning := false, updatedAt := now } else b)).filter
      (fun b => b.auctionID == aid && b.isWinning) = [] := by
  rw [List.filter_eq_nil_iff]
  intro x hx
  obtain ⟨b, _, rfl⟩ := List.mem_map.1 hx
  by_cases hb : b.auctionID = aid <;> simp [hb]

/-- The bulk update leaves the number of winning bids of the other auctions as it was. -/
theorem filter_clearWinning_other (now : Time) (aid id : UUID) (hne : id ≠ aid)
    (bids : List Bid) :
    ((bids.map (fun b =>
        if b.auctionID == aid then { b with isWinning := false, updatedAt := now } else b)).filter
      (fun b => b.auctionID == id && b.isWinning)).length
      = (bids.filter (fun b => b.auctionID == id && b.isWinning)).length := by
  rw [List.filter_map, List.length_map]
  congr 1
  apply List.filter_congr
  intro b _
  by_cases hb : b.auctionID = aid
  · have hbi : ¬ aid = id := fun h => hne h.symm
    simp [hb, hbi]
  · simp [hb]

/-- Every operation keeps the winning bid of each auction unique. -/
theorem winningUnique_exec (db : DB) (op : Op) (h : winningUnique db) :
    winningUnique (op.exec db).db := by
  have same : ∀ db2 : DB, db2.bids = db.bids → winningUnique db2 := by
    intro db2 hb id
    unfold winningCount
    rw [hb]
    exact h id
  cases op with
  | createAuction f now fresh body => exact same _ (CreateAuction_bids f now fresh db body)
  | startAuction f now id => exact same _ (StartAuction_bids f now db id)
  | endAuction f now id => exact same _ (EndAuction_bids f now db id)
  | nextPlayer f now id => exact same _ (NextPlayer_bids f now db id)
  | assignPlayer f now id body => exact same _ (AssignPlayerToAuction_bids f now db id body)
  | placeBid f now fresh auctionID body ctxTeamID =>
    show winningUnique (CreateBid f now fresh db auctionID body ctxTeamID).db
    by_cases hres : (CreateBid f now fresh db auctionID body ctxTeamID).resp = Response.created
    · obtain ⟨amount, aid, tid, auction, team, pid, _, _, _, _, hA, _, _, _, _, hout⟩ :=
        CreateBid_created hres
      have hid : auction.id = aid := firstAuction_id hA
      rw [hout]
      intro id
      unfold winningCount
      simp only [DB.saveAuction, DB.createBid, DB.clearWinning, List.filter_append,
        List.length_append]
      by_cases hi : id = aid
      · subst hi
        rw [filter_clearWinning_self]
        simp [hid]
      · have hlen := filter_clearWinning_other now aid id hi db.bids
        rw [hlen]
        have hnew : ¬ auction.id = id := by rw [hid]; exact fun h => hi h.symm
        have hold := h id
        unfold winningCount at hold
        simpa [hnew] using hold
    · rw [CreateBid_unchanged hres]
      exact h

/-- C11: in every store reachable from a store without bids through Start, PlaceBid,
NextPlayer, AssignPlayer and End, each auction has at most one bid with the winning
flag. -/
theorem winning_bid_unique (db0 db : DB) (h0 : db0.bids = [])
    (hr : ReachableBy Op.live db0 db) :
    ∀ auctionID, (db.bids.filter (fun b => b.auctionID == auctionID && b.isWinning)).length ≤ 1 := by
  have h : winningUnique db := by
    induction hr with
    | init =>
      intro id
      unfold winningCount
      rw [h0]
      simp
    | step db1 op _ _ ih => exact winningUnique_exec db1 op ih
  exact h

/-- The store at the end of a run of allowed operations is reachable. -/
theorem reachableBy_runAll (allowed : Op → Prop) (db0 : DB) (ops : List Op) :
    (∀ op ∈ ops, allowed op) → ∀ db, ReachableBy allowed db0 db →
      ReachableBy allowed db0 (Op.runAll db ops) := by
  induction ops with
  | nil => intro _ db h; exact h
  | cons op ops ih =>
    intro hall db h
    exact ih (fun o ho => hall o (List.mem_cons_of_mem _ ho)) _
      (ReachableBy.step db op (hall op (List.mem_cons_self _ _)) h)

/-- Instance of C11: after two bids on player 1, the move to the next player and a bid on
that player, auction 1 of the sample store has at most one winning bid. -/
theorem winning_bid_unique_witness :
    ((Op.runAll sampleDB biddingOps).bids.filter
      (fun b => b.auctionID == 1 && b.isWinning)).length ≤ 1 :=
  winning_bid_unique sampleDB (Op.runAll sampleDB biddingOps) rfl
    (reachableBy_runAll Op.live sampleDB biddingOps (by decide) sampleDB ReachableBy.init) 1

/-! ## What each operation does to an auction -/

/-- The auction a lookup finds after `StartAuction` is the one found before, or the started
auction with the first player of the rotation up for bids. -/
theorem StartAuction_lookup {f : SaveFault} {now : Time} {db : DB} {id k : UUID}
    {a a2 : Auction} (h : db.firstAuction k = some a)
    (h2 : (StartAuction f now db id).db.firstAuction k = some a2) :
    a2 = a ∨ (k = id ∧ ∃ P, getNextPlayerByCategoryOrder now db none = some P
      ∧ a2 = { a with status := "active", startTime := now, currentPlayerID := some P.id,
                      currentBid := 0, updatedAt := now }) := by
  have keep : (StartAuction f now db id).db = db → a2 = a := by
    intro e
    rw [e, h] at h2
    simpa using h2.symm
  cases hA : db.firstAuction id with
  | none => exact Or.inl (keep (by simp [StartAuction, hA, reject]))
  | some a0 =>
    cases hS : getNextPlayerByCategoryOrder now db none with
    | none => exact Or.inl (keep (by simp [StartAuction, hA, hS, reject]))
    | some P =>
      cases hf : f.saveAuction with
      | true => exact Or.inl (keep (by simp [StartAuction, hA, hS, hf, reject]))
      | false =>
        have e : (StartAuction f now db id).db = db.saveAuction now
            { a0 with status := "active", startTime := now, currentPlayerID := some P.id,
                      currentBid := 0, updatedAt := now } := by
          simp [StartAuction, hA, hS, hf]
        rw [e] at h2
        rcases lookup_saveAuction h h2 with h3 | ⟨hk, h3⟩
        · exact Or.inl h3
        · have hid : a0.id = id := firstAuction_id hA
          have hk2 : k = id := by rw [hk]; exact hid
          subst hk2
          rw [hA] at h
          have e0 : a0 = a := by simpa using h
          subst e0
          exact Or.inr ⟨rfl, P, rfl, h3⟩

/-- The auction a lookup finds after `EndAuction` is the one found before, or the ended
auction. -/
theorem EndAuction_lookup {f : SaveFault} {now : Time} {db : DB} {id k : UUID}
    {a a2 : Auction} (h : db.firstAuction k = some a)
    (h2 : (EndAuction f now db id).db.firstAuction k = some a2) :
    a2 = a ∨ (k = id
      ∧ a2 = { a with status := "completed", endTime := some now, updatedAt := now }) := by
  have keep : (EndAuction f now db id).db = db → a2 = a := by
    intro e
    rw [e, h] at h2
    simpa using h2.symm
  cases hA : db.firstAuction id with
  | none => exact Or.inl (keep (by simp [EndAuction, hA, reject]))
  | some a0 =>
    cases hf : f.saveAuction with
    | true => exact Or.inl (keep (by simp [EndAuction, hA, hf, reject]))
    | false =>
      have e : (EndAuction f now db id).db = db.saveAuction now
          { a0 with status := "completed", endTime := some now, updatedAt := now } := by
        simp [EndAuction, hA, hf]
      rw [e] at h2
      rcases lookup_saveAuction h h2 with h3 | ⟨hk, h3⟩
      · exact Or.inl h3
      · have hid : a0.id = id := firstAuction_id hA
        have hk2 : k = id := by rw [hk]; exact hid
        subst hk2
        rw [hA] at h
        have e0 : a0 = a := by simpa using h
        subst e0
        exact Or.inr ⟨rfl, h3⟩

/-- The auction a lookup finds after `AssignPlayerToAuction` is the one found before, or the
auction with the chosen unsold player up for bids, reactivated when it was completed. -/
theorem AssignPlayerToAuction_lookup {f : SaveFault} {now : Time} {db : DB}
    {auctionID : Option UUID} {body : Option (Option UUID)} {k : UUID}
    {a a2 : Auction} (h : db.firstAuction k = some a)
    (h2 : (AssignPlayerToAuction f now db auctionID body).db.firstAuction k = some a2) :
    a2 = a ∨ (auctionID = some k ∧ ∃ P, db.firstPlayer P.id = some P ∧ P.isSold = false
      ∧ a2 = if a.status = "completed" then
               { a with status := "active", endTime := none, currentPlayerID := some P.id,
                        currentBid := 0, winningTeamID := none, updatedAt := now }
             else
               { a with currentPlayerID := some P.id, currentBid := 0, winningTeamID := none,
                        updatedAt := now }) := by
  have keep : (AssignPlayerToAuction f now db auctionID body).db = db → a2 = a := by
    intro e
    rw [e, h] at h2
    simpa using h2.symm
  cases body with
  | none => exact Or.inl (keep (by simp [AssignPlayerToAuction, reject]))
  | some playerID =>
  cases auctionID with
  | none => exact Or.inl (keep (by simp [AssignPlayerToAuction, reject]))
  | some aid =>
  cases playerID with
  | none => exact Or.inl (keep (by simp [AssignPlayerToAuction, reject]))
  | some pid =>
  cases hA : db.firstAuction aid with
  | none => exact Or.inl (keep (by simp [AssignPlayerToAuction, reject, hA]))
  | some a0 =>
  cases hP : db.firstPlayer pid with
  | none => exact Or.inl (keep (by simp [AssignPlayerToAuction, reject, hA, hP]))
  | some P =>
  cases hs : P.isSold with
  | true => exact Or.inl (keep (by simp [AssignPlayerToAuction, reject, hA, hP, hs]))
  | false =>
  cases hf : f.saveAuction with
  | true => exact Or.inl (keep (by simp [AssignPlayerToAuction, reject, hA, hP, hs, hf]))
  | false =>
    have hpid : P.id = pid := firstPlayer_id hP
    have e : (AssignPlayerToAuction f now db (some aid) (some (some pid))).db
        = db.saveAuction now
            (if a0.status = "completed" then
               { a0 with status := "active", endTime := none, currentPlayerID := some P.id,
                         currentBid := 0, winningTeamID := none, updatedAt := now }
             else
               { a0 with currentPlayerID := some P.id, currentBid := 0, winningTeamID := none,
                         updatedAt := now }) := by
      simp [AssignPlayerToAuction, hA, hP, hs, hf]
    rw [e] at h2
    rcases lookup_saveAuction h h2 with h3 | ⟨hk, h3⟩
    · exact Or.inl h3
    · have hid : a0.id = aid := firstAuction_id hA
      have hk2 : k = aid := by
        rw [hk]
        split_ifs <;> exact hid
      subst hk2
      rw [hA] at h
      have e0 : a0 = a := by simpa using h
      subst e0
      refine Or.inr ⟨rfl, P, by rw [hpid]; exact hP, hs, ?_⟩
      rw [h3]
      split_ifs <;> rfl

/-- The auction a lookup finds after `NextPlayer` is the one found before, or the auction
with another current player (or none), no bid and no winning team. -/
theorem NextPlayer_lookup {f : NextFaults} {now : Time} {db : DB} {id k : UUID}
    {a a2 : Auction} (h : db.firstAuction k = some a)
    (h2 : (NextPlayer f now db id).db.firstAuction k = some a2) :
    a2 = a ∨ (k = id ∧ ∃ cp, a2 = { a with currentPlayerID := cp, currentBid := 0,
                                            winningTeamID := none, updatedAt := now }) := by
  have keep : (NextPlayer f now db id).db = db → a2 = a := by
    intro e
    rw [e, h] at h2
    simpa using h2.symm
  cases hA : db.firstAuction id with
  | none => exact Or.inl (keep (by simp [NextPlayer, hA, reject]))
  | some a0 =>
    have hid : a0.id = id := firstAuction_id hA
    cases hS : settle f now db a0 with
    | error out =>
      have := (settle_error hS).1
      exact Or.inl (keep (by simp [NextPlayer, hA, hS, this]))
    | ok db2 =>
      have haucs : db2.auctions = db.auctions := (settle_frame hS).1
      have hlook : db2.firstAuction k = some a := by
        unfold DB.firstAuction
        rw [haucs]
        exact h
      have fin : ∀ cp : Option UUID,
          (db2.saveAuction now { a0 with currentPlayerID := cp, currentBid := 0,
                                         winningTeamID := none, updatedAt := now }).firstAuction k
            = some a2 →
          a2 = a ∨ (k = id ∧ ∃ cp, a2 = { a with currentPlayerID := cp, currentBid := 0,
                                                  winningTeamID := none, updatedAt := now }) := by
        intro cp hl
        rcases lookup_saveAuction hlook hl with h3 | ⟨hk, h3⟩
        · exact Or.inl h3
        · have hk2 : k = id := by rw [hk]; exact hid
          subst hk2
          rw [hA] at h
          have e0 : a0 = a := by simpa using h
          subst e0
          exact Or.inr ⟨rfl, cp, h3⟩
      cases hQ : getNextPlayerByCategoryOrder now db2 a0.currentPlayerID with
      | none =>
        have e : (NextPlayer f now db id).db = db2.saveAuction now
            { a0 with currentPlayerID := none, currentBid := 0, winningTeamID := none,
                      updatedAt := now } := by
          simp [NextPlayer, hA, hS, hQ]
        rw [e] at h2
        exact fin none h2
      | some Q =>
        cases hf : f.saveAuction with
        | true =>
          have e : (NextPlayer f now db id).db = db2 := by
            simp [NextPlayer, hA, hS, hQ, hf, reject]
          rw [e, hlook] at h2
          exact Or.inl (by simpa using h2.symm)
        | false =>
          have e : (NextPlayer f now db id).db = db2.saveAuction now
              { a0 with currentPlayerID := some Q.id, currentBid := 0, winningTeamID := none,
                        updatedAt := now } := by
            simp [NextPlayer, hA, hS, hQ, hf]
          rw [e] at h2
          exact fin (some Q.id) h2

/-- The auction a lookup finds after `CreateBid` is the one found before, or the auction
with the accepted amount as current bid and the bidding team as winning team. -/
theorem CreateBid_lookup {f : BidFaults} {now : Time} {fresh : UUID} {db : DB}
    {auctionID : Option UUID} {body : Option Int} {ctxTeamID : Option (Option UUID)}
    {k : UUID} {a a2 : Auction} (h : db.firstAuction k = some a)
    (h2 : (CreateBid f now fresh db auctionID body ctxTeamID).db.firstAuction k = some a2) :
    a2 = a ∨ (auctionID = some k ∧ ∃ amount T, body = some amount
      ∧ a2 = { a with currentBid := amount, winningTeamID := some T, updatedAt := now }) := by
  by_cases hres : (CreateBid f now fresh db auctionID body ctxTeamID).resp = Response.created
  · obtain ⟨amount, aid, tid, auction, team, pid, hbody, _, haid, _, hA, _, _, _, _, hout⟩ :=
      CreateBid_created hres
    rw [hout] at h2
    have hlook : ((db.clearWinning now aid).createBid
          { id := fresh, auctionID := auction.id, playerID := pid, teamID := tid,
            amount := amount, isWinning := true, createdAt := now,
            updatedAt := now }).firstAuction k = some a := h
    rcases lookup_saveAuction hlook h2 with h3 | ⟨hk, h3⟩
    · exact Or.inl h3
    · have hid : auction.id = aid := firstAuction_id hA
      have hk2 : k = aid := by rw [hk]; exact hid
      subst hk2
      rw [hA] at h
      have e0 : auction = a := by simpa using h
      subst e0
      exact Or.inr ⟨haid, amount, team.id, hbody, h3⟩
  · rw [CreateBid_unchanged hres, h] at h2
    exact Or.inl (by simpa using h2.symm)

/-! ## A positive current bid has a winning team -/

/-- C12: each of Start, PlaceBid (accepted or rejected), NextPlayer, AssignPlayer and End
maps an auction in which a positive current bid implies a winning team to an auction with
the same property. -/
theorem live_op_keeps_bidBacked (op : Op) (hlive : op.live) (db : DB) (k : UUID)
    (a a2 : Auction) (h : db.firstAuction k = some a)
    (h2 : (op.exec db).db.firstAuction k = some a2)
    (hinv : 0 < a.currentBid → a.winningTeamID ≠ none) :
    0 < a2.currentBid → a2.winningTeamID ≠ none := by
  cases op with
  | createAuction f now fresh body => exact absurd hlive (by simp [Op.live])
  | startAuction f now id =>
    rcases StartAuction_lookup h h2 with e | ⟨_, P, _, e⟩
    · rw [e]; exact hinv
    · rw [e]; intro hpos; exact absurd hpos (by simp)
  | endAuction f now id =>
    rcases EndAuction_lookup h h2 with e | ⟨_, e⟩
    · rw [e]; exact hinv
    · rw [e]; exact hinv
  | placeBid f now fresh auctionID body ctxTeamID =>
    rcases CreateBid_lookup h h2 with e | ⟨_, amount, T, _, e⟩
    · rw [e]; exact hinv
    · rw [e]; intro _; simp
  | nextPlayer f now id =>
    rcases NextPlayer_lookup h h2 with e | ⟨_, cp, e⟩
    · rw [e]; exact hinv
    · rw [e]; intro hpos; exact absurd hpos (by simp)
  | assignPlayer f now auctionID body =>
    rcases AssignPlayerToAuction_lookup h h2 with e | ⟨_, P, _, _, e⟩
    · rw [e]; exact hinv
    · rw [e]; intro hpos
      split_ifs at hpos <;> exact absurd hpos (by simp)

/-- Instance of C12: the bid of 200 by team 7 on the sample auction, which has no bid and
no winning team, leaves an auction with a winning team. -/
theorem live_op_keeps_bidBacked_witness :
    (mkAuction "active" 200 (some 7)).winningTeamID ≠ none :=
  live_op_keeps_bidBacked
    (Op.placeBid noBidFaults sampleTime 100 (some 1) (some 200) (some (some 7))) trivial
    sampleDB 1 (mkAuction "active" 0 none) (mkAuction "active" 200 (some 7))
    (by decide) (by decide) (by decide) (by decide)

/-! ## The effect of `CreateBid` -/

/-- C13: when `CreateBid` accepts a bid of amount `a` by team `T` on auction `A`, the
auction then has current bid `a` and winning team `T`, the bids are the earlier bids with
the winning flag cleared on those of `A`, followed by the new winning bid of `T` for `a` on
the current player of `A`, and the teams and players are unchanged.  When `CreateBid` does
not accept the bid, the whole store is unchanged. -/
theorem CreateBid_effect (f : BidFaults) (now : Time) (fresh : UUID) (db : DB)
    (auctionID : Option UUID) (body : Option Int) (ctxTeamID : Option (Option UUID)) :
    ((CreateBid f now fresh db auctionID body ctxTeamID).resp = Response.created →
      ∃ a aid A T pid,
        body = some a ∧ auctionID = some aid ∧ ctxTeamID = some (some T.id)
        ∧ db.firstAuction aid = some A ∧ db.firstTeam T.id = some T
        ∧ A.currentPlayerID = some pid
        ∧ (CreateBid f now fresh db auctionID body ctxTeamID).db.firstAuction aid
            = some { A with currentBid := a, winningTeamID := some T.id, updatedAt := now }
        ∧ (CreateBid f now fresh db auctionID body ctxTeamID).db.bids
            = db.bids.map (fun b =>
                if b.auctionID == aid then { b with isWinning := false, updatedAt := now } else b)
              ++ [{ id := fresh, auctionID := aid, playerID := pid, teamID := T.id,
                    amount := a, isWinning := true, createdAt := now, updatedAt := now }]
        ∧ (∀ b ∈ db.bids.map (fun b =>
                if b.auctionID == aid then { b with isWinning := false, updatedAt := now } else b),
              b.auctionID = aid → b.isWinning = false)
        ∧ (CreateBid f now fresh db auctionID body ctxTeamID).db.teams = db.teams
        ∧ (CreateBid f now fresh db auctionID body ctxTeamID).db.players = db.players)
    ∧ ((CreateBid f now fresh db auctionID body ctxTeamID).resp ≠ Response.created →
        (CreateBid f now fresh db auctionID body ctxTeamID).db = db) := by
  refine ⟨?_, CreateBid_unchanged⟩
  intro hres
  obtain ⟨amount, aid, tid, auction, team, pid, hbody, _, haid, htid, hA, hT, _, hp, _, hout⟩ :=
    CreateBid_created hres
  have hid : auction.id = aid := firstAuction_id hA
  have htid2 : team.id = tid := firstTeam_id hT
  refine ⟨amount, aid, auction, team, pid, hbody, haid, by rw [htid2]; exact htid, hA,
    by rw [htid2]; exact hT, hp, ?_, ?_, ?_, ?_, ?_⟩
  · rw [hout]
    have := firstAuction_saveAuction now
      ((db.clearWinning now aid).createBid
        { id := fresh, auctionID := auction.id, playerID := pid, teamID := tid,
          amount := amount, isWinning := true, createdAt := now, updatedAt := now })
      { auction with currentBid := amount, winningTeamID := some team.id, updatedAt := now }
    simpa [hid] using this
  · rw [hout]
    simp [DB.saveAuction, DB.createBid, DB.clearWinning, hid, htid2]
  · intro b hb hba
    obtain ⟨b0, _, rfl⟩ := List.mem_map.1 hb
    by_cases h0 : b0.auctionID = aid
    · simp [h0]
    · simp [h0] at hba
  · rw [hout]; rfl
  · rw [hout]; rfl

/-- Instances of C13: on the sample store the bid of 200 by team 7 is accepted, and the bid
of 150 is rejected and changes nothing. -/
theorem CreateBid_effect_witness :
    (∃ a aid A T pid,
        some (200 : Int) = some a ∧ some (1 : UUID) = some aid
        ∧ some (some (7 : UUID)) = some (some T.id)
        ∧ sampleDB.firstAuction aid = some A ∧ sampleDB.firstTeam T.id = some T
        ∧ A.currentPlayerID = some pid
        ∧ (CreateBid noBidFaults sampleTime 100 sampleDB (some 1) (some 200)
            (some (some 7))).db.firstAuction aid
            = some { A with currentBid := a, winningTeamID := some T.id, updatedAt := sampleTime }
        ∧ (CreateBid noBidFaults sampleTime 100 sampleDB (some 1) (some 200)
            (some (some 7))).db.bids
            = sampleDB.bids.map (fun b =>
                if b.auctionID == aid then { b with isWinning := false, updatedAt := sampleTime }
                else b)
              ++ [{ id := 100, auctionID := aid, playerID := pid, teamID := T.id,
                    amount := a, isWinning := true, createdAt := sampleTime,
                    updatedAt := sampleTime }]
        ∧ (∀ b ∈ sampleDB.bids.map (fun b =>
                if b.auctionID == aid then { b with isWinning := false, updatedAt := sampleTime }
                else b),
              b.auctionID = aid → b.isWinning = false)
        ∧ (CreateBid noBidFaults sampleTime 100 sampleDB (some 1) (some 200)
            (some (some 7))).db.teams = sampleDB.teams
        ∧ (CreateBid noBidFaults sampleTime 100 sampleDB (some 1) (some 200)
            (some (some 7))).db.players = sampleDB.players)
    ∧ (CreateBid noBidFaults sampleTime 100 sampleDB (some 1) (some 150) (some (some 7))).db
        = sampleDB :=
  ⟨(CreateBid_effect noBidFaults sampleTime 100 sampleDB (some 1) (some 200)
      (some (some 7))).1 (by decide),
   (CreateBid_effect noBidFaults sampleTime 100 sampleDB (some 1) (some 150)
      (some (some 7))).2 (by decide)⟩

/-! ## Status changes -/

/-- `CreateAuction` leaves every auction that a lookup found where it was. -/
theorem CreateAuction_lookup {f : CreateFaults} {now : Time} {fresh : UUID} {db : DB}
    {body : Option AuctionBody} {k : UUID} {a : Auction} (h : db.firstAuction k = some a) :
    (CreateAuction f now fresh db body).db.firstAuction k = some a := by
  unfold CreateAuction
  split_ifs
  · exact h
  · cases body with
    | none => exact h
    | some b =>
      simp only
      split_ifs
      · exact h
      · unfold DB.firstAuction at h ⊢
        simp only [List.find?_append, h]
        rfl

/-- C15, as the code behaves: an operation changes the status of an existing auction only
as Start, which sets active whatever the status was, as End, which sets completed whatever
the status was, or as AssignPlayer, which turns completed into active; CreateAuction,
PlaceBid and NextPlayer never change it. -/
theorem status_changes (op : Op) (db : DB) (k : UUID) (a a2 : Auction)
    (h : db.firstAuction k = some a) (h2 : (op.exec db).db.firstAuction k = some a2) :
    a2.status = a.status
    ∨ ((∃ f now, op = Op.startAuction f now k) ∧ a2.status = "active")
    ∨ ((∃ f now, op = Op.endAuction f now k) ∧ a2.status = "completed")
    ∨ ((∃ f now body, op = Op.assignPlayer f now (some k) body)
        ∧ a.status = "completed" ∧ a2.status = "active") := by
  cases op with
  | createAuction f now fresh body =>
    have := @CreateAuction_lookup f now fresh db body k a h
    rw [show (Op.createAuction f now fresh body).exec db = CreateAuction f now fresh db body
      from rfl, this] at h2
    left
    have e : a = a2 := by simpa using h2
    rw [e]
  | startAuction f now id =>
    rcases StartAuction_lookup h h2 with e | ⟨hk, P, _, e⟩
    · left; rw [e]
    · right; left
      subst hk
      exact ⟨⟨f, now, rfl⟩, by rw [e]⟩
  | endAuction f now id =>
    rcases EndAuction_lookup h h2 with e | ⟨hk, e⟩
    · left; rw [e]
    · right; right; left
      subst hk
      exact ⟨⟨f, now, rfl⟩, by rw [e]⟩
  | placeBid f now fresh auctionID body ctxTeamID =>
    rcases CreateBid_lookup h h2 with e | ⟨_, amount, T, _, e⟩
    · left; rw [e]
    · left; rw [e]
  | nextPlayer f now id =>
    rcases NextPlayer_lookup h h2 with e | ⟨_, cp, e⟩
    · left; rw [e]
    · left; rw [e]
  | assignPlayer f now auctionID body =>
    rcases AssignPlayerToAuction_lookup h h2 with e | ⟨hk, P, _, _, e⟩
    · left; rw [e]
    · by_cases hc : a.status = "completed"
      · right; right; right
        subst hk
        refine ⟨⟨f, now, body, rfl⟩, hc, ?_⟩
        rw [e]
        simp [hc]
      · left
        rw [e]
        simp [hc]

/-- Instance of the amended C15: ending the pending sample auction makes it completed. -/
theorem status_changes_witness :
    (mkAuction "completed" 0 none).status = (mkAuction "pending" 0 none).status
    ∨ ((∃ f now, Op.endAuction noSaveFault sampleTime 1 = Op.startAuction f now 1)
        ∧ (mkAuction "completed" 0 none).status = "active")
    ∨ ((∃ f now, Op.endAuction noSaveFault sampleTime 1 = Op.endAuction f now 1)
        ∧ (mkAuction "completed" 0 none).status = "completed")
    ∨ ((∃ f now body, Op.endAuction noSaveFault sampleTime 1 = Op.assignPlayer f now (some 1) body)
        ∧ (mkAuction "pending" 0 none).status = "completed"
        ∧ (mkAuction "completed" 0 none).status = "active") :=
  status_changes (Op.endAuction noSaveFault sampleTime 1) pendingDB 1
    (mkAuction "pending" 0 none)
    { mkAuction "completed" 0 none with endTime := some sampleTime }
    (by decide) (by decide)

/-- C15 fails as stated: `EndAuction` moves the pending sample auction directly to
completed, and `StartAuction` makes the completed sample auction active again. -/
theorem status_change_outside_diagram :
    (pendingDB.firstAuction 1).map Auction.status = some "pending"
    ∧ (EndAuction noSaveFault sampleTime pendingDB 1).resp = Response.ok
    ∧ ((EndAuction noSaveFault sampleTime pendingDB 1).db.firstAuction 1).map Auction.status
        = some "completed"
    ∧ (completedDB.firstAuction 1).map Auction.status = some "completed"
    ∧ (StartAuction noSaveFault sampleTime completedDB 1).resp = Response.ok
    ∧ ((StartAuction noSaveFault sampleTime completedDB 1).db.firstAuction 1).map Auction.status
        = some "active" := by
  decide

/-! ## More than one active auction -/

/-- C14 at a failing run: from the sample store without auctions, two auctions are created
while none is active and both are then started; the four calls succeed and the store they
reach holds two active auctions. -/
theorem two_active_auctions :
    noAuctionDB.auctions = []
    ∧ Op.responsesAll noAuctionDB twoStarts
        = [Response.created, Response.created, Response.ok, Response.ok]
    ∧ ReachableBy Op.lifecycle noAuctionDB (Op.runAll noAuctionDB twoStarts)
    ∧ (Op.runAll noAuctionDB twoStarts).auctions.map (fun a => (a.id, a.status))
        = [(1, "active"), (2, "active")]
    ∧ activeCount (Op.runAll noAuctionDB twoStarts) = 2 :=
  ⟨rfl, by decide,
    reachableBy_runAll Op.lifecycle noAuctionDB twoStarts (by decide) noAuctionDB
      ReachableBy.init,
    by decide, by decide⟩

/-! ## `StartAuction`, `EndAuction`, `AssignPlayerToAuction` -/

/-- C16: for an existing auction, when the selector called without a current player
returns `P`, `StartAuction` (its save going through) sets the status to active, the current
player to `P` and the current bid to 0; when the selector finds no player, `StartAuction`
fails and leaves the store, hence the auction, as it was. -/
theorem StartAuction_spec (f : SaveFault) (now : Time) (db : DB) (id : UUID) (a : Auction)
    (hA : db.firstAuction id = some a) :
    (∀ P, getNextPlayerByCategoryOrder now db none = some P → f.saveAuction = false →
      (StartAuction f now db id).resp = Response.ok
      ∧ (StartAuction f now db id).events = ["auction_started"]
      ∧ ∃ a2, (StartAuction f now db id).db.firstAuction id = some a2
          ∧ a2 = { a with status := "active", startTime := now, currentPlayerID := some P.id,
                          currentBid := 0, updatedAt := now }
          ∧ a2.status = "active" ∧ a2.currentPlayerID = some P.id ∧ a2.currentBid = 0)
    ∧ (getNextPlayerByCategoryOrder now db none = none →
      (StartAuction f now db id).resp = Response.error 400 "No players available for auction"
      ∧ (StartAuction f now db id).events = []
      ∧ (StartAuction f now db id).db = db
      ∧ (StartAuction f now db id).db.firstAuction id = some a) := by
  have hid : a.id = id := firstAuction_id hA
  refine ⟨?_, ?_⟩
  · intro P hS hf
    have e : StartAuction f now db id =
        { db := db.saveAuction now
            { a with status := "active", startTime := now, currentPlayerID := some P.id,
                     currentBid := 0, updatedAt := now },
          resp := Response.ok, events := ["auction_started"] } := by
      simp [StartAuction, hA, hS, hf]
    rw [e]
    refine ⟨rfl, rfl, _, ?_, rfl, rfl, rfl, rfl⟩
    have := firstAuction_saveAuction now db
      { a with status := "active", startTime := now, currentPlayerID := some P.id,
               currentBid := 0, updatedAt := now }
    simpa [hid] using this
  · intro hS
    have e : StartAuction f now db id = reject db 400 "No players available for auction" := by
      simp [StartAuction, hA, hS]
    rw [e]
    exact ⟨rfl, rfl, rfl, hA⟩

/-- Instances of C16: the pending sample auction is started on player 1, and an auction of
a store without players is not started. -/
theorem StartAuction_spec_witness :
    ((StartAuction noSaveFault sampleTime pendingDB 1).resp = Response.ok
      ∧ (StartAuction noSaveFault sampleTime pendingDB 1).events = ["auction_started"]
      ∧ ∃ a2, (StartAuction noSaveFault sampleTime pendingDB 1).db.firstAuction 1 = some a2
          ∧ a2 = { mkAuction "pending" 0 none with
                    status := "active", startTime := sampleTime,
                    currentPlayerID := some (mkPlayer 1 "female").id, currentBid := 0,
                    updatedAt := sampleTime }
          ∧ a2.status = "active" ∧ a2.currentPlayerID = some (mkPlayer 1 "female").id
          ∧ a2.currentBid = 0)
    ∧ ((StartAuction noSaveFault sampleTime { pendingDB with players := [] } 1).resp
          = Response.error 400 "No players available for auction"
      ∧ (StartAuction noSaveFault sampleTime { pendingDB with players := [] } 1).events = []
      ∧ (StartAuction noSaveFault sampleTime { pendingDB with players := [] } 1).db
          = { pendingDB with players := [] }
      ∧ (StartAuction noSaveFault sampleTime { pendingDB with players := [] } 1).db.firstAuction 1
          = some (mkAuction "pending" 0 none)) :=
  ⟨(StartAuction_spec noSaveFault sampleTime pendingDB 1 (mkAuction "pending" 0 none)
      (by decide)).1 (mkPlayer 1 "female") (by decide) (by decide),
   (StartAuction_spec noSaveFault sampleTime { pendingDB with players := [] } 1
      (mkAuction "pending" 0 none) (by decide)).2 (by decide)⟩

/-- C19: for an existing auction and an existing player, `AssignPlayerToAuction` fails and
changes nothing when the player is sold; when the player is unsold (and the save goes
through) it sets the current player to that player, the current bid to 0 and clears the
winning team, turns the status completed into active with the end time cleared, and leaves
any other status and its end time as they were. -/
theorem AssignPlayerToAuction_spec (f : SaveFault) (now : Time) (db : DB) (aid pid : UUID)
    (a : Auction) (P : Player)
    (hA : db.firstAuction aid = some a) (hP : db.firstPlayer pid = some P) :
    (P.isSold = true →
      (AssignPlayerToAuction f now db (some aid) (some (some pid))).resp
        = Response.error 400 "Player is already sold"
      ∧ (AssignPlayerToAuction f now db (some aid) (some (some pid))).events = []
      ∧ (AssignPlayerToAuction f now db (some aid) (some (some pid))).db = db)
    ∧ (P.isSold = false → f.saveAuction = false →
      (AssignPlayerToAuction f now db (some aid) (some (some pid))).resp = Response.ok
      ∧ (AssignPlayerToAuction f now db (some aid) (some (some pid))).events = ["player_assigned"]
      ∧ ∃ a2, (AssignPlayerToAuction f now db (some aid) (some (some pid))).db.firstAuction aid
            = some a2
          ∧ a2.currentPlayerID = some pid ∧ a2.currentBid = 0 ∧ a2.winningTeamID = none
          ∧ (a.status = "completed" → a2.status = "active" ∧ a2.endTime = none)
          ∧ (a.status ≠ "completed" → a2.status = a.status ∧ a2.endTime = a.endTime)
          ∧ a2.id = a.id ∧ a2.startTime = a.startTime ∧ a2.updatedAt = now) := by
  have hid : a.id = aid := firstAuction_id hA
  have hpid : P.id = pid := firstPlayer_id hP
  refine ⟨?_, ?_⟩
  · intro hs
    have e : AssignPlayerToAuction f now db (some aid) (some (some pid))
        = reject db 400 "Player is already sold" := by
      simp [AssignPlayerToAuction, hA, hP, hs]
    rw [e]
    exact ⟨rfl, rfl, rfl⟩
  · intro hs hf
    by_cases hc : a.status = "completed"
    · have e : AssignPlayerToAuction f now db (some aid) (some (some pid)) =
          { db := db.saveAuction now
              { a with status := "active", endTime := none, currentPlayerID := some P.id,
                       currentBid := 0, winningTeamID := none, updatedAt := now },
            resp := Response.ok, events := ["player_assigned"] } := by
        simp [AssignPlayerToAuction, hA, hP, hs, hf, hc]
      rw [e]
      refine ⟨rfl, rfl,
        { a with status := "active", endTime := none, currentPlayerID := some P.id,
                 currentBid := 0, winningTeamID := none, updatedAt := now },
        ?_, ?_, rfl, rfl, fun _ => ⟨rfl, rfl⟩, fun h => absurd hc h, rfl, rfl, rfl⟩
      · have := firstAuction_saveAuction now db
          { a with status := "active", endTime := none, currentPlayerID := some P.id,
                   currentBid := 0, winningTeamID := none, updatedAt := now }
        simpa [hid] using this
      · simp [hpid]
    · have e : AssignPlayerToAuction f now db (some aid) (some (some pid)) =
          { db := db.saveAuction now
              { a with currentPlayerID := some P.id, currentBid := 0, winningTeamID := none,
                       updatedAt := now },
            resp := Response.ok, events := ["player_assigned"] } := by
        simp [AssignPlayerToAuction, hA, hP, hs, hf, hc]
      rw [e]
      refine ⟨rfl, rfl,
        { a with currentPlayerID := some P.id, currentBid := 0, winningTeamID := none,
                 updatedAt := now },
        ?_, ?_, rfl, rfl, fun h => absurd h hc, fun _ => ⟨rfl, rfl⟩, rfl, rfl, rfl⟩
      · have := firstAuction_saveAuction now db
          { a with currentPlayerID := some P.id, currentBid := 0, winningTeamID := none,
                   updatedAt := now }
        simpa [hid] using this
      · simp [hpid]

/-- C20: for an existing auction `EndAuction` (its save going through) succeeds and sets
the status to completed with the end time set; applied again to the completed auction it
succeeds again and leaves the status completed, changing no field other than the end time
and the update time. -/
theorem EndAuction_twice (now1 now2 : Time) (db : DB) (id : UUID) (a : Auction)
    (hA : db.firstAuction id = some a) :
    (EndAuction noSaveFault now1 db id).resp = Response.ok
    ∧ (EndAuction noSaveFault now1 db id).db.firstAuction id
        = some { a with status := "completed", endTime := some now1, updatedAt := now1 }
    ∧ (EndAuction noSaveFault now2 (EndAuction noSaveFault now1 db id).db id).resp = Response.ok
    ∧ (EndAuction noSaveFault now2 (EndAuction noSaveFault now1 db id).db id).db.firstAuction id
        = some { a with status := "completed", endTime := some now2, updatedAt := now2 } := by
  have hid : a.id = id := firstAuction_id hA
  have once : ∀ (now : Time) (d : DB) (b : Auction), d.firstAuction id = some b →
      (EndAuction noSaveFault now d id).resp = Response.ok
      ∧ (EndAuction noSaveFault now d id).db.firstAuction id
          = some { b with status := "completed", endTime := some now, updatedAt := now } := by
    intro now d b hb
    have hbid : b.id = id := firstAuction_id hb
    have e : EndAuction noSaveFault now d id =
        { db := d.saveAuction now
            { b with status := "completed", endTime := some now, updatedAt := now },
          resp := Response.ok, events := ["auction_ended"] } := by
      simp [EndAuction, hb, noSaveFault]
    rw [e]
    refine ⟨rfl, ?_⟩
    have := firstAuction_saveAuction now d
      { b with status := "completed", endTime := some now, updatedAt := now }
    simpa [hbid] using this
  obtain ⟨r1, l1⟩ := once now1 db a hA
  obtain ⟨r2, l2⟩ := once now2 _ _ l1
  exact ⟨r1, l1, r2, l2⟩

/-- Instances of C19: on the completed sample store the sold player 1 is refused and the
unsold player 2 is put up for bids, which reactivates the auction. -/
theorem AssignPlayerToAuction_spec_witness :
    ((AssignPlayerToAuction noSaveFault sampleTime soldDB (some 1) (some (some 1))).resp
        = Response.error 400 "Player is already sold"
      ∧ (AssignPlayerToAuction noSaveFault sampleTime soldDB (some 1) (some (some 1))).events = []
      ∧ (AssignPlayerToAuction noSaveFault sampleTime soldDB (some 1) (some (some 1))).db
          = soldDB)
    ∧ (AssignPlayerToAuction noSaveFault sampleTime soldDB (some 1) (some (some 2))).resp
        = Response.ok :=
  ⟨(AssignPlayerToAuction_spec noSaveFault sampleTime soldDB 1 1 (mkAuction "completed" 0 none)
      { mkPlayer 1 "female" with isSold := true, currentTeamID := some 8, currentPrice := 500 }
      (by decide) (by decide)).1 (by decide),
   ((AssignPlayerToAuction_spec noSaveFault sampleTime soldDB 1 2 (mkAuction "completed" 0 none)
      (mkPlayer 2 "male") (by decide) (by decide)).2 (by decide) (by decide)).1⟩

/-- Instance of C20: the active sample auction is ended twice. -/
theorem EndAuction_twice_witness :
    (EndAuction noSaveFault sampleTime sampleDB 1).resp = Response.ok
    ∧ (EndAuction noSaveFault sampleTime sampleDB 1).db.firstAuction 1
        = some { mkAuction "active" 0 none with
                  status := "completed", endTime := some sampleTime, updatedAt := sampleTime }
    ∧ (EndAuction noSaveFault birthdayTime
        (EndAuction noSaveFault sampleTime sampleDB 1).db 1).resp = Response.ok
    ∧ (EndAuction noSaveFault birthdayTime
        (EndAuction noSaveFault sampleTime sampleDB 1).db 1).db.firstAuction 1
        = some { mkAuction "active" 0 none with
                  status := "completed", endTime := some birthdayTime,
                  updatedAt := birthdayTime } :=
  EndAuction_twice sampleTime birthdayTime sampleDB 1 (mkAuction "active" 0 none) (by decide)

/-! ## The player rotation in `NextPlayer` -/

/-- The row `firstByID` returns is one of the rows. -/
theorem firstByID_mem {ps : List Player} {q : Player} (h : firstByID ps = some q) : q ∈ ps := by
  induction ps generalizing q with
  | nil => simp [firstByID] at h
  | cons p ps ih =>
    unfold firstByID at h
    cases hr : firstByID ps with
    | none =>
      rw [hr] at h
      simp only [Option.some.injEq] at h
      rw [← h]
      exact List.mem_cons_self _ _
    | some r =>
      rw [hr] at h
      simp only at h
      split_ifs at h
      · simp only [Option.some.injEq] at h
        rw [← h]
        exact List.mem_cons_self _ _
      · simp only [Option.some.injEq] at h
        rw [← h]
        exact List.mem_cons_of_mem _ (ih hr)

/-- The player a filtered query returns is a row of the table that meets the condition. -/
theorem firstPlayerWhere_spec {db : DB} {cond : Player → Bool} {q : Player}
    (h : db.firstPlayerWhere cond = some q) : q ∈ db.players ∧ cond q = true := by
  have := firstByID_mem h
  exact List.mem_filter.1 this

/-- The player the category loop returns is an unsold row of the table. -/
theorem scanCategories_unsold {now : Time} {db : DB} {start : Nat} {hasCurrent : Bool}
    {cats : List (Nat × String)} {q : Player}
    (h : scanCategories now db start hasCurrent cats = some q) :
    q ∈ db.players ∧ q.isSold = false := by
  induction cats with
  | nil => simp [scanCategories] at h
  | cons c cats ih =>
    obtain ⟨i, category⟩ := c
    unfold scanCategories at h
    split_ifs at h
    · exact ih h
    · cases hq : db.firstPlayerWhere (fun p => !p.isSold && categoryFilter now category p) with
      | none =>
        rw [hq] at h
        exact ih h
      | some r =>
        rw [hq] at h
        simp only [Option.some.injEq] at h
        obtain ⟨hm, hc⟩ := firstPlayerWhere_spec hq
        rw [← h]
        refine ⟨hm, ?_⟩
        simp only [Bool.and_eq_true, Bool.not_eq_true'] at hc
        exact hc.1

/-- The player the selector returns is an unsold row of the players table. -/
theorem selector_unsold {now : Time} {db : DB} {cur : Option UUID} {q : Player}
    (h : getNextPlayerByCategoryOrder now db cur = some q) :
    q ∈ db.players ∧ q.isSold = false := by
  unfold getNextPlayerByCategoryOrder at h
  simp only at h
  cases cur with
  | none =>
    simp only at h
    exact scanCategories_unsold h
  | some id =>
    simp only at h
    split at h
    · rename_i r hr
      simp only [Option.some.injEq] at h
      obtain ⟨hm, hc⟩ := firstPlayerWhere_spec hr
      rw [← h]
      refine ⟨hm, ?_⟩
      simp only [Bool.and_eq_true, Bool.not_eq_true'] at hc
      exact hc.1.1
    · exact scanCategories_unsold h

/-- When the settlement goes through, the selector called with the departing player as
cursor returns `Q` and the save goes through, `NextPlayer` succeeds, emits `next_player`,
makes `Q` the current player with no bid and no winning team, keeps the status, and `Q` is
an unsold player of the store. -/
theorem NextPlayer_advances {f : NextFaults} {now : Time} {db db2 : DB} {id : UUID}
    {a : Auction} {Q : Player}
    (hA : db.firstAuction id = some a) (hS : settle f now db a = Except.ok db2)
    (hQ : getNextPlayerByCategoryOrder now db2 a.currentPlayerID = some Q)
    (hf : f.saveAuction = false) :
    (NextPlayer f now db id).resp = Response.ok
    ∧ (NextPlayer f now db id).events = ["next_player"]
    ∧ (NextPlayer f now db id).db.firstAuction id
        = some { a with currentPlayerID := some Q.id, currentBid := 0, winningTeamID := none,
                        updatedAt := now }
    ∧ Q ∈ (NextPlayer f now db id).db.players ∧ Q.isSold = false := by
  have hid : a.id = id := firstAuction_id hA
  have e : NextPlayer f now db id =
      { db := db2.saveAuction now
          { a with currentPlayerID := some Q.id, currentBid := 0, winningTeamID := none,
                   updatedAt := now },
        resp := Response.ok, events := ["next_player"] } := by
    simp [NextPlayer, hA, hS, hQ, hf]
  rw [e]
  refine ⟨rfl, rfl, ?_, (selector_unsold hQ).1, (selector_unsold hQ).2⟩
  have := firstAuction_saveAuction now db2
    { a with currentPlayerID := some Q.id, currentBid := 0, winningTeamID := none,
             updatedAt := now }
  simpa [hid] using this

/-- C17 at a failing input: on the first of March 2023 the only player, a man born on the
first of March 1988 and unsold, is up for bids with no bid placed.  `CalculateAge` gives
34 (day 60 of 2023 is before day 61 of 1988), so his category is `men_under_35`, while the
age filter of the store gives 35.  The scan of the category after his own returns the
departing player himself, and `NextPlayer` succeeds with `next_player` and the same current
player. -/
theorem next_player_is_departing_player :
    (birthdayDB.firstAuction 1).map Auction.currentPlayerID = some (some 1)
    ∧ (birthdayDB.firstPlayer 1).map (fun p => p.GetPlayerCategory birthdayTime)
        = some "men_under_35"
    ∧ (birthdayDB.firstPlayer 1).map (fun p => sqlAgeYears birthdayTime p.dateOfBirth) = some 35
    ∧ (getNextPlayerByCategoryOrder birthdayTime birthdayDB (some 1)).map Player.id = some 1
    ∧ (NextPlayer noNextFaults birthdayTime birthdayDB 1).resp = Response.ok
    ∧ (NextPlayer noNextFaults birthdayTime birthdayDB 1).events = ["next_player"]
    ∧ ((NextPlayer noNextFaults birthdayTime birthdayDB 1).db.firstAuction 1).map
        Auction.currentPlayerID = some (some 1) := by
  decide

/-- C18: when the settlement goes through and the selector finds no next player,
`NextPlayer` does not fail: it answers 200, emits `no_more_players` and not `next_player`,
and leaves the auction with no current player, current bid 0 and no winning team, its
status unchanged, so an active auction stays active. -/
theorem NextPlayer_exhausted (f : NextFaults) (now : Time) (db db2 : DB) (id : UUID)
    (a : Auction) (hA : db.firstAuction id = some a)
    (hS : settle f now db a = Except.ok db2)
    (hQ : getNextPlayerByCategoryOrder now db2 a.currentPlayerID = none) :
    (NextPlayer f now db id).resp = Response.ok
    ∧ (NextPlayer f now db id).events = ["no_more_players"]
    ∧ ∃ a2, (NextPlayer f now db id).db.firstAuction id = some a2
        ∧ a2 = { a with currentPlayerID := none, currentBid := 0, winningTeamID := none,
                        updatedAt := now }
        ∧ a2.currentPlayerID = none ∧ a2.currentBid = 0 ∧ a2.winningTeamID = none
        ∧ a2.status = a.status ∧ (a.status = "active" → a2.status = "active") := by
  have hid : a.id = id := firstAuction_id hA
  have e : NextPlayer f now db id =
      { db := db2.saveAuction now
          { a with currentPlayerID := none, currentBid := 0, winningTeamID := none,
                   updatedAt := now },
        resp := Response.ok, events := ["no_more_players"] } := by
    simp [NextPlayer, hA, hS, hQ]
  rw [e]
  refine ⟨rfl, rfl,
    { a with currentPlayerID := none, currentBid := 0, winningTeamID := none, updatedAt := now },
    ?_, rfl, rfl, rfl, rfl, rfl, fun h => h⟩
  have := firstAuction_saveAuction now db2
    { a with currentPlayerID := none, currentBid := 0, winningTeamID := none, updatedAt := now }
  simpa [hid] using this

/-- Instance of C18: team 7 wins the last player at 300; after the settlement no unsold
player is left. -/
theorem NextPlayer_exhausted_witness :
    (NextPlayer noNextFaults sampleTime lastPlayerDB 1).resp = Response.ok
    ∧ (NextPlayer noNextFaults sampleTime lastPlayerDB 1).events = ["no_more_players"]
    ∧ ∃ a2, (NextPlayer noNextFaults sampleTime lastPlayerDB 1).db.firstAuction 1 = some a2
        ∧ a2 = { mkAuction "active" 300 (some 7) with
                  currentPlayerID := none, currentBid := 0, winningTeamID := none,
                  updatedAt := sampleTime }
        ∧ a2.currentPlayerID = none ∧ a2.currentBid = 0 ∧ a2.winningTeamID = none
        ∧ a2.status = (mkAuction "active" 300 (some 7)).status
        ∧ ((mkAuction "active" 300 (some 7)).status = "active" → a2.status = "active") :=
  NextPlayer_exhausted noNextFaults sampleTime lastPlayerDB
    ((lastPlayerDB.savePlayer sampleTime
        { mkPlayer 1 "female" with isSold := true, currentTeamID := some 7,
                                   currentPrice := 300 }).saveTeam sampleTime
      { mkTeam 7 12000 0 0 with usedPoints := 300 })
    1 (mkAuction "active" 300 (some 7)) (by decide) (by rfl) (by decide)

/-! ## `AssignPlayerToTeam` -/

/-- What a successful `AssignPlayerToTeam` went through, and the store that results. -/
theorem AssignPlayerToTeam_ok {f : AssignFaults} {now : Time} {db : DB} {tid pid : UUID}
    {points : Int}
    (h : (AssignPlayerToTeam f now db (some tid) (some (some pid, points))).resp = Response.ok) :
    ∃ team P, 1 ≤ points ∧ db.firstTeam tid = some team
      ∧ wrapInt (team.usedPoints + points) ≤ team.totalPoints
      ∧ db.firstPlayer pid = some P ∧ P.isSold = false ∧ f = noAssignFaults
      ∧ (AssignPlayerToTeam f now db (some tid) (some (some pid, points))).db
          = (db.savePlayer now { P with isSold := true, currentPrice := points,
                                        currentTeamID := some team.id, updatedAt := now }).saveTeam
              now { team with usedPoints := wrapInt (team.usedPoints + points),
                              playerCount := wrapInt (team.playerCount + 1),
                              updatedAt := now } := by
  by_cases hp : points < 1
  · simp [AssignPlayerToTeam, reject, hp] at h
  cases hT : db.firstTeam tid with
  | none => simp [AssignPlayerToTeam, reject, hp, hT, DB.begin, Tx.rollback] at h
  | some team =>
  by_cases hb : wrapInt (team.usedPoints + points) > team.totalPoints
  · simp [AssignPlayerToTeam, reject, hp, hT, hb, DB.begin, Tx.rollback] at h
  cases hP : db.firstPlayer pid with
  | none => simp [AssignPlayerToTeam, reject, hp, hT, hb, hP, DB.begin, Tx.rollback] at h
  | some P =>
  cases hs : P.isSold with
  | true => simp [AssignPlayerToTeam, reject, hp, hT, hb, hP, hs, DB.begin, Tx.rollback] at h
  | false =>
  obtain ⟨f1, f2, f3⟩ := f
  cases f1 <;> cases f2 <;> cases f3 <;>
    simp [AssignPlayerToTeam, reject, hp, hT, hb, hP, hs, DB.begin, Tx.rollback, Tx.exec,
      Tx.commit] at h ⊢
  refine ⟨by omega, by omega, rfl⟩

/-- An `AssignPlayerToTeam` that does not succeed leaves the store as it was. -/
theorem AssignPlayerToTeam_unchanged {f : AssignFaults} {now : Time} {db : DB}
    {teamID : Option UUID} {body : Option (Option UUID × Int)}
    (h : (AssignPlayerToTeam f now db teamID body).resp ≠ Response.ok) :
    (AssignPlayerToTeam f now db teamID body).db = db := by
  cases body with
  | none => simp [AssignPlayerToTeam, reject]
  | some b =>
  obtain ⟨playerID, points⟩ := b
  by_cases hp : points < 1
  · simp [AssignPlayerToTeam, reject, hp]
  cases teamID with
  | none => simp [AssignPlayerToTeam, reject, hp]
  | some tid =>
  cases playerID with
  | none => simp [AssignPlayerToTeam, reject, hp]
  | some pid =>
  cases hT : db.firstTeam tid with
  | none => simp [AssignPlayerToTeam, reject, hp, hT, DB.begin, Tx.rollback]
  | some team =>
  by_cases hb : wrapInt (team.usedPoints + points) > team.totalPoints
  · simp [AssignPlayerToTeam, reject, hp, hT, hb, DB.begin, Tx.rollback]
  cases hP : db.firstPlayer pid with
  | none => simp [AssignPlayerToTeam, reject, hp, hT, hb, hP, DB.begin, Tx.rollback]
  | some P =>
  cases hs : P.isSold with
  | true => simp [AssignPlayerToTeam, reject, hp, hT, hb, hP, hs, DB.begin, Tx.rollback]
  | false =>
  obtain ⟨f1, f2, f3⟩ := f
  cases f1 <;> cases f2 <;> cases f3 <;>
    simp [AssignPlayerToTeam, reject, hp, hT, hb, hP, hs, DB.begin, Tx.rollback, Tx.exec,
      Tx.commit] at h ⊢

/-- What `AssignPlayerToTeam` does for a team id, a player id and points of at least 1, on
the `int` arithmetic of the handler: with no write failing it succeeds exactly when the
team exists, its used points plus the points, as a 64-bit sum, do not exceed its total, the
player exists and the player is unsold; on success the player is sold to the team at that
price and the team has that sum as used points and one more player; on any failure the
store, hence player and team, is unchanged. -/
theorem AssignPlayerToTeam_effect (f : AssignFaults) (now : Time) (db : DB) (tid pid : UUID)
    (points : Int) (hpts : 1 ≤ points) :
    (f = noAssignFaults →
      ((AssignPlayerToTeam f now db (some tid) (some (some pid, points))).resp = Response.ok ↔
        ∃ team P, db.firstTeam tid = some team
          ∧ wrapInt (team.usedPoints + points) ≤ team.totalPoints
          ∧ db.firstPlayer pid = some P ∧ P.isSold = false))
    ∧ ((AssignPlayerToTeam f now db (some tid) (some (some pid, points))).resp = Response.ok →
        ∃ team P, db.firstTeam tid = some team ∧ db.firstPlayer pid = some P
          ∧ (AssignPlayerToTeam f now db (some tid) (some (some pid, points))).db.firstPlayer pid
              = some { P with isSold := true, currentTeamID := some tid, currentPrice := points,
                              updatedAt := now }
          ∧ (AssignPlayerToTeam f now db (some tid) (some (some pid, points))).db.firstTeam tid
              = some { team with usedPoints := wrapInt (team.usedPoints + points),
                                 playerCount := wrapInt (team.playerCount + 1),
                                 updatedAt := now })
    ∧ ((AssignPlayerToTeam f now db (some tid) (some (some pid, points))).resp ≠ Response.ok →
        (AssignPlayerToTeam f now db (some tid) (some (some pid, points))).db = db) := by
  refine ⟨?_, ?_, AssignPlayerToTeam_unchanged⟩
  · intro hf
    constructor
    · intro h
      obtain ⟨team, P, _, hT, hb, hP, hs, _, _⟩ := AssignPlayerToTeam_ok h
      exact ⟨team, P, hT, hb, hP, hs⟩
    · rintro ⟨team, P, hT, hb, hP, hs⟩
      have hp : ¬ points < 1 := by omega
      have hb2 : ¬ wrapInt (team.usedPoints + points) > team.totalPoints := by omega
      subst hf
      simp [AssignPlayerToTeam, noAssignFaults, hp, hT, hb2, hP, hs, DB.begin, Tx.exec,
        Tx.commit]
  · intro h
    obtain ⟨team, P, _, hT, _, hP, _, _, hdb⟩ := AssignPlayerToTeam_ok h
    have htid : team.id = tid := firstTeam_id hT
    have hpid : P.id = pid := firstPlayer_id hP
    refine ⟨team, P, hT, hP, ?_, ?_⟩
    · rw [hdb]
      have := firstPlayer_savePlayer now db
        { P with isSold := true, currentPrice := points, currentTeamID := some team.id,
                 updatedAt := now }
      have e : ∀ d : DB, ∀ t : Team, (d.saveTeam now t).firstPlayer pid = d.firstPlayer pid :=
        fun _ _ => rfl
      rw [e]
      simpa [hpid, htid] using this
    · rw [hdb]
      have := firstTeam_saveTeam now
        (db.savePlayer now { P with isSold := true, currentPrice := points,
                                    currentTeamID := some team.id, updatedAt := now })
        { team with usedPoints := wrapInt (team.usedPoints + points),
                    playerCount := wrapInt (team.playerCount + 1), updatedAt := now }
      simpa [htid] using this

/-- C21 fails on the code: on the sample store player 1 is assigned to team 7 for 200
points and player 2 for 9223372036854775807 points.  Both calls answer 200 although 200
used points plus the points of the second call exceed the 12000 total points of the team:
the sum of the budget check wraps to a negative `int`.  Team 7 is left with
-9223372036854775609 used points and two players, and player 2 is sold to it at that
price. -/
theorem assignment_past_budget :
    responses sampleDB pastBudgetCalls = [Response.ok, Response.ok]
    ∧ ((run sampleDB (pastBudgetCalls.take 1)).firstTeam 7).map
        (fun t => (t.usedPoints, t.totalPoints)) = some (200, 12000)
    ∧ ((run sampleDB (pastBudgetCalls.take 1)).firstPlayer 2).map Player.isSold = some false
    ∧ isInt 9223372036854775807
    ∧ ¬ ((200 : Int) + 9223372036854775807 ≤ 12000)
    ∧ ((run sampleDB pastBudgetCalls).firstTeam 7).map
        (fun t => (t.usedPoints, t.playerCount)) = some (-9223372036854775609, 2)
    ∧ ((run sampleDB pastBudgetCalls).firstPlayer 2).map
        (fun p => (p.isSold, p.currentTeamID, p.currentPrice))
        = some (true, some 7, 9223372036854775807) := by
  decide

/-! ## The selector and the two age computations -/

/-- `GetPlayerCategory` by cases: women for a female player, unknown for a gender other
than female and male, and for a male player the side of 35 on which `CalculateAge` falls. -/
theorem GetPlayerCategory_cases (now : Time) (p : Player) :
    (p.gender = "female" → p.GetPlayerCategory now = "women")
    ∧ (p.gender ≠ "female" → p.gender ≠ "male" → p.GetPlayerCategory now = "unknown")
    ∧ (p.gender = "male" → p.CalculateAge now < 35 → p.GetPlayerCategory now = "men_under_35")
    ∧ (p.gender = "male" → 35 ≤ p.CalculateAge now → p.GetPlayerCategory now = "men_35_plus") := by
  unfold Player.GetPlayerCategory
  refine ⟨?_, ?_, ?_, ?_⟩
  · intro h; simp [h]
  · intro h1 h2; simp [h1, h2]
  · intro h1 h2
    have hf : p.gender ≠ "female" := by rw [h1]; decide
    simp [hf, h1, h2]
  · intro h1 h2
    have hf : p.gender ≠ "female" := by rw [h1]; decide
    simp [hf, h1, not_lt.mpr h2]

/-- C24 at two failing inputs.  A man born on the first of March 1988 has completed 35
years on the first of March 2023, yet `CalculateAge` gives 34 (day 60 of 2023 against day 61
of the leap year 1988) and the category is `men_under_35`.  A man born on the first of March
1989 has completed 34 years on the 29th of February 2024, yet `CalculateAge` gives 35 (day
60 against day 60) and the category is `men_35_plus`. -/
theorem category_off_by_a_day :
    notAfter (mkMan 1 1988 3 1).dateOfBirth birthdayTime
    ∧ completedYears birthdayTime (mkMan 1 1988 3 1).dateOfBirth = 35
    ∧ (mkMan 1 1988 3 1).CalculateAge birthdayTime = 34
    ∧ (mkMan 1 1988 3 1).GetPlayerCategory birthdayTime = "men_under_35"
    ∧ notAfter (mkMan 1 1989 3 1).dateOfBirth leapDayTime
    ∧ completedYears leapDayTime (mkMan 1 1989 3 1).dateOfBirth = 34
    ∧ (mkMan 1 1989 3 1).CalculateAge leapDayTime = 35
    ∧ (mkMan 1 1989 3 1).GetPlayerCategory leapDayTime = "men_35_plus" := by
  decide

/-- C22 at a failing input: on the first of March 2023 the cursor is the only player, an
unsold man born on the first of March 1988.  His category is `men_under_35` for
`GetPlayerCategory` and `men_35_plus` for the filter of the store; no other player exists,
so no unsold player of his category has a greater id, and the selector returns the cursor
himself, a player of the cursor's category. -/
theorem selector_returns_cursor_category :
    birthdayDB.players.map Player.id = [1]
    ∧ cursorCategory birthdayTime birthdayDB (some 1) = "men_under_35"
    ∧ (birthdayDB.firstPlayer 1).map (categoryFilter birthdayTime "men_35_plus") = some true
    ∧ (getNextPlayerByCategoryOrder birthdayTime birthdayDB (some 1)).map Player.id = some 1
    ∧ (getNextPlayerByCategoryOrder birthdayTime birthdayDB (some 1)).map
        (fun p => p.GetPlayerCategory birthdayTime) = some "men_under_35" := by
  decide

/-- C23 at a failing input: on the first of March 2023 players 1 and 2 are unsold men both
born on the first of March 1988, so they share their category (`men_under_35` for
`GetPlayerCategory`, `men_35_plus` for the filter of the store).  With player 1 as cursor,
player 2 is an unsold player of the same category with a greater id, yet the selector
returns player 1. -/
theorem selector_misses_same_category :
    twinsDB.players.map (fun p => (p.id, p.isSold, p.GetPlayerCategory birthdayTime,
        categoryFilter birthdayTime "men_35_plus" p))
      = [(1, false, "men_under_35", true), (2, false, "men_under_35", true)]
    ∧ cursorCategory birthdayTime twinsDB (some 1) = "men_under_35"
    ∧ (getNextPlayerByCategoryOrder birthdayTime twinsDB (some 1)).map Player.id = some 1 := by
  decide

/-- `firstByID` finds nothing only in an empty list. -/
theorem firstByID_none {ps : List Player} (h : firstByID ps = none) : ps = [] := by
  cases ps with
  | nil => rfl
  | cons p ps =>
    unfold firstByID at h
    cases hr : firstByID ps with
    | none => rw [hr] at h; simp at h
    | some r =>
      rw [hr] at h
      simp only at h
      split_ifs at h

/-- A filtered query finds nothing only when no row meets the condition. -/
theorem firstPlayerWhere_none {db : DB} {cond : Player → Bool}
    (h : db.firstPlayerWhere cond = none) : ∀ p ∈ db.players, cond p = false := by
  intro p hp
  have := firstByID_none h
  rw [List.filter_eq_nil_iff] at this
  simpa using this p hp

/-- The category loop finds nothing only when every category it queries has no unsold
player. -/
theorem scanCategories_none {now : Time} {db : DB} {start : Nat} {hasCurrent : Bool}
    {cats : List (Nat × String)} (h : scanCategories now db start hasCurrent cats = none) :
    ∀ i category, (i, category) ∈ cats → ¬ (i = start ∧ hasCurrent = true) →
      ∀ p ∈ db.players, p.isSold = false → categoryFilter now category p = false := by
  induction cats with
  | nil => intro i category hm; simp at hm
  | cons c cats ih =>
    obtain ⟨j, cat⟩ := c
    unfold scanCategories at h
    intro i category hm hskip p hp hs
    by_cases hj : j = start ∧ hasCurrent = true
    · rw [if_pos hj] at h
      rcases List.mem_cons.1 hm with e | hm2
      · have e1 : i = j := (Prod.mk.inj e).1
        exact absurd (by rw [e1]; exact hj) hskip
      · exact ih h i category hm2 hskip p hp hs
    · rw [if_neg hj] at h
      cases hq : db.firstPlayerWhere (fun p => !p.isSold && categoryFilter now cat p) with
      | some r => rw [hq] at h; simp at h
      | none =>
        rw [hq] at h
        rcases List.mem_cons.1 hm with e | hm2
        · have e2 : category = cat := (Prod.mk.inj e).2
          have := firstPlayerWhere_none hq p hp
          simpa [hs, e2] using this
        · exact ih h i category hm2 hskip p hp hs

/-- The start index is one of the three positions of the priority order. -/
theorem startCategoryIndex_le (c : String) : startCategoryIndex c ≤ 2 := by
  unfold startCategoryIndex categoryOrder
  split_ifs
  · simp only [List.findIdx?_cons, List.findIdx?_nil]
    split_ifs <;> simp
  · omega

/-- The selector in terms of its two queries. -/
theorem selector_unfold (now : Time) (db : DB) (cur : Option UUID) :
    getNextPlayerByCategoryOrder now db cur =
      match (match cur with
             | none => none
             | some id => db.firstPlayerWhere (fun p =>
                 !p.isSold && decide (p.id > id)
                   && categoryFilter now (cursorCategory now db cur) p)) with
      | some nextPlayer => some nextPlayer
      | none =>
        scanCategories now db (startCategoryIndex (cursorCategory now db cur)) cur.isSome
          (categoryOrder.enum.drop (startCategoryIndex (cursorCategory now db cur))) := by
  cases cur <;> rfl

/-- C30, as the code behaves: the selector reports that no player is available only if no
unsold player with an id greater than the cursor's passes the filter of the cursor's
category, and no unsold player passes the filter of a category from the cursor's position
in the priority order on, the cursor's own category excepted (with no cursor: of any of
the three categories). -/
theorem selector_none (now : Time) (db : DB) (cur : Option UUID)
    (h : getNextPlayerByCategoryOrder now db cur = none) :
    ∀ p ∈ db.players, p.isSold = false →
      (∀ id, cur = some id → id < p.id →
        categoryFilter now (cursorCategory now db cur) p = false)
      ∧ (∀ i category, (i, category) ∈ categoryOrder.enum →
          startCategoryIndex (cursorCategory now db cur) ≤ i →
          (cur ≠ none → i ≠ startCategoryIndex (cursorCategory now db cur)) →
          categoryFilter now category p = false) := by
  rw [selector_unfold] at h
  intro p hp hs
  constructor
  · intro id hcur hlt
    subst hcur
    simp only at h
    cases hq : db.firstPlayerWhere (fun p =>
        !p.isSold && decide (p.id > id)
          && categoryFilter now (cursorCategory now db (some id)) p) with
    | some r => rw [hq] at h; simp at h
    | none =>
      have := firstPlayerWhere_none hq p hp
      simpa [hs, hlt] using this
  · intro i category hm hle hne
    have hscan : scanCategories now db (startCategoryIndex (cursorCategory now db cur))
        cur.isSome
        (categoryOrder.enum.drop (startCategoryIndex (cursorCategory now db cur))) = none := by
      cases cur with
      | none => simpa using h
      | some id =>
        simp only at h
        cases hq : db.firstPlayerWhere (fun p =>
            !p.isSold && decide (p.id > id)
              && categoryFilter now (cursorCategory now db (some id)) p) with
        | some r => rw [hq] at h; simp at h
        | none => rw [hq] at h; exact h
    have hmem : (i, category) ∈
        categoryOrder.enum.drop (startCategoryIndex (cursorCategory now db cur)) := by
      have h2 := startCategoryIndex_le (cursorCategory now db cur)
      generalize startCategoryIndex (cursorCategory now db cur) = s at hle h2 ⊢
      have hm2 : (i, category) = (0, "women") ∨ (i, category) = (1, "men_under_35")
          ∨ (i, category) = (2, "men_35_plus") := by
        simpa [categoryOrder, List.enum, List.enumFrom] using hm
      interval_cases s
      · simpa [categoryOrder, List.enum, List.enumFrom] using hm2
      · rcases hm2 with e | e | e
        · have : i = 0 := (Prod.mk.inj e).1
          omega
        · simp [categoryOrder, List.enum, List.enumFrom, e]
        · simp [categoryOrder, List.enum, List.enumFrom, e]
      · rcases hm2 with e | e | e
        · have : i = 0 := (Prod.mk.inj e).1
          omega
        · have : i = 1 := (Prod.mk.inj e).1
          omega
        · simp [categoryOrder, List.enum, List.enumFrom, e]
    refine scanCategories_none hscan i category hmem ?_ p hp hs
    rintro ⟨he, hc⟩
    have : cur ≠ none := by
      intro hn
      rw [hn] at hc
      simp at hc
    exact hne this he

/-- Instance of the amended C30: with woman 2 as cursor no player is available in the
store of the two women, and the unsold woman 1 does not pass the filter of the later
category `men_under_35`. -/
theorem selector_none_witness :
    categoryFilter sampleTime "men_under_35" (mkPlayer 1 "female") = false :=
  (selector_none sampleTime twoWomenDB (some 2) (by decide) (mkPlayer 1 "female")
    (by decide) rfl).2 1 "men_under_35" (by decide) (by decide) (by decide)

/-- C30 fails as stated: with player 2 as cursor the selector reports that no player is
available although player 1, an unsold woman who is not the cursor, is in the store; and
`NextPlayer` reaches the no-more-players state with her still unsold. -/
theorem no_player_reported_with_unsold_left :
    twoWomenDB.players.map (fun p => (p.id, p.isSold, p.GetPlayerCategory sampleTime,
        categoryFilter sampleTime "women" p))
      = [(1, false, "women", true), (2, false, "women", true)]
    ∧ getNextPlayerByCategoryOrder sampleTime twoWomenDB (some 2) = none
    ∧ (NextPlayer noNextFaults sampleTime twoWomenDB 1).resp = Response.ok
    ∧ (NextPlayer noNextFaults sampleTime twoWomenDB 1).events = ["no_more_players"]
    ∧ ((NextPlayer noNextFaults sampleTime twoWomenDB 1).db.firstPlayer 1).map Player.isSold
        = some false := by
  decide

/-! ## Bids without a current player, sales below the base price -/

/-- C28 at a failing run: auction 1 is created, started on the only player and, nobody
having bid, moved on, which leaves it active without a current player.  The checks of
`CreateBid` then accept a bid of 200 by team 7, and the construction of the bid
dereferences the unset current player: the handler ends in the recovery middleware with
status 500. -/
theorem bid_without_current_player :
    Op.responsesAll createdLoneDB exhaustOps = [Response.ok, Response.ok]
    ∧ ReachableBy Op.live createdLoneDB (Op.runAll createdLoneDB exhaustOps)
    ∧ ((Op.runAll createdLoneDB exhaustOps).firstAuction 1).map
        (fun a => (a.status, a.currentPlayerID)) = some ("active", none)
    ∧ ((Op.runAll createdLoneDB exhaustOps).firstAuction 1).bind
        (fun a => ((Op.runAll createdLoneDB exhaustOps).firstTeam 7).map
          (fun t => bidChecks a t 200)) = some none
    ∧ (CreateBid noBidFaults sampleTime 100 (Op.runAll createdLoneDB exhaustOps) (some 1)
        (some 200) (some (some 7))).resp = Response.error 500 "Internal server error" :=
  ⟨by decide,
    reachableBy_runAll Op.live createdLoneDB exhaustOps (by decide) createdLoneDB
      ReachableBy.init,
    by decide, by decide, by decide⟩

/-- C29 at a failing run: auction 1 is created with no winning team and current bid 0 and
started, team 7 bids 200 on player 1, and the auction is started again: `StartAuction`
resets the current bid to 0 and keeps the winning team.  `NextPlayer` then sells player 1
to team 7 at price 0. -/
theorem sale_below_base_price :
    (createdDB.firstAuction 1).map (fun a => (a.winningTeamID, a.currentBid)) = some (none, 0)
    ∧ Op.responsesAll createdDB restartOps
        = [Response.ok, Response.created, Response.ok, Response.ok]
    ∧ ReachableBy Op.live createdDB (Op.runAll createdDB (restartOps.take 3))
    ∧ ((Op.runAll createdDB (restartOps.take 3)).firstAuction 1).map
        (fun a => (a.winningTeamID, a.currentBid)) = some (some 7, 0)
    ∧ ((Op.runAll createdDB restartOps).firstPlayer 1).map
        (fun p => (p.isSold, p.currentTeamID, p.currentPrice)) = some (true, some 7, 0) :=
  ⟨by decide, by decide,
    reachableBy_runAll Op.live createdDB (restartOps.take 3) (by decide) createdDB
      ReachableBy.init,
    by decide, by decide⟩

/-! ## The broadcast loop of the hub -/

/-- One turn of the loop on a client whose channel is open. -/
theorem deliver_open {m : String} {h : Hub} {c : ClientID}
    (ho : (h.send c).closed = false) :
    ∃ h1, h.deliver m c = some h1
      ∧ h1.clients = h.clients.filter
          (fun d => decide (d ≠ c) || decide ((h.send c).buf.length < sendCapacity))
      ∧ ∀ d, h1.send d = if d = c then (h.send c).offer m else h.send d := by
  by_cases hlen : (h.send c).buf.length < sendCapacity
  · refine ⟨h.setChan c { (h.send c) with buf := (h.send c).buf ++ [m] }, ?_, ?_, ?_⟩
    · simp [Hub.deliver, ho, hlen]
    · simp [Hub.setChan, hlen]
    · intro d
      simp [Hub.setChan, Chan.offer, hlen]
  · refine ⟨(h.setChan c { (h.send c) with closed := true }).delete c, ?_, ?_, ?_⟩
    · simp [Hub.deliver, Hub.close, ho, hlen]
    · show List.filter (fun d => d != c) h.clients = _
      apply List.filter_congr
      intro d _
      by_cases e : d = c <;> simp [e, hlen]
    · intro d
      simp [Hub.setChan, Hub.delete, Chan.offer, hlen]

/-- The loop over a duplicate-free list of clients with open channels: it does not panic,
it removes exactly the listed clients whose channel is full, and it offers the message to
the channel of every listed client and to no other. -/
theorem deliverAll_spec (m : String) (L : List ClientID) (hL : L.Nodup) (h : Hub)
    (hopen : ∀ c ∈ L, (h.send c).closed = false) :
    ∃ h2, L.foldlM (fun acc c => acc.deliver m c) h = some h2
      ∧ h2.clients = h.clients.filter
          (fun d => decide (d ∉ L) || decide ((h.send d).buf.length < sendCapacity))
      ∧ ∀ d, h2.send d = if d ∈ L then (h.send d).offer m else h.send d := by
  induction L generalizing h with
  | nil =>
    refine ⟨h, rfl, ?_, ?_⟩
    · simp
    · intro d; simp
  | cons c L ih =>
    have hc : c ∉ L := (List.nodup_cons.1 hL).1
    have hL2 : L.Nodup := (List.nodup_cons.1 hL).2
    obtain ⟨h1, hd, hcl, hsend⟩ :=
      @deliver_open m h c (hopen c (List.mem_cons_self _ _))
    have hopen1 : ∀ d ∈ L, (h1.send d).closed = false := by
      intro d hd2
      have hne : d ≠ c := fun e => hc (e ▸ hd2)
      rw [hsend d, if_neg hne]
      exact hopen d (List.mem_cons_of_mem _ hd2)
    obtain ⟨h2, hf, hcl2, hsend2⟩ := ih hL2 h1 hopen1
    refine ⟨h2, ?_, ?_, ?_⟩
    · rw [List.foldlM_cons, hd]
      exact hf
    · rw [hcl2, hcl, List.filter_filter]
      apply List.filter_congr
      intro d _
      by_cases hdc : d = c
      · subst hdc
        simp [hc]
      · have e1 : h1.send d = h.send d := by rw [hsend d, if_neg hdc]
        simp [hdc, e1]
    · intro d
      rw [hsend2 d]
      by_cases hdc : d = c
      · subst hdc
        simp [hc, hsend d]
      · have e1 : h1.send d = h.send d := by rw [hsend d, if_neg hdc]
        simp [hdc, e1]

/-- One Broadcast on a well-formed hub: it does not panic, it keeps exactly the clients
whose channel has room, it offers the message to the channel of every registered client
and touches no other channel, and the hub stays well formed. -/
theorem onBroadcast_spec (h : Hub) (m : String) (hwf : h.wellFormed) :
    ∃ h2, h.onBroadcast m = some h2
      ∧ h2.clients = h.clients.filter
          (fun d => decide ((h.send d).buf.length < sendCapacity))
      ∧ (∀ d, h2.send d = if d ∈ h.clients then (h.send d).offer m else h.send d)
      ∧ h2.wellFormed := by
  obtain ⟨h2, hf, hcl, hsend⟩ := deliverAll_spec m h.clients hwf.1 h hwf.2
  have hcl2 : h2.clients = h.clients.filter
      (fun d => decide ((h.send d).buf.length < sendCapacity)) := by
    rw [hcl]
    apply List.filter_congr
    intro d hd
    simp [hd]
  refine ⟨h2, hf, hcl2, hsend, ?_, ?_⟩
  · rw [hcl2]
    exact hwf.1.filter _
  · intro c hc
    rw [hcl2] at hc
    obtain ⟨hc1, hc2⟩ := List.mem_filter.1 hc
    have hlen : (h.send c).buf.length < sendCapacity := by simpa using hc2
    rw [hsend c, if_pos hc1]
    simp [Chan.offer, hlen, hwf.2 c hc1]

/-- C25: on every well-formed hub state, processing one Broadcast appends exactly one copy
of the message to the queue of every registered client whose queue is not full and leaves
the queue of every client that is not registered as it was, also when that client is
registered afterwards. -/
theorem broadcast_reaches_registered (h : Hub) (m : String) (hwf : h.wellFormed) :
    ∃ h2, h.Broadcast (some m) = some h2
      ∧ (∀ c ∈ h.clients, (h.send c).buf.length < sendCapacity →
          (h2.send c).buf = (h.send c).buf ++ [m])
      ∧ (∀ c, c ∉ h.clients → h2.send c = h.send c)
      ∧ (∀ c, c ∉ h.clients → (h2.onRegister c).send c = h.send c) := by
  obtain ⟨h2, hf, _, hsend, _⟩ := onBroadcast_spec h m hwf
  refine ⟨h2, hf, ?_, ?_, ?_⟩
  · intro c hc hlen
    rw [hsend c, if_pos hc]
    simp [Chan.offer, hlen]
  · intro c hc
    rw [hsend c, if_neg hc]
  · intro c hc
    have e : (h2.onRegister c).send = h2.send := by
      unfold Hub.onRegister
      split_ifs <;> rfl
    rw [e, hsend c, if_neg hc]

/-- Instance of C25: a broadcast on the hub with clients 1 and 2. -/
theorem broadcast_reaches_registered_witness :
    ∃ h2, twoClientHub.Broadcast (some "new_bid") = some h2
      ∧ (∀ c ∈ twoClientHub.clients, (twoClientHub.send c).buf.length < sendCapacity →
          (h2.send c).buf = (twoClientHub.send c).buf ++ ["new_bid"])
      ∧ (∀ c, c ∉ twoClientHub.clients → h2.send c = twoClientHub.send c)
      ∧ (∀ c, c ∉ twoClientHub.clients → (h2.onRegister c).send c = twoClientHub.send c) :=
  broadcast_reaches_registered twoClientHub "new_bid" (by decide)

/-- Broadcasts that fit into the queue of a registered client keep it registered and are
appended to its queue in order. -/
theorem broadcastAll_keeps (ms : List String) (h : Hub) (hwf : h.wellFormed) (c : ClientID)
    (hc : c ∈ h.clients) (hroom : (h.send c).buf.length + ms.length ≤ sendCapacity) :
    ∃ h3, h.broadcastAll ms = some h3 ∧ h3.wellFormed ∧ c ∈ h3.clients
      ∧ (h3.send c).buf = (h.send c).buf ++ ms := by
  induction ms generalizing h with
  | nil => exact ⟨h, rfl, hwf, hc, by simp⟩
  | cons m ms ih =>
    obtain ⟨h2, hf, hcl, hsend, hwf2⟩ := onBroadcast_spec h m hwf
    have hlen : (h.send c).buf.length < sendCapacity := by
      simp only [List.length_cons] at hroom
      omega
    have hc2 : c ∈ h2.clients := by
      rw [hcl]
      exact List.mem_filter.2 ⟨hc, by simpa using hlen⟩
    have hbuf : (h2.send c).buf = (h.send c).buf ++ [m] := by
      rw [hsend c, if_pos hc]
      simp [Chan.offer, hlen]
    have hroom2 : (h2.send c).buf.length + ms.length ≤ sendCapacity := by
      rw [hbuf]
      simp only [List.length_append, List.length_cons, List.length_nil] at hroom ⊢
      omega
    obtain ⟨h3, hf3, hwf3, hc3, hbuf3⟩ := ih h2 hwf2 hc2 hroom2
    refine ⟨h3, ?_, hwf3, hc3, ?_⟩
    · simp only [Hub.broadcastAll, hf]
      exact hf3
    · rw [hbuf3, hbuf]
      simp

/-- C26: on every well-formed hub state, processing one Broadcast removes from the client
set and closes the queue of exactly the registered clients whose queue is full, and every
other registered client stays registered, its queue open and holding its earlier contents
followed by the message; a registered client with an empty queue that drains nothing stays
registered through 256 broadcasts and is dropped by the 257th. -/
theorem broadcast_drops_full (h : Hub) (m : String) (hwf : h.wellFormed) :
    (∃ h2, h.onBroadcast m = some h2
      ∧ h2.clients = h.clients.filter (fun c => decide ((h.send c).buf.length < sendCapacity))
      ∧ (∀ c ∈ h.clients, ¬ (h.send c).buf.length < sendCapacity →
          c ∉ h2.clients ∧ (h2.send c).closed = true ∧ (h2.send c).buf = (h.send c).buf)
      ∧ (∀ c ∈ h.clients, (h.send c).buf.length < sendCapacity →
          c ∈ h2.clients ∧ (h2.send c).closed = false
          ∧ (h2.send c).buf = (h.send c).buf ++ [m]))
    ∧ (∀ c ∈ h.clients, (h.send c).buf = [] → ∀ ms : List String, ms.length = 256 →
        ∃ h3, h.broadcastAll ms = some h3 ∧ c ∈ h3.clients ∧ (h3.send c).closed = false
          ∧ (h3.send c).buf = ms
          ∧ ∃ h4, h3.onBroadcast m = some h4 ∧ c ∉ h4.clients
              ∧ (h4.send c).closed = true) := by
  obtain ⟨h2, hf, hcl, hsend, hwf2⟩ := onBroadcast_spec h m hwf
  have full : ∀ (g g2 : Hub) (c : ClientID), g.wellFormed → c ∈ g.clients →
      g2.clients = g.clients.filter (fun c => decide ((g.send c).buf.length < sendCapacity)) →
      (∀ d, g2.send d = if d ∈ g.clients then (g.send d).offer m else g.send d) →
      ¬ (g.send c).buf.length < sendCapacity →
      c ∉ g2.clients ∧ (g2.send c).closed = true ∧ (g2.send c).buf = (g.send c).buf := by
    intro g g2 c _ hc hcl hsend hlen
    refine ⟨?_, ?_, ?_⟩
    · rw [hcl]
      intro hmem
      have := (List.mem_filter.1 hmem).2
      exact hlen (by simpa using this)
    · rw [hsend c, if_pos hc]
      simp [Chan.offer, hlen]
    · rw [hsend c, if_pos hc]
      simp [Chan.offer, hlen]
  refine ⟨⟨h2, hf, hcl, ?_, ?_⟩, ?_⟩
  · intro c hc hlen
    exact full h h2 c hwf hc hcl hsend hlen
  · intro c hc hlen
    refine ⟨?_, ?_, ?_⟩
    · rw [hcl]
      exact List.mem_filter.2 ⟨hc, by simpa using hlen⟩
    · rw [hsend c, if_pos hc]
      simp [Chan.offer, hlen, hwf.2 c hc]
    · rw [hsend c, if_pos hc]
      simp [Chan.offer, hlen]
  · intro c hc hempty ms hms
    have hroom : (h.send c).buf.length + ms.length ≤ sendCapacity := by
      rw [hempty, hms]
      simp [sendCapacity]
    obtain ⟨h3, hf3, hwf3, hc3, hbuf3⟩ := broadcastAll_keeps ms h hwf c hc hroom
    have hbuf : (h3.send c).buf = ms := by rw [hbuf3, hempty]; rfl
    obtain ⟨h4, hf4, hcl4, hsend4, _⟩ := onBroadcast_spec h3 m hwf3
    have hlen : ¬ (h3.send c).buf.length < sendCapacity := by
      rw [hbuf, hms]
      simp [sendCapacity]
    obtain ⟨r1, r2, _⟩ := full h3 h4 c hwf3 hc3 hcl4 hsend4 hlen
    exact ⟨h3, hf3, hc3, hwf3.2 c hc3, hbuf, h4, hf4, r1, r2⟩

/-- Instance of C26: one broadcast on the hub in which the queue of client 1 is full, and
257 broadcasts for client 2 of the hub with clients 1 and 2. -/
theorem broadcast_drops_full_witness :
    (∃ h2, fullClientHub.onBroadcast "new_bid" = some h2
      ∧ h2.clients = fullClientHub.clients.filter
          (fun c => decide ((fullClientHub.send c).buf.length < sendCapacity))
      ∧ (∀ c ∈ fullClientHub.clients, ¬ (fullClientHub.send c).buf.length < sendCapacity →
          c ∉ h2.clients ∧ (h2.send c).closed = true
          ∧ (h2.send c).buf = (fullClientHub.send c).buf)
      ∧ (∀ c ∈ fullClientHub.clients, (fullClientHub.send c).buf.length < sendCapacity →
          c ∈ h2.clients ∧ (h2.send c).closed = false
          ∧ (h2.send c).buf = (fullClientHub.send c).buf ++ ["new_bid"]))
    ∧ (∃ h3, twoClientHub.broadcastAll (List.replicate 256 "tick") = some h3
        ∧ 2 ∈ h3.clients ∧ (h3.send 2).closed = false
        ∧ (h3.send 2).buf = List.replicate 256 "tick"
        ∧ ∃ h4, h3.onBroadcast "new_bid" = some h4 ∧ 2 ∉ h4.clients
            ∧ (h4.send 2).closed = true) :=
  ⟨(broadcast_drops_full fullClientHub "new_bid" (by decide)).1,
   (broadcast_drops_full twoClientHub "new_bid" (by decide)).2 2 (by decide) (by decide)
      (List.replicate 256 "tick") (List.length_replicate _ _)⟩

/-! ## Closed queues belong to dropped clients -/

/-- In a reachable hub state the hub is well formed, and the registered clients and the
clients with a closed channel have all been registered before. -/
theorem hubReachable_inv {ever : List ClientID} {h : Hub} (hr : HubReachable ever h) :
    h.wellFormed ∧ (∀ c ∈ h.clients, c ∈ ever)
      ∧ (∀ c, (h.send c).closed = true → c ∈ ever) := by
  induction hr with
  | init =>
    refine ⟨⟨List.nodup_nil, ?_⟩, ?_, ?_⟩
    · intro c hc; simp [NewHub] at hc
    · intro c hc; simp [NewHub] at hc
    · intro c hc; simp [NewHub] at hc
  | @register ever h c _ hnew ih =>
    obtain ⟨⟨hnd, hopen⟩, hsub, hcl⟩ := ih
    have hc : c ∉ h.clients := fun hm => hnew (hsub c hm)
    have e : h.onRegister c = { h with clients := h.clients ++ [c] } := by
      simp [Hub.onRegister, hc]
    rw [e]
    refine ⟨⟨?_, ?_⟩, ?_, ?_⟩
    · show (h.clients ++ [c]).Nodup
      rw [List.nodup_append]
      refine ⟨hnd, List.nodup_singleton c, ?_⟩
      intro a ha hb
      have : a = c := by simpa using hb
      exact hc (this ▸ ha)
    · intro d hd
      have hd2 : d ∈ h.clients ∨ d = c := by simpa using hd
      rcases hd2 with hd3 | hd3
      · exact hopen d hd3
      · subst hd3
        show (h.send d).closed = false
        cases hcd : (h.send d).closed with
        | false => rfl
        | true => exact absurd (hcl d hcd) hnew
    · intro d hd
      have hd2 : d ∈ h.clients ∨ d = c := by simpa using hd
      rcases hd2 with hd3 | hd3
      · exact List.mem_cons_of_mem _ (hsub d hd3)
      · rw [hd3]; exact List.mem_cons_self _ _
    · intro d hd
      exact List.mem_cons_of_mem _ (hcl d hd)
  | @unregister ever h h2 c _ hstep ih =>
    obtain ⟨⟨hnd, hopen⟩, hsub, hcl⟩ := ih
    by_cases hc : c ∈ h.clients
    · have hco : (h.send c).closed = false := hopen c hc
      have e : h2 = (h.delete c).setChan c { (h.send c) with closed := true } := by
        simp [Hub.onUnregister, hc, Hub.close, Hub.delete, hco] at hstep
        rw [← hstep]
        rfl
      rw [e]
      refine ⟨⟨?_, ?_⟩, ?_, ?_⟩
      · exact hnd.filter _
      · intro d hd
        have hd2 := List.mem_filter.1 hd
        have hne : d ≠ c := by simpa using hd2.2
        show (if d = c then _ else h.send d).closed = false
        rw [if_neg hne]
        exact hopen d hd2.1
      · intro d hd
        exact hsub d (List.mem_filter.1 hd).1
      · intro d hd
        by_cases hdc : d = c
        · rw [hdc]; exact hsub c hc
        · have : (h.send d).closed = true := by
            have hd2 : (if d = c then ({ (h.send c) with closed := true } : Chan)
                else h.send d).closed = true := hd
            rwa [if_neg hdc] at hd2
          exact hcl d this
    · have e : h2 = h := by
        simp [Hub.onUnregister, hc] at hstep
        exact hstep.symm
      rw [e]
      exact ⟨⟨hnd, hopen⟩, hsub, hcl⟩
  | @broadcast ever h h2 m _ hstep ih =>
    obtain ⟨hwf, hsub, hcl⟩ := ih
    obtain ⟨h3, hf, hcl3, hsend, hwf3⟩ := onBroadcast_spec h m hwf
    have e : h2 = h3 := by
      rw [hf] at hstep
      simpa using hstep.symm
    rw [e]
    refine ⟨hwf3, ?_, ?_⟩
    · intro d hd
      rw [hcl3] at hd
      exact hsub d (List.mem_filter.1 hd).1
    · intro d hd
      by_cases hdm : d ∈ h.clients
      · exact hsub d hdm
      · rw [hsend d, if_neg hdm] at hd
        exact hcl d hd
  | @drain ever h c _ ih =>
    obtain ⟨⟨hnd, hopen⟩, hsub, hcl⟩ := ih
    have hclosed : ∀ d, ((h.onDrain c).send d).closed = (h.send d).closed := by
      intro d
      by_cases hdc : d = c
      · subst hdc
        simp [Hub.onDrain, Hub.setChan]
      · simp [Hub.onDrain, Hub.setChan, hdc]
    refine ⟨⟨hnd, ?_⟩, hsub, ?_⟩
    · intro d hd
      rw [hclosed d]
      exact hopen d hd
    · intro d hd
      rw [hclosed d] at hd
      exact hcl d hd

/-- C27: in every hub state reachable through Register, Unregister and Broadcast steps
(and drains of the write pumps) in which each client is registered at most once, a closed
queue belongs to a client that is no longer in the client set; so a Broadcast never sends
on a closed queue and an Unregister never closes a queue twice (neither step panics), and
the Unregister of a client that is not registered changes nothing. -/
theorem closed_only_when_dropped (ever : List ClientID) (h : Hub) (hr : HubReachable ever h) :
    (∀ c, (h.send c).closed = true → c ∉ h.clients)
    ∧ (∀ m, ∃ h2, h.onBroadcast m = some h2)
    ∧ (∀ c, ∃ h2, h.onUnregister c = some h2)
    ∧ (∀ c, c ∉ h.clients → h.onUnregister c = some h) := by
  obtain ⟨hwf, _, _⟩ := hubReachable_inv hr
  refine ⟨?_, ?_, ?_, ?_⟩
  · intro c hc hm
    have := hwf.2 c hm
    rw [hc] at this
    cases this
  · intro m
    obtain ⟨h2, hf, _⟩ := onBroadcast_spec h m hwf
    exact ⟨h2, hf⟩
  · intro c
    by_cases hc : c ∈ h.clients
    · have hco : (h.send c).closed = false := hwf.2 c hc
      refine ⟨(h.delete c).setChan c { (h.send c) with closed := true }, ?_⟩
      simp [Hub.onUnregister, hc, Hub.close, Hub.delete, hco]
    · exact ⟨h, by simp [Hub.onUnregister, hc]⟩
  · intro c hc
    simp [Hub.onUnregister, hc]

/-- Instance of C27: on the hub with clients 1 and 2, reached by two registrations, the
Unregister of client 3, which was never registered, changes nothing. -/
theorem closed_only_when_dropped_witness :
    twoClientHub.onUnregister 3 = some twoClientHub :=
  (closed_only_when_dropped [2, 1] twoClientHub
      (HubReachable.register 2 (HubReachable.register 1 HubReachable.init (by decide))
        (by decide))).2.2.2 3 (by decide)

end AuctionBackend
